import Mathlib

/-!
# imdiff.c : image difference metrics

A shallow embedding of `codeDeblurImage/tvdeconv_20120607/imdiff.c` (the `imdiff`
image comparison tool) and proofs about its metric engine.

Conventions of the embedding.

* The numbers the metric engine computes (`float` / `double` values of `BasicMetrics`,
  `ComputeMssim` and the convolution) are exact rationals (`ℚ`): the statements about
  them are statements of exact arithmetic, rounding is not modelled.
* Where a C floating point value need not be a number it is a `cfloat`: a rational, an
  infinity or NaN. That is the case for the scale `D` (`atof` returns NaN for `nan`),
  for the samples `MakeDifferenceImage` stores (a quotient by the scaled `D`, which
  underflows to zero for a tiny `D`), and for a quotient by a pixel count that is zero.
  `cfloat.toFloat` maps the exact result of an operation into the range of `float`:
  a magnitude of at most `2^-150` becomes zero, one of at least `2^128 - 2^103`
  an infinity, and in between the exact value stands for the nearest `float`.
* C `int` values are `Int`. Signed overflow is undefined behaviour in C; the products
  that count samples or pixels (`NumEl` of `MakeDifferenceImage`, the divisor of
  `BasicMetrics`) and the size tests of `main` take the value wrapped to 32 bits by
  `wrapInt`. An index `x + Width*(y + Height*Channel)` into an image that exists in
  memory does not overflow and is exact, as are the loop bounds. A `ComputeMssim` that
  passed its allocation guard holds blocks of `NumChannels*Width*Height` samples, so
  its count is exact over a non-empty interior; `ComputeMssimCount` is the `int` value
  of that count for every geometry.
* `ParseParams` loops on the argument index; the loop is run with fuel and returns
  `none` when the fuel runs out.
* A `float *` is a memory block read through its index, `Int → ℚ`; a store `A[n] = v`
  is `Function.update A n v`.
* C's `/` on the rationals of the metric engine is Lean's `/` on `ℚ`, which is `0` on a
  zero divisor; no statement gives such a quotient a value unless its divisor is shown
  non-zero or its dividend is zero, and `BasicMetricsMse` and `ComputeMssimValue` give
  the C value of the two quotients by a pixel count, NaN for `0/0`.
* `conv.h` and `conv.c` (`filter`, `boundaryext`, `SeparableConv2D`) are not among the
  sources; they are modelled from the specification, and the kernel that
  `GaussianFilter(1.5, R)` returns is a parameter.
* A `for(i = lo; i < hi; i++)` loop is `forLoop lo hi body`, a left fold of the body
  over `lo, lo+1, ..., hi-1` threading the variables the loop assigns.
-/

namespace Imdiff

/-! ## Loops -/

/-- The C loop `for(i = lo; i < hi; i++) s = body i s`. -/
def forLoop {σ : Type} (lo hi : Int) (body : Int → σ → σ) (s : σ) : σ :=
  (List.range (hi - lo).toNat).foldl (fun acc (k : Nat) => body (lo + (k : Int)) acc) s

/-! ## Machine integers and floating point values -/

/-- The value of an `int` expression whose exact value is `n`, on a 32-bit two's-complement
machine. Signed overflow is undefined behaviour in C; the model takes the wrapped value. -/
def wrapInt (n : Int) : Int := (n + 2147483648) % 4294967296 - 2147483648

/-- A C floating point value where its kind matters: a number (an exact rational), an
infinity (`negative` tells its sign) or NaN. The sign of a zero is not represented: a zero
divisor counts as `+0`. -/
inductive cfloat
  | val (q : ℚ)
  | inf (negative : Bool)
  | nan
deriving DecidableEq

namespace cfloat

instance (n : Nat) : OfNat cfloat n := ⟨val (n : ℚ)⟩

/-- The C operator `-a`. -/
def neg : cfloat → cfloat
  | val a => val (-a)
  | inf s => inf (!s)
  | nan => nan

/-- The C operator `a + b` before rounding: `inf + (-inf)` is NaN. -/
def add : cfloat → cfloat → cfloat
  | val a, val b => val (a + b)
  | inf s, val _ => inf s
  | val _, inf t => inf t
  | inf s, inf t => if s = t then inf s else nan
  | _, _ => nan

/-- The C operator `a * b` before rounding: `0 * inf` is NaN. -/
def mul : cfloat → cfloat → cfloat
  | val a, val b => val (a * b)
  | inf s, val b => if b = 0 then nan else inf (s != decide (b < 0))
  | val a, inf t => if a = 0 then nan else inf (decide (a < 0) != t)
  | inf s, inf t => inf (s != t)
  | _, _ => nan

/-- The C operator `a / b` before rounding: `0/0` and `inf/inf` are NaN, another number
over zero is an infinity of its sign. -/
def div : cfloat → cfloat → cfloat
  | val a, val b =>
    if b = 0 then (if a = 0 then nan else inf (decide (a < 0))) else val (a / b)
  | val _, inf _ => val 0
  | inf s, val b => inf (s != decide (b < 0))
  | _, _ => nan

instance : Add cfloat := ⟨add⟩
instance : Sub cfloat := ⟨fun a b => add a (neg b)⟩
instance : Mul cfloat := ⟨mul⟩
instance : Div cfloat := ⟨div⟩

/-- The C comparison `a <= b`, which is false when an operand is NaN. -/
def le : cfloat → cfloat → Bool
  | val a, val b => decide (a ≤ b)
  | val _, inf t => !t
  | inf s, val _ => s
  | inf s, inf t => s || !t
  | _, _ => false

instance : LE cfloat := ⟨fun a b => le a b = true⟩

instance (a b : cfloat) : Decidable (a ≤ b) := inferInstanceAs (Decidable (le a b = true))

/-- The C comparison `a < b`, which is false when an operand is NaN. -/
def lt : cfloat → cfloat → Bool
  | val a, val b => decide (a < b)
  | val _, inf t => !t
  | inf s, val _ => s
  | inf s, inf t => s && !t
  | _, _ => false

instance : LT cfloat := ⟨fun a b => lt a b = true⟩

instance (a b : cfloat) : Decidable (a < b) := inferInstanceAs (Decidable (lt a b = true))

/-- The result of an operation as a `float`: a magnitude of at most `2^-150` (half the least
positive `float`) rounds to zero and one of at least `2^128 - 2^103` (half a step above the
largest `float`) to an infinity; in between the exact value stands for the nearest `float`. -/
def toFloat : cfloat → cfloat
  | val q =>
    if |q| ≤ 1 / 2 ^ 150 then val 0
    else if 2 ^ 128 - 2 ^ 103 ≤ |q| then inf (decide (q < 0))
    else val q
  | inf s => inf s
  | nan => nan

end cfloat

/-! ## `MakeDifferenceImage` (imdiff.c, lines 277-288) -/

/-- `MakeDifferenceImage(A, B, Width, Height, NumChannels, D)`: the block `A` after the call.
`const int NumEl = NumChannels*Width*Height; D = (2*D)/255;
for(n = 0; n < NumEl; n++) A[n] = (A[n] - B[n])/D + (float)0.5;`, every operation on
`float`. The samples before the call are numbers. -/
def MakeDifferenceImage (A B : Int → ℚ) (Width Height NumChannels : Int) (D : cfloat) :
    Int → cfloat :=
  let NumEl : Int := wrapInt (wrapInt (NumChannels * Width) * Height)
  let D : cfloat := ((2 * D).toFloat / 255).toFloat
  forLoop 0 NumEl (fun n A => Function.update A n
      (((A n - cfloat.val (B n)).toFloat / D).toFloat + cfloat.val (1 / 2)).toFloat)
    (fun n => cfloat.val (A n))

/-! ## `BasicMetrics` (imdiff.c, lines 291-315) -/

/-- The two scalars `BasicMetrics` writes through `*Max` and `*Mse`. -/
structure Metrics where
  Max : ℚ
  Mse : ℚ
deriving DecidableEq

/-- The loop variables `CurMax` and `AccumMse` of `BasicMetrics`. -/
structure BasicAcc where
  CurMax : ℚ
  AccumMse : ℚ

/-- The body of the innermost loop of `BasicMetrics` at pixel `(x, y)` of `Channel`. -/
def BasicMetricsStep (A B : Int → ℚ) (Width Height Channel y x : Int) (s : BasicAcc) :
    BasicAcc :=
  let n : Int := x + Width * (y + Height * Channel)
  let Diff : ℚ := |A n - B n|
  let CurMax : ℚ := if s.CurMax < Diff then Diff else s.CurMax
  { CurMax := CurMax, AccumMse := s.AccumMse + Diff * Diff }

/-- The three nested loops of `BasicMetrics`, from `CurMax = 0`, `AccumMse = 0`. -/
def BasicMetricsLoop (A B : Int → ℚ) (Width Height NumChannels Pad : Int) : BasicAcc :=
  forLoop 0 NumChannels (fun Channel s =>
    forLoop Pad (Height - Pad) (fun y s =>
      forLoop Pad (Width - Pad) (fun x s =>
        BasicMetricsStep A B Width Height Channel y x s) s) s)
    { CurMax := 0, AccumMse := 0 }

/-- The `int` value of the divisor `NumChannels*(Width - 2*Pad)*(Height - 2*Pad)` in the last
line of `BasicMetrics`. -/
def BasicMetricsCount (Width Height NumChannels Pad : Int) : Int :=
  wrapInt (wrapInt (NumChannels * wrapInt (Width - wrapInt (2 * Pad))) *
    wrapInt (Height - wrapInt (2 * Pad)))

/-- `BasicMetrics(&Max, &Mse, A, B, Width, Height, NumChannels, Pad)`. `Mse` is the number
stored for a non-zero count; `BasicMetricsMse` is the C value stored for every count. -/
def BasicMetrics (A B : Int → ℚ) (Width Height NumChannels Pad : Int) : Metrics :=
  let s := BasicMetricsLoop A B Width Height NumChannels Pad
  { Max := s.CurMax
    Mse := s.AccumMse / (BasicMetricsCount Width Height NumChannels Pad : ℚ) }

/-- The C value `(float)(AccumMse / (NumChannels*(Width - 2*Pad)*(Height - 2*Pad)))` that
`BasicMetrics` stores through `*Mse`: NaN when the sum and the count are both zero. -/
def BasicMetricsMse (A B : Int → ℚ) (Width Height NumChannels Pad : Int) : cfloat :=
  (cfloat.val (BasicMetricsLoop A B Width Height NumChannels Pad).AccumMse /
    cfloat.val (BasicMetricsCount Width Height NumChannels Pad : ℚ)).toFloat

/-- The sample indices of the interior region: all `n = x + Width*(y + Height*c)` with
`0 ≤ c < NumChannels`, `Pad ≤ y < Height - Pad`, `Pad ≤ x < Width - Pad`. -/
def interior (Width Height NumChannels Pad : Int) : Finset Int :=
  ((Finset.Ico 0 NumChannels ×ˢ Finset.Ico Pad (Height - Pad)) ×ˢ
      Finset.Ico Pad (Width - Pad)).image
    (fun t => t.2 + Width * (t.1.2 + Height * t.1.1))

/-! ## Collaborators declared in `conv.h` -/

/-- Modelled from the spec: the `filter` type of `conv.h`, which is not among the sources.
A kernel is an ordered sequence of taps; `none` is the null kernel, the sentinel of a failed
construction that `IsNullFilter` detects. -/
abbrev filter := Option (List ℚ)

/-- Modelled from the spec: the `boundaryext` type of `conv.h`, which is not among the sources.
Given an axis length and a coordinate index, a boundary extension returns a valid index into
that axis; it maps an out-of-range coordinate to a valid one, so a coordinate that is in
range is its own index. -/
structure boundaryext where
  ext : Int → Int → Int
  valid : ∀ N n : Int, 0 < N → 0 ≤ ext N n ∧ ext N n < N
  inside : ∀ N n : Int, 0 ≤ n → n < N → ext N n = n

/-- Modelled from the spec: the nearest-valid replication policy, an instance of `boundaryext`
(`conv.c` is not among the sources). -/
def nearestValid : boundaryext where
  ext := fun N n => max 0 (min (N - 1) n)
  valid := by
    intro N n hN
    have h : max 0 (min (N - 1) n) ≤ N - 1 := max_le (by omega) (min_le_left _ _)
    exact ⟨le_max_left _ _, lt_of_le_of_lt h (by omega)⟩
  inside := by
    intro N n h0 hN
    show max 0 (min (N - 1) n) = n
    rw [min_eq_right (by omega), max_eq_right h0]

/-- Modelled from the spec: another instance of `boundaryext` (`conv.c` is not among the
sources), which maps every out-of-range coordinate to index `0`. -/
def zeroIndex : boundaryext where
  ext := fun N n => if 0 ≤ n ∧ n < N then n else 0
  valid := by
    intro N n hN
    show 0 ≤ (if 0 ≤ n ∧ n < N then n else 0) ∧ (if 0 ≤ n ∧ n < N then n else 0) < N
    split_ifs with h
    · exact h
    · exact ⟨le_rfl, hN⟩
  inside := by
    intro N n h0 hN
    show (if 0 ≤ n ∧ n < N then n else 0) = n
    rw [if_pos ⟨h0, hN⟩]

/-- Modelled from the spec: the multiply-accumulate of one output sample of a 1D convolution
(`conv.c` is not among the sources): `taps[0]*f k + taps[1]*f (k-1) + ...`. -/
def tapSum : List ℚ → Int → (Int → ℚ) → ℚ
  | [], _, _ => 0
  | t :: ts, k, f => t * f k + tapSum ts (k - 1) f

/-- Modelled from the spec: the radius `R` of a kernel of `2R+1` taps. -/
def radius (Filter : List ℚ) : Int := ((Filter.length : Int) - 1) / 2

/-- Modelled from the spec: output sample `i` of the 1D convolution of the `N` samples `Src`
with a kernel whose tap `j` has offset `j - R` (`conv.c` is not among the sources): the sum
over the taps of `tap[j] * Src[ext(i - (j - R))]`, samples beyond the ends being synthesized
by the boundary extension. -/
def Conv1D (Filter : List ℚ) (Boundary : boundaryext) (N : Int) (Src : Int → ℚ) (i : Int) : ℚ :=
  tapSum Filter (i + radius Filter) (fun k => Src (Boundary.ext N k))

/-- Modelled from the spec: pixel `(x, y)` of channel `c` of the separable convolution of the
planar image `Src` (`conv.c` is not among the sources): the kernel `FilterX` along the
horizontal axis, then `FilterY` along the vertical axis, per channel independently. -/
def SeparableConv2DAt (Src : Int → ℚ) (FilterX FilterY : List ℚ) (Boundary : boundaryext)
    (Width Height c y x : Int) : ℚ :=
  Conv1D FilterY Boundary Height
    (fun y1 => Conv1D FilterX Boundary Width (fun x1 => Src (x1 + Width * (y1 + Height * c))) x) y

/-- Modelled from the spec: `SeparableConv2D(Dest, Buffer, Src, FilterX, FilterY, Boundary,
Width, Height, NumChannels)` of `conv.h` (`conv.c` is not among the sources): the block `Dest`
after the call. The `NumChannels*Width*Height` samples of `Dest` receive the filtered image, of
identical shape; the rest of the block is untouched. `Buffer` is scratch space for the
row-filtered pass and carries no value across the call. -/
def SeparableConv2D (Dest Src : Int → ℚ) (FilterX FilterY : List ℚ) (Boundary : boundaryext)
    (Width Height NumChannels : Int) : Int → ℚ :=
  fun n =>
    if 0 ≤ n ∧ n < NumChannels * Width * Height then
      SeparableConv2DAt Src FilterX FilterY Boundary Width Height
        (n / Width / Height) (n / Width % Height) (n % Width)
    else Dest n

/-! ## `ComputeMssim` (imdiff.c, lines 318-396) -/

/-- `MSSIM_K1` is `0.01`. -/
def MSSIM_K1 : ℚ := 1 / 100

/-- `MSSIM_K2` is `0.03`. -/
def MSSIM_K2 : ℚ := 3 / 100

/-- `MSSIM_C1` is `(MSSIM_K1*MSSIM_K1)`. -/
def MSSIM_C1 : ℚ := MSSIM_K1 * MSSIM_K1

/-- `MSSIM_C2` is `(MSSIM_K2*MSSIM_K2)`. -/
def MSSIM_C2 : ℚ := MSSIM_K2 * MSSIM_K2

/-- What `ComputeMssim` obtains from its environment: the kernel returned by
`GaussianFilter(1.5, R)`, the extension returned by `GetBoundaryExt("zpd")`, and the results of
the six `Malloc` calls in program order (`none` is a failed allocation, `some m` a fresh block
whose indeterminate content is `m`). -/
structure MssimEnv where
  Window : filter
  Boundary : boundaryext
  Buffer : Option (Int → ℚ)
  MuA : Option (Int → ℚ)
  MuB : Option (Int → ℚ)
  MuAA : Option (Int → ℚ)
  MuBB : Option (Int → ℚ)
  MuAB : Option (Int → ℚ)

/-- The blocks `MuAA`, `MuBB`, `MuAB` of `ComputeMssim`. -/
structure Products where
  MuAA : Int → ℚ
  MuBB : Int → ℚ
  MuAB : Int → ℚ

/-- The loop `for(n = 0; n < NumEl; n++)` of `ComputeMssim` that stores the pointwise products
`A[n]*A[n]`, `B[n]*B[n]`, `A[n]*B[n]`. -/
def MssimProducts (A B : Int → ℚ) (NumEl : Int) (p : Products) : Products :=
  forLoop 0 NumEl (fun n p =>
    { MuAA := Function.update p.MuAA n (A n * A n)
      MuBB := Function.update p.MuBB n (B n * B n)
      MuAB := Function.update p.MuAB n (A n * B n) }) p

/-- The body of the innermost reduction loop of `ComputeMssim` at pixel `(x, y)` of channel
`c`. -/
def MssimStep (MuA MuB MuAA MuBB MuAB : Int → ℚ) (Width Height c y x : Int) (Mssim : ℚ) : ℚ :=
  let n : Int := x + Width * (y + Height * c)
  let MuASqr : ℚ := MuA n * MuA n
  let MuBSqr : ℚ := MuB n * MuB n
  let MuAMuB : ℚ := MuA n * MuB n
  let SigmaASqr : ℚ := MuAA n - MuASqr
  let SigmaBSqr : ℚ := MuBB n - MuBSqr
  let SigmaAB : ℚ := MuAB n - MuAMuB
  Mssim + ((2 * MuAMuB + MSSIM_C1) * (2 * SigmaAB + MSSIM_C2))
    / ((MuASqr + MuBSqr + MSSIM_C1) * (SigmaASqr + SigmaBSqr + MSSIM_C2))

/-- The sum `Mssim` of `ComputeMssim` before the final division: five convolutions, then
the reduction over the interior eroded by `R`. -/
def ComputeMssimSum (Window : List ℚ) (Boundary : boundaryext)
    (MuA MuB MuAA MuBB MuAB : Int → ℚ) (A B : Int → ℚ)
    (Width Height NumChannels Pad : Int) : ℚ :=
  let R : Int := 5
  let NumPixels : Int := Width * Height
  let NumEl : Int := NumChannels * NumPixels
  let MuA := SeparableConv2D MuA A Window Window Boundary Width Height NumChannels
  let MuB := SeparableConv2D MuB B Window Window Boundary Width Height NumChannels
  let p := MssimProducts A B NumEl { MuAA := MuAA, MuBB := MuBB, MuAB := MuAB }
  let MuAA := SeparableConv2D p.MuAA p.MuAA Window Window Boundary Width Height NumChannels
  let MuBB := SeparableConv2D p.MuBB p.MuBB Window Window Boundary Width Height NumChannels
  let MuAB := SeparableConv2D p.MuAB p.MuAB Window Window Boundary Width Height NumChannels
  let Mssim : ℚ := 0
  let Pad : Int := Pad + R
  forLoop 0 NumChannels (fun c s =>
    forLoop Pad (Height - Pad) (fun y s =>
      forLoop Pad (Width - Pad) (fun x s =>
        MssimStep MuA MuB MuAA MuBB MuAB Width Height c y x s) s) s) Mssim

/-- The part of `ComputeMssim` after the allocation guard: the sum `Mssim`, then the division
`Mssim /= NumChannels*(Width - 2*Pad)*(Height - 2*Pad)` with `Pad` already increased by `R`.
A run that passed the guard holds blocks of `NumChannels*Width*Height` samples, so the count
of a non-empty interior is exact. -/
def ComputeMssimBody (Window : List ℚ) (Boundary : boundaryext)
    (MuA MuB MuAA MuBB MuAB : Int → ℚ) (A B : Int → ℚ)
    (Width Height NumChannels Pad : Int) : ℚ :=
  let R : Int := 5
  let Mssim : ℚ :=
    ComputeMssimSum Window Boundary MuA MuB MuAA MuBB MuAB A B Width Height NumChannels Pad
  let Pad : Int := Pad + R
  Mssim / ((NumChannels * (Width - 2 * Pad) * (Height - 2 * Pad) : Int) : ℚ)

/-- The `int` value of the divisor `NumChannels*(Width - 2*Pad)*(Height - 2*Pad)` of
`ComputeMssim`, `Pad` being the argument of the call, which `Pad += R` increases first. -/
def ComputeMssimCount (Width Height NumChannels Pad : Int) : Int :=
  let R : Int := 5
  let Pad : Int := wrapInt (Pad + R)
  wrapInt (wrapInt (NumChannels * wrapInt (Width - wrapInt (2 * Pad))) *
    wrapInt (Height - wrapInt (2 * Pad)))

/-- The C value `(float)Mssim` that a `ComputeMssim` past its allocation guard returns: the
quotient of the sum by the `int` count, NaN when both are zero. -/
def ComputeMssimValue (Window : List ℚ) (Boundary : boundaryext)
    (MuA MuB MuAA MuBB MuAB : Int → ℚ) (A B : Int → ℚ)
    (Width Height NumChannels Pad : Int) : cfloat :=
  (cfloat.val
      (ComputeMssimSum Window Boundary MuA MuB MuAA MuBB MuAB A B Width Height NumChannels Pad) /
    cfloat.val (ComputeMssimCount Width Height NumChannels Pad : ℚ)).toFloat

/-- `ComputeMssim(A, B, Width, Height, NumChannels, Pad)`: `Mssim` starts at `-1` and the
null-kernel test and the six allocations are tried in order; the first failure jumps to
`Catch`, which returns `Mssim`. -/
def ComputeMssim (env : MssimEnv) (A B : Int → ℚ) (Width Height NumChannels Pad : Int) : ℚ :=
  match env.Window with
  | none => -1
  | some Window =>
  match env.Buffer with
  | none => -1
  | some _ =>
  match env.MuA with
  | none => -1
  | some MuA =>
  match env.MuB with
  | none => -1
  | some MuB =>
  match env.MuAA with
  | none => -1
  | some MuAA =>
  match env.MuBB with
  | none => -1
  | some MuBB =>
  match env.MuAB with
  | none => -1
  | some MuAB =>
    ComputeMssimBody Window env.Boundary MuA MuB MuAA MuBB MuAB A B
      Width Height NumChannels Pad

/-- The per-pixel structural similarity as the specification words it, from the local means
`muA`, `muB` and the local second moments `mAA`, `mBB`, `mAB`. -/
def ssimIndex (muA muB mAA mBB mAB : ℚ) : ℚ :=
  let sigmaA2 := mAA - muA ^ 2
  let sigmaB2 := mBB - muB ^ 2
  let sigmaAB := mAB - muA * muB
  let C1 : ℚ := (1 / 100) ^ 2
  let C2 : ℚ := (3 / 100) ^ 2
  ((2 * muA * muB + C1) * (2 * sigmaAB + C2))
    / ((muA ^ 2 + muB ^ 2 + C1) * (sigmaA2 + sigmaB2 + C2))

/-- The structural similarity at pixel `(x, y)` of channel `c` as the specification words it:
`ssimIndex` of the values at that pixel of the separable window convolution (the same window
on both axes) of `A`, `B`, `A*A`, `B*B` and `A*B`. -/
def localSsim (Window : List ℚ) (Boundary : boundaryext) (A B : Int → ℚ)
    (Width Height c y x : Int) : ℚ :=
  ssimIndex
    (SeparableConv2DAt A Window Window Boundary Width Height c y x)
    (SeparableConv2DAt B Window Window Boundary Width Height c y x)
    (SeparableConv2DAt (fun n => A n * A n) Window Window Boundary Width Height c y x)
    (SeparableConv2DAt (fun n => B n * B n) Window Window Boundary Width Height c y x)
    (SeparableConv2DAt (fun n => A n * B n) Window Window Boundary Width Height c y x)

/-! ## `ParseParams` (imdiff.c, lines 400-528) -/

/-- The `enum` of possible metrics. -/
inductive metric
  | DEFAULT_METRICS
  | MAX_METRIC
  | MSE_METRIC
  | RMSE_METRIC
  | PSNR_METRIC
  | MSSIM_METRIC
deriving DecidableEq

/-- The `struct` of program parameters; a `char *` is an `Option String`, `none` being
`NULL`. -/
structure programparams where
  FileA : Option String
  FileB : Option String
  JpegQuality : Int
  Metric : metric
  SeparateChannels : Int
  Pad : Int
  DifferenceFile : Option String
  D : cfloat
deriving DecidableEq

/-- What `ParseParams` takes from the C library and from the build: `atoi`, `atof` followed
by the conversion to `float` (NaN for a string such as `nan`), and whether `LIBJPEG_SUPPORT`
is defined. -/
structure ParseEnv where
  atoi : String → Int
  atof : String → cfloat
  LIBJPEG_SUPPORT : Bool

/-- The character `s[k]` of a C string; past the last character it is the terminating NUL. -/
def charAt (s : String) (k : Nat) : Char := s.data.getD k (Char.ofNat 0)

/-- How one iteration of the argument loop of `ParseParams` ends: with `return status`, or at
the end of the loop body with the index `i` for the next test `i < argc`. -/
inductive ParseStep
  | ret (status : Int) (Param : programparams)
  | next (Param : programparams) (i : Int)
deriving DecidableEq

/-- The `switch(OptionChar)` of `ParseParams` followed by the `i++` that ends the option
branch; `i` is the index after the option string was selected. Messages are not modelled. -/
def ParseOption (env : ParseEnv) (Param : programparams) (OptionChar : Char)
    (OptionString : String) (i : Int) : ParseStep :=
  if OptionChar = 'p' then
    let Param := { Param with Pad := env.atoi OptionString }
    if Param.Pad < 0 then ParseStep.ret 0 Param else ParseStep.next Param (i + 1)
  else if OptionChar = 's' then
    let Param := { Param with SeparateChannels := 1 }
    let i := i - 1
    ParseStep.next Param (i + 1)
  else if OptionChar = 'D' then
    let Param := { Param with D := env.atof OptionString }
    if Param.D ≤ 0 then ParseStep.ret 0 Param else ParseStep.next Param (i + 1)
  else if OptionChar = 'm' then
    let Param :=
      if OptionString = "max" then { Param with Metric := metric.MAX_METRIC }
      else if OptionString = "mse" then { Param with Metric := metric.MSE_METRIC }
      else if OptionString = "rmse" then { Param with Metric := metric.RMSE_METRIC }
      else if OptionString = "psnr" then { Param with Metric := metric.PSNR_METRIC }
      else if OptionString = "mssim" then { Param with Metric := metric.MSSIM_METRIC }
      else Param
    ParseStep.next Param (i + 1)
  else if OptionChar = 'q' ∧ env.LIBJPEG_SUPPORT = true then
    let Param := { Param with JpegQuality := env.atoi OptionString }
    if Param.JpegQuality ≤ 0 ∨ Param.JpegQuality > 100 then ParseStep.ret 0 Param
    else ParseStep.next Param (i + 1)
  else if OptionChar = '-' then ParseStep.ret 0 Param
  else ParseStep.ret 0 Param

/-- The body of the loop `for(i = 1; i < argc;)` of `ParseParams` at index `i`. -/
def ParseParamsStep (env : ParseEnv) (argv : List String) (Param : programparams) (i : Int) :
    ParseStep :=
  let argc : Int := argv.length
  let arg : String := argv.getD i.toNat ""
  if charAt arg 0 = '-' then
    let OptionChar := charAt arg 1
    if OptionChar = Char.ofNat 0 then ParseStep.ret 0 Param
    else if charAt arg 2 ≠ Char.ofNat 0 then
      ParseOption env Param OptionChar (String.mk (arg.data.drop 2)) i
    else if i + 1 < argc then
      ParseOption env Param OptionChar (argv.getD (i + 1).toNat "") (i + 1)
    else ParseStep.ret 0 Param
  else
    let Param :=
      if Param.FileA = none then { Param with FileA := some arg }
      else if Param.FileB = none then { Param with FileB := some arg }
      else { Param with DifferenceFile := some arg }
    ParseStep.next Param (i + 1)

/-- The loop `for(i = 1; i < argc;)` of `ParseParams` from index `i`, followed by the test of
the two file names: `some (status, Param)` when `ParseParams` returns within `fuel` iterations,
`none` when it does not. -/
def ParseParamsLoop (env : ParseEnv) (argv : List String) :
    Nat → programparams → Int → Option (Int × programparams)
  | 0, _, _ => none
  | fuel + 1, Param, i =>
    if i < (argv.length : Int) then
      match ParseParamsStep env argv Param i with
      | ParseStep.ret status Param => some (status, Param)
      | ParseStep.next Param i => ParseParamsLoop env argv fuel Param i
    else if Param.FileA = none ∨ Param.FileB = none then some (0, Param)
    else some (1, Param)

/-- `ParseParams(&Param, argc, argv)` with `argc` the length of `argv`: the returned status
and the parameters left in `*Param`, whose content before the call is `Param`. -/
def ParseParams (env : ParseEnv) (fuel : Nat) (Param : programparams) (argv : List String) :
    Option (Int × programparams) :=
  let argc : Int := argv.length
  if argc < 2 then some (0, Param)
  else
    let Param : programparams :=
      { FileA := none, FileB := none, Metric := metric.DEFAULT_METRICS, SeparateChannels := 0,
        Pad := 0, DifferenceFile := none, JpegQuality := 95, D := 20 }
    ParseParamsLoop env argv fuel Param 1

/-! ## `main` (imdiff.c, lines 120-274) -/

/-- The local `struct` of `main` that holds an image: what `ReadImage` stores for a file, three
planar channels of `Width*Height` samples. `ReadImage` allocates them in one block that
`main` indexes with `int` offsets, so their number `3*Width*Height` is an `int` (`fits`). -/
structure image where
  Data : Int → ℚ
  Width : Int
  Height : Int
  fits : 3 * Width * Height < 2147483648 := by decide

/-- What an execution of `main` does that is visible from outside: the calls of the metric
engine with their geometry, and the lines it prints. `log10` and `sqrt` are not rational, so a
line printing `-10*log10(Mse)` or `DISPLAY_SCALING*sqrt(Mse)` records the operands `Mse`. -/
inductive Event
  | BasicMetrics (Width Height NumChannels Pad : Int)
  | ComputeMssim (Width Height NumChannels Pad : Int)
  | MakeDifferenceImage (Width Height NumChannels : Int) (D : cfloat)
  | printMax (args : List ℚ)
  | printMse (args : List ℚ)
  | printRmseOf (Mse : List ℚ)
  | printPsnrOf (Mse : List ℚ)
  | printMssim (Mssim : ℚ)
  | message (text : String)
deriving DecidableEq

/-- What `main` takes from its environment: the C library used by `ParseParams`, the
indeterminate content of its local `Param`, `ReadImage` and `WriteImage` of `imageio.h`
(`none` and `false` are their failures), and the environment of `ComputeMssim`. -/
structure MainEnv where
  parse : ParseEnv
  Param : programparams
  ReadImage : Option String → Option image
  WriteImage : (Int → cfloat) → Int → Int → Option String → Int → Bool
  mssim : MssimEnv

/-- The exit status of `main` and the events of the execution, in order. -/
structure MainResult where
  Status : Int
  events : List Event

/-- The variables `Max`, `MaxC`, `Mse`, `MseC` of `main`, with the events so far. -/
structure MainAcc where
  Max : ℚ
  MaxC : Int → ℚ
  Mse : ℚ
  MseC : Int → ℚ
  events : List Event

/-- The body of the loop `for(Channel = 0; Channel < 3; Channel++)` of `main`: `BasicMetrics`
on one channel of the two images, then the accumulation into `Max` and `Mse`. -/
def mainChannel (A B : image) (Pad : Int) (Channel : Int) (s : MainAcc) : MainAcc :=
  let r := BasicMetrics (fun n => A.Data (Channel * A.Width * A.Height + n))
    (fun n => B.Data (Channel * B.Width * B.Height + n)) A.Width A.Height 1 Pad
  let MaxC := Function.update s.MaxC Channel r.Max
  let MseC := Function.update s.MseC Channel r.Mse
  let Max := if MaxC Channel > s.Max then MaxC Channel else s.Max
  { Max := Max, MaxC := MaxC, Mse := s.Mse + MseC Channel, MseC := MseC,
    events := s.events ++ [Event.BasicMetrics A.Width A.Height 1 Pad] }

/-- Lines 171-187 of `main`: `Max = 0; Mse = 0;`, the loop over the three channels and
`Mse /= 3`. The arrays `MaxC` and `MseC` are indeterminate before the loop, which stores all
three entries of each; they start as `0` here. -/
def mainMetrics (A B : image) (Pad : Int) : MainAcc :=
  let s := forLoop 0 3 (mainChannel A B Pad)
    { Max := 0, MaxC := fun _ => 0, Mse := 0, MseC := fun _ => 0, events := [] }
  { s with Mse := s.Mse / 3 }

/-- The assignment `Mssim = (Max == 0) ? 1 : ComputeMssim(A.Data, B.Data, A.Width, A.Height,
3, Param.Pad)` of `main`: the value of `Mssim` and the call made for it. -/
def mainMssim (env : MssimEnv) (A B : image) (Pad : Int) (Max : ℚ) : ℚ × List Event :=
  if Max = 0 then (1, [])
  else (ComputeMssim env A.Data B.Data A.Width A.Height 3 Pad,
    [Event.ComputeMssim A.Width A.Height 3 Pad])

/-- The test `A.Width <= 2*(5 + Param.Pad) || A.Height <= 2*(5 + Param.Pad)` of `main`, in
`int` arithmetic. -/
def mainTooSmall (A : image) (Pad : Int) : Prop :=
  A.Width ≤ wrapInt (2 * wrapInt (5 + Pad)) ∨ A.Height ≤ wrapInt (2 * wrapInt (5 + Pad))

instance (A : image) (Pad : Int) : Decidable (mainTooSmall A Pad) := by
  unfold mainTooSmall
  infer_instance

/-- The `switch(Param.Metric)` of `main`. -/
def mainReport (env : MssimEnv) (Param : programparams) (A B : image) (m : MainAcc) :
    List Event :=
  match Param.Metric with
  | metric.DEFAULT_METRICS =>
    (if Param.SeparateChannels = 0 then
      [Event.printMax [255 * m.Max], Event.printPsnrOf [m.Mse]]
    else
      [Event.printMax [255 * m.MaxC 0, 255 * m.MaxC 1, 255 * m.MaxC 2],
        Event.printPsnrOf [m.MseC 0, m.MseC 1, m.MseC 2]]) ++
    (if mainTooSmall A Param.Pad then
      [Event.message "Image size is too small to compute MSSIM."]
    else
      let r := mainMssim env A B Param.Pad m.Max
      r.2 ++ (if r.1 ≠ -1 then [Event.printMssim r.1] else []))
  | metric.MAX_METRIC =>
    if Param.SeparateChannels = 0 then [Event.printMax [255 * m.Max]]
    else [Event.printMax [255 * m.MaxC 0, 255 * m.MaxC 1, 255 * m.MaxC 2]]
  | metric.MSE_METRIC =>
    if Param.SeparateChannels = 0 then [Event.printMse [255 * 255 * m.Mse]]
    else [Event.printMse [255 * 255 * m.MseC 0, 255 * 255 * m.MseC 1, 255 * 255 * m.MseC 2]]
  | metric.RMSE_METRIC =>
    if Param.SeparateChannels = 0 then [Event.printRmseOf [m.Mse]]
    else [Event.printRmseOf [m.MseC 0, m.MseC 1, m.MseC 2]]
  | metric.PSNR_METRIC =>
    if Param.SeparateChannels = 0 then [Event.printPsnrOf [m.Mse]]
    else [Event.printPsnrOf [m.MseC 0, m.MseC 1, m.MseC 2]]
  | metric.MSSIM_METRIC =>
    if mainTooSmall A Param.Pad then
      [Event.message "Image size is too small to compute MSSIM."]
    else
      let r := mainMssim env A B Param.Pad m.Max
      r.2 ++ (if r.1 = -1 then [Event.message "Memory allocation failed."]
        else [Event.printMssim r.1])

/-- The part of `main` after a successful `ParseParams`: the two images are read, their sizes
are compared with each other and with the pad in `int` arithmetic, then either the difference
image is made and written or the metrics are computed and reported. -/
def mainBody (env : MainEnv) (Param : programparams) : MainResult :=
  match env.ReadImage Param.FileA with
  | none => { Status := 1, events := [] }
  | some A =>
  match env.ReadImage Param.FileB with
  | none => { Status := 1, events := [] }
  | some B =>
    if A.Width ≠ B.Width ∨ A.Height ≠ B.Height then
      { Status := 1, events := [Event.message "Image sizes don't match."] }
    else if A.Width ≤ wrapInt (2 * Param.Pad) ∨ A.Height ≤ wrapInt (2 * Param.Pad) then
      { Status := 1, events := [Event.message "Removal of padding removes entire image."] }
    else
      match Param.DifferenceFile with
      | some File =>
        let Data := MakeDifferenceImage A.Data B.Data A.Width A.Height 3 Param.D
        if env.WriteImage Data A.Width A.Height (some File) Param.JpegQuality = true then
          { Status := 0, events := [Event.MakeDifferenceImage A.Width A.Height 3 Param.D] }
        else
          { Status := 1, events := [Event.MakeDifferenceImage A.Width A.Height 3 Param.D] }
      | none =>
        let m := mainMetrics A B Param.Pad
        { Status := 0, events := m.events ++ mainReport env.mssim Param A B m }

/-- `main(argc, argv)`: `none` when `ParseParams` does not return within `fuel` iterations. -/
def main (env : MainEnv) (fuel : Nat) (argv : List String) : Option MainResult :=
  match ParseParams env.parse fuel env.Param argv with
  | none => none
  | some (status, Param) =>
    if status = 0 then some { Status := 0, events := [] }
    else some (mainBody env Param)

/-! ## Weighted means -/

/-- A weighted mean of the samples of an image: a linear, positive functional that maps the
constant image `1` to `1`. -/
structure IsMean (L : (Int → ℚ) → ℚ) : Prop where
  add : ∀ f g : Int → ℚ, L (fun n => f n + g n) = L f + L g
  smul : ∀ (a : ℚ) (f : Int → ℚ), L (fun n => a * f n) = a * L f
  one : L (fun _ => 1) = 1
  nonneg : ∀ f : Int → ℚ, (∀ n, 0 ≤ f n) → 0 ≤ L f

/-! ## Sample inputs -/

/-- An 11-tap window with non-negative rational taps that sum to `1` (the binomial
coefficients of order 10 over `2^10`). -/
def binomialWindow : List ℚ :=
  [1 / 1024, 10 / 1024, 45 / 1024, 120 / 1024, 210 / 1024, 252 / 1024,
    210 / 1024, 120 / 1024, 45 / 1024, 10 / 1024, 1 / 1024]

/-- An environment in which the kernel and the six allocations succeed. -/
def sampleEnv : MssimEnv where
  Window := some binomialWindow
  Boundary := nearestValid
  Buffer := some (fun _ => 0)
  MuA := some (fun _ => 1)
  MuB := some (fun _ => 2)
  MuAA := some (fun _ => 3)
  MuBB := some (fun _ => 4)
  MuAB := some (fun _ => 5)

/-- A ramp: sample `n` is `n/16`, which fills a 4×4 single-channel image with sixteen distinct
values. -/
def rampImage : Int → ℚ := fun n => (n : ℚ) / 16

/-- The ramp `rampImage` with every sample raised by `1/4`. -/
def rampShifted : Int → ℚ := fun n => rampImage n + 1 / 4

/-- The ramp `rampImage` with every sample but sample `4` raised by `1`: as a 3×3
single-channel image it differs from the ramp on the 1-pixel border only. -/
def rampBorder : Int → ℚ := fun n => if n = 4 then rampImage n else rampImage n + 1

/-- The ramp `rampImage` with sample `0`, the first corner pixel, set to `5`. -/
def rampCorner : Int → ℚ := fun n => if n = 0 then 5 else rampImage n

/-- The image whose samples all hold `v`. -/
def flatImage (v : ℚ) : Int → ℚ := fun _ => v

/-- A decimal `atoi` for the sample environment: an optional `-`, then the leading digits. -/
def sampleAtoi (s : String) : Int :=
  let value : List Char → Int := fun cs =>
    (cs.takeWhile Char.isDigit).foldl (fun acc c => 10 * acc + ((c.toNat - 48 : Nat) : Int)) 0
  match s.data with
  | '-' :: cs => - value cs
  | cs => value cs

/-- A C library for the sample runs: decimal `atoi`, `atof` on decimal integers and on `nan`,
no JPEG support. -/
def sampleParseEnv : ParseEnv where
  atoi := sampleAtoi
  atof := fun s => if s = "nan" then cfloat.nan else cfloat.val (sampleAtoi s : ℚ)
  LIBJPEG_SUPPORT := false

/-- The content of the parameters before `ParseParams` in the sample runs. -/
def sampleParam : programparams where
  FileA := none
  FileB := none
  JpegQuality := 0
  Metric := metric.DEFAULT_METRICS
  SeparateChannels := 0
  Pad := 0
  DifferenceFile := none
  D := 0

/-- The parameters after `imdiff -p 3 -D 7 a.bmp b.bmp`. -/
def sampleParsed : programparams where
  FileA := some "a.bmp"
  FileB := some "b.bmp"
  JpegQuality := 95
  Metric := metric.DEFAULT_METRICS
  SeparateChannels := 0
  Pad := 3
  DifferenceFile := none
  D := 7

/-- The parameters after `imdiff -p 1073741824 a.bmp b.bmp`. -/
def sampleParsedHuge : programparams where
  FileA := some "a.bmp"
  FileB := some "b.bmp"
  JpegQuality := 95
  Metric := metric.DEFAULT_METRICS
  SeparateChannels := 0
  Pad := 1073741824
  DifferenceFile := none
  D := 20

/-- An environment of `main` for the sample runs: every file holds a 4×5 three-channel image,
the ramp for `a.bmp` and the shifted ramp for every other name. -/
def sampleMainEnv : MainEnv where
  parse := sampleParseEnv
  Param := sampleParam
  ReadImage := fun File =>
    if File = some "a.bmp" then some { Data := rampImage, Width := 4, Height := 5 }
    else some { Data := rampShifted, Width := 4, Height := 5 }
  WriteImage := fun _ _ _ _ _ => true
  mssim := sampleEnv

/-- An environment of `main` with images large enough for the MSSIM: every file holds an 11×12
three-channel image, the ramp for `a.bmp` and the shifted ramp for every other name. -/
def sampleMainEnvWide : MainEnv where
  parse := sampleParseEnv
  Param := sampleParam
  ReadImage := fun File =>
    if File = some "a.bmp" then some { Data := rampImage, Width := 11, Height := 12 }
    else some { Data := rampShifted, Width := 11, Height := 12 }
  WriteImage := fun _ _ _ _ _ => true
  mssim := sampleEnv

/-- The parameters after `imdiff -m mssim a.bmp b.bmp`. -/
def sampleParsedMssim : programparams where
  FileA := some "a.bmp"
  FileB := some "b.bmp"
  JpegQuality := 95
  Metric := metric.MSSIM_METRIC
  SeparateChannels := 0
  Pad := 0
  DifferenceFile := none
  D := 20

/-! ## Loop lemmas -/

theorem forLoop_of_le {σ : Type} (lo hi : Int) (body : Int → σ → σ) (s : σ) (h : hi ≤ lo) :
    forLoop lo hi body s = s := by
  have : (hi - lo).toNat = 0 := by omega
  simp [forLoop, this]

theorem forLoop_succ {σ : Type} (lo hi : Int) (body : Int → σ → σ) (s : σ) (h : lo ≤ hi) :
    forLoop lo (hi + 1) body s = body hi (forLoop lo hi body s) := by
  have h1 : (hi + 1 - lo).toNat = (hi - lo).toNat + 1 := by omega
  have h2 : lo + (((hi - lo).toNat : Nat) : Int) = hi := by omega
  unfold forLoop
  rw [h1, List.range_succ, List.foldl_append]
  simp only [List.foldl_cons, List.foldl_nil]
  rw [h2]

/-- Invariant rule for `forLoop`. -/
theorem forLoop_induction {σ : Type} (P : Int → σ → Prop) (lo hi : Int) (body : Int → σ → σ)
    (s : σ) (hle : lo ≤ hi) (h0 : P lo s)
    (hs : ∀ i t, lo ≤ i → i < hi → P i t → P (i + 1) (body i t)) :
    P hi (forLoop lo hi body s) := by
  have key : ∀ k : Nat, lo + (k : Int) ≤ hi →
      P (lo + (k : Int)) (forLoop lo (lo + (k : Int)) body s) := by
    intro k
    induction k with
    | zero =>
      intro _
      simpa [forLoop_of_le] using h0
    | succ k ih =>
      intro hk
      have hk1 : lo + (k : Int) ≤ hi := by push_cast at hk; omega
      have e : lo + ((k + 1 : Nat) : Int) = (lo + (k : Int)) + 1 := by push_cast; ring
      rw [e, forLoop_succ lo (lo + (k : Int)) body s (by omega)]
      exact hs _ _ (by omega) (by push_cast at hk; omega) (ih hk1)
  have e : lo + (((hi - lo).toNat : Nat) : Int) = hi := by omega
  have := key (hi - lo).toNat (by omega)
  rwa [e] at this

theorem Ico_succ_right_eq (lo i : Int) (h : lo ≤ i) :
    Finset.Ico lo (i + 1) = insert i (Finset.Ico lo i) := by
  ext j
  simp only [Finset.mem_Ico, Finset.mem_insert]
  omega

/-- Two loops whose bodies agree on the iterated range compute the same state. -/
theorem forLoop_congr {σ : Type} (lo hi : Int) (body body2 : Int → σ → σ) (s : σ)
    (h : ∀ i t, lo ≤ i → i < hi → body i t = body2 i t) :
    forLoop lo hi body s = forLoop lo hi body2 s := by
  rcases le_or_lt lo hi with hle | hlt
  · refine forLoop_induction (fun i t => t = forLoop lo i body2 s) lo hi body s hle ?_ ?_
    · simp [forLoop_of_le]
    · intro i t h1 h2 ht
      rw [forLoop_succ lo i body2 s h1, ← ht, h i t h1 h2]
  · rw [forLoop_of_le _ _ _ _ hlt.le, forLoop_of_le _ _ _ _ hlt.le]

/-- A component of the state to which every iteration adds `f i` ends as the initial value
plus the sum of `f` over the range. -/
theorem forLoop_proj_add {σ : Type} (π : σ → ℚ) (f : Int → ℚ) (lo hi : Int)
    (body : Int → σ → σ) (s : σ)
    (h : ∀ i t, lo ≤ i → i < hi → π (body i t) = π t + f i) :
    π (forLoop lo hi body s) = π s + ∑ i in Finset.Ico lo hi, f i := by
  rcases le_or_lt lo hi with hle | hlt
  · refine forLoop_induction (fun i t => π t = π s + ∑ j in Finset.Ico lo i, f j)
      lo hi body s hle ?_ ?_
    · simp
    · intro i t h1 h2 ht
      rw [h i t h1 h2, ht, Ico_succ_right_eq lo i h1, Finset.sum_insert (by simp)]
      ring
  · rw [forLoop_of_le _ _ _ _ hlt.le, Finset.Ico_eq_empty (by omega)]
    simp

/-- A component of the state that every iteration raises to an upper bound of itself and of
what `Q i` bounds ends as the least upper bound of the initial value and the range. -/
theorem forLoop_proj_le_iff {σ : Type} (π : σ → ℚ) (Q : Int → ℚ → Prop) (lo hi : Int)
    (body : Int → σ → σ) (s : σ)
    (h : ∀ i t c, lo ≤ i → i < hi → (π (body i t) ≤ c ↔ π t ≤ c ∧ Q i c)) (c : ℚ) :
    π (forLoop lo hi body s) ≤ c ↔ π s ≤ c ∧ ∀ i, lo ≤ i → i < hi → Q i c := by
  rcases le_or_lt lo hi with hle | hlt
  · refine forLoop_induction
      (fun i t => π t ≤ c ↔ π s ≤ c ∧ ∀ j, lo ≤ j → j < i → Q j c) lo hi body s hle ?_ ?_
    · constructor
      · intro h0
        exact ⟨h0, fun j h1 h2 => absurd h2 (by omega)⟩
      · exact fun h0 => h0.1
    · intro i t h1 h2 ht
      rw [h i t c h1 h2, ht]
      constructor
      · rintro ⟨⟨h3, h4⟩, h5⟩
        refine ⟨h3, fun j hj1 hj2 => ?_⟩
        rcases eq_or_lt_of_le (show j ≤ i by omega) with e | e
        · exact e ▸ h5
        · exact h4 j hj1 e
      · rintro ⟨h3, h4⟩
        exact ⟨⟨h3, fun j hj1 hj2 => h4 j hj1 (by omega)⟩, h4 i h1 (by omega)⟩
  · rw [forLoop_of_le _ _ _ _ hlt.le]
    constructor
    · intro h0
      exact ⟨h0, fun j h1 h2 => absurd h2 (by omega)⟩
    · exact fun h0 => h0.1

/-! ## Machine integers and floating point values -/

/-- An `int` expression whose exact value fits 32 bits has that value. -/
theorem wrapInt_of_range (n : Int) (h0 : -2147483648 ≤ n) (h1 : n < 2147483648) :
    wrapInt n = n := by
  unfold wrapInt
  omega

/-- The wrapped value is the exact value modulo `2^32`. -/
theorem wrapInt_modEq (n : Int) : wrapInt n ≡ n [ZMOD 4294967296] := by
  unfold wrapInt Int.ModEq
  omega

/-- Expressions that agree modulo `2^32` have the same wrapped value. -/
theorem wrapInt_congr (a b : Int) (h : a ≡ b [ZMOD 4294967296]) : wrapInt a = wrapInt b := by
  unfold wrapInt
  unfold Int.ModEq at h
  omega

/-- Wrapping every intermediate product of `NumChannels*Width*Height` gives the wrapped exact
product. -/
theorem wrapInt_NumEl (Width Height NumChannels : Int) :
    wrapInt (wrapInt (NumChannels * Width) * Height) = wrapInt (NumChannels * Width * Height) :=
  wrapInt_congr _ _ ((wrapInt_modEq _).mul_right _)

/-- The `int` divisor of `BasicMetrics` is the wrapped exact product. -/
theorem BasicMetricsCount_eq_wrapInt (Width Height NumChannels Pad : Int) :
    BasicMetricsCount Width Height NumChannels Pad =
      wrapInt (NumChannels * (Width - 2 * Pad) * (Height - 2 * Pad)) := by
  unfold BasicMetricsCount
  have hW : wrapInt (Width - wrapInt (2 * Pad)) ≡ Width - 2 * Pad [ZMOD 4294967296] :=
    (wrapInt_modEq _).trans ((Int.ModEq.refl Width).sub (wrapInt_modEq _))
  have hH : wrapInt (Height - wrapInt (2 * Pad)) ≡ Height - 2 * Pad [ZMOD 4294967296] :=
    (wrapInt_modEq _).trans ((Int.ModEq.refl Height).sub (wrapInt_modEq _))
  exact wrapInt_congr _ _
    (((wrapInt_modEq _).trans ((Int.ModEq.refl NumChannels).mul hW)).mul hH)

/-- The `int` divisor of `BasicMetrics` is exact when the exact product fits 32 bits. -/
theorem BasicMetricsCount_of_range (Width Height NumChannels Pad : Int)
    (h0 : -2147483648 ≤ NumChannels * (Width - 2 * Pad) * (Height - 2 * Pad))
    (h1 : NumChannels * (Width - 2 * Pad) * (Height - 2 * Pad) < 2147483648) :
    BasicMetricsCount Width Height NumChannels Pad =
      NumChannels * (Width - 2 * Pad) * (Height - 2 * Pad) := by
  rw [BasicMetricsCount_eq_wrapInt, wrapInt_of_range _ h0 h1]

namespace cfloat

theorem val_sub_val (a b : ℚ) : val a - val b = val (a - b) := by
  show add (val a) (neg (val b)) = val (a - b)
  rw [sub_eq_add_neg]
  rfl

theorem val_add_val (a b : ℚ) : val a + val b = val (a + b) := rfl

theorem two_mul_val (d : ℚ) : (2 : cfloat) * val d = val (2 * d) := by
  show mul (val ((2 : Nat) : ℚ)) (val d) = val (2 * d)
  rw [Nat.cast_ofNat]
  rfl

theorem val_div_val (a b : ℚ) (hb : b ≠ 0) : val a / val b = val (a / b) := by
  show div (val a) (val b) = val (a / b)
  simp only [div, if_neg hb]

theorem val_div_zero (a : ℚ) :
    val a / val 0 = if a = 0 then nan else inf (decide (a < 0)) := by
  show div (val a) (val 0) = _
  simp only [div, if_true]

theorem val_div_ofNat (a : ℚ) : val a / (255 : cfloat) = val (a / 255) := by
  show div (val a) (val ((255 : Nat) : ℚ)) = val (a / 255)
  rw [Nat.cast_ofNat]
  simp only [div, if_neg (show (255 : ℚ) ≠ 0 by norm_num)]

/-- A number in the range of `float` is kept. -/
theorem toFloat_of_range (q : ℚ) (h1 : 1 / 2 ^ 150 < |q|) (h2 : |q| < 2 ^ 128 - 2 ^ 103) :
    (val q).toFloat = val q := by
  simp only [toFloat, if_neg (not_le.2 h1), if_neg (not_le.2 h2)]

/-- A magnitude of at most `2^-150` underflows to zero. -/
theorem toFloat_of_small (q : ℚ) (h : |q| ≤ 1 / 2 ^ 150) : (val q).toFloat = val 0 := by
  simp only [toFloat, if_pos h]

theorem toFloat_zero : (val 0).toFloat = val 0 :=
  toFloat_of_small 0 (by norm_num)

theorem toFloat_half : (val (1 / 2)).toFloat = val (1 / 2) :=
  toFloat_of_range _ (by norm_num [abs_of_pos]) (by norm_num [abs_of_pos])

end cfloat

/-! ## `MakeDifferenceImage` -/

/-- The block after `MakeDifferenceImage`, sample by sample: the `int` value of `NumEl`
bounds the samples that are replaced. -/
theorem MakeDifferenceImage_apply (A B : Int → ℚ) (Width Height NumChannels : Int)
    (D : cfloat) (n : Int) :
    MakeDifferenceImage A B Width Height NumChannels D n =
      if 0 ≤ n ∧ n < wrapInt (wrapInt (NumChannels * Width) * Height) then
        (((cfloat.val (A n) - cfloat.val (B n)).toFloat /
          ((2 * D).toFloat / 255).toFloat).toFloat + cfloat.val (1 / 2)).toFloat
      else cfloat.val (A n) := by
  unfold MakeDifferenceImage
  generalize wrapInt (wrapInt (NumChannels * Width) * Height) = N
  generalize ((2 * D).toFloat / 255).toFloat = E
  rcases le_or_lt 0 N with hle | hlt
  · have key := forLoop_induction
      (fun i (t : Int → cfloat) => ∀ m, t m =
        if 0 ≤ m ∧ m < i then
          (((cfloat.val (A m) - cfloat.val (B m)).toFloat / E).toFloat
            + cfloat.val (1 / 2)).toFloat
        else cfloat.val (A m))
      0 N
      (fun n T => Function.update T n
        (((T n - cfloat.val (B n)).toFloat / E).toFloat + cfloat.val (1 / 2)).toFloat)
      (fun n => cfloat.val (A n)) hle
      (by
        intro m
        rw [if_neg (by omega)])
      (by
        intro i t h1 h2 ht m
        beta_reduce
        by_cases hm : m = i
        · subst hm
          rw [Function.update_same, ht m, if_neg (by omega), if_pos (by omega)]
        · rw [Function.update_noteq hm, ht m]
          by_cases hc : 0 ≤ m ∧ m < i
          · rw [if_pos hc, if_pos (by omega)]
          · rw [if_neg hc, if_neg (by omega)])
    exact key n
  · rw [forLoop_of_le _ _ _ _ hlt.le, if_neg (by omega)]

/-! ## `BasicMetrics` -/

theorem mem_interior (Width Height NumChannels Pad n : Int) :
    n ∈ interior Width Height NumChannels Pad ↔
      ∃ c y x : Int, (0 ≤ c ∧ c < NumChannels) ∧ (Pad ≤ y ∧ y < Height - Pad) ∧
        (Pad ≤ x ∧ x < Width - Pad) ∧ n = x + Width * (y + Height * c) := by
  unfold interior
  simp only [Finset.mem_image, Finset.mem_product, Finset.mem_Ico, Prod.exists]
  constructor
  · rintro ⟨c, y, x, ⟨⟨hc, hy⟩, hx⟩, rfl⟩
    exact ⟨c, y, x, hc, hy, hx, rfl⟩
  · rintro ⟨c, y, x, hc, hy, hx, rfl⟩
    exact ⟨c, y, x, ⟨⟨hc, hy⟩, hx⟩, rfl⟩

/-- `AccumMse` after the three loops is the sum of the squared differences over the
coordinates of the interior. -/
theorem BasicMetricsLoop_AccumMse (A B : Int → ℚ) (Width Height NumChannels Pad : Int) :
    (BasicMetricsLoop A B Width Height NumChannels Pad).AccumMse =
      ∑ c in Finset.Ico 0 NumChannels, ∑ y in Finset.Ico Pad (Height - Pad),
        ∑ x in Finset.Ico Pad (Width - Pad),
          (A (x + Width * (y + Height * c)) - B (x + Width * (y + Height * c))) ^ 2 := by
  unfold BasicMetricsLoop
  rw [forLoop_proj_add BasicAcc.AccumMse (fun c => ∑ y in Finset.Ico Pad (Height - Pad),
        ∑ x in Finset.Ico Pad (Width - Pad),
          (A (x + Width * (y + Height * c)) - B (x + Width * (y + Height * c))) ^ 2)]
  · simp
  · intro c t _ _
    apply forLoop_proj_add BasicAcc.AccumMse
    intro y t _ _
    apply forLoop_proj_add BasicAcc.AccumMse
    intro x t _ _
    simp only [BasicMetricsStep]
    rw [abs_mul_abs_self, sq]

/-- `CurMax` after the three loops is the least upper bound of `0` and the absolute
differences over the coordinates of the interior. -/
theorem BasicMetricsLoop_CurMax_le_iff (A B : Int → ℚ) (Width Height NumChannels Pad : Int)
    (m : ℚ) :
    (BasicMetricsLoop A B Width Height NumChannels Pad).CurMax ≤ m ↔
      0 ≤ m ∧ ∀ c, 0 ≤ c → c < NumChannels → ∀ y, Pad ≤ y → y < Height - Pad →
        ∀ x, Pad ≤ x → x < Width - Pad →
          |A (x + Width * (y + Height * c)) - B (x + Width * (y + Height * c))| ≤ m := by
  unfold BasicMetricsLoop
  rw [forLoop_proj_le_iff BasicAcc.CurMax (fun c m => ∀ y, Pad ≤ y → y < Height - Pad →
        ∀ x, Pad ≤ x → x < Width - Pad →
          |A (x + Width * (y + Height * c)) - B (x + Width * (y + Height * c))| ≤ m)]
  intro c t m _ _
  apply forLoop_proj_le_iff BasicAcc.CurMax (fun y m => ∀ x, Pad ≤ x → x < Width - Pad →
          |A (x + Width * (y + Height * c)) - B (x + Width * (y + Height * c))| ≤ m)
  intro y t m _ _
  apply forLoop_proj_le_iff BasicAcc.CurMax (fun x m =>
          |A (x + Width * (y + Height * c)) - B (x + Width * (y + Height * c))| ≤ m)
  intro x t m _ _
  simp only [BasicMetricsStep]
  split_ifs with hlt
  · constructor
    · intro h
      exact ⟨le_trans hlt.le h, h⟩
    · exact fun h => h.2
  · constructor
    · intro h
      exact ⟨h, le_trans (not_lt.mp hlt) h⟩
    · exact fun h => h.1

/-! ## The planar index `x + Width*(y + Height*c)` -/

theorem index_split (Width x x2 a a2 : Int) (hx : 0 ≤ x ∧ x < Width) (hx2 : 0 ≤ x2 ∧ x2 < Width)
    (h : x + Width * a = x2 + Width * a2) : x = x2 ∧ a = a2 := by
  have e1 : (x + Width * a) % Width = x := by
    rw [Int.add_mul_emod_self_left, Int.emod_eq_of_lt hx.1 hx.2]
  have e2 : (x2 + Width * a2) % Width = x2 := by
    rw [Int.add_mul_emod_self_left, Int.emod_eq_of_lt hx2.1 hx2.2]
  have hxx : x = x2 := by rw [← e1, ← e2, h]
  refine ⟨hxx, ?_⟩
  have hW : Width ≠ 0 := by omega
  have h3 : Width * a = Width * a2 := by omega
  exact Int.eq_of_mul_eq_mul_left hW h3

/-- Distinct coordinates inside the image have distinct sample indices. -/
theorem index_injective (Width Height c y x c2 y2 x2 : Int)
    (hx : 0 ≤ x ∧ x < Width) (hx2 : 0 ≤ x2 ∧ x2 < Width)
    (hy : 0 ≤ y ∧ y < Height) (hy2 : 0 ≤ y2 ∧ y2 < Height)
    (h : x + Width * (y + Height * c) = x2 + Width * (y2 + Height * c2)) :
    c = c2 ∧ y = y2 ∧ x = x2 := by
  obtain ⟨h1, h2⟩ := index_split Width x x2 _ _ hx hx2 h
  obtain ⟨h3, h4⟩ := index_split Height y y2 _ _ hy hy2 h2
  exact ⟨h4, h3, h1⟩

/-- A coordinate inside the image indexes one of the `NumChannels*Width*Height` samples. -/
theorem index_range (Width Height NumChannels c y x : Int)
    (hc : 0 ≤ c ∧ c < NumChannels) (hy : 0 ≤ y ∧ y < Height) (hx : 0 ≤ x ∧ x < Width) :
    0 ≤ x + Width * (y + Height * c) ∧
      x + Width * (y + Height * c) < NumChannels * Width * Height := by
  have hW : 0 < Width := by omega
  have hH : 0 < Height := by omega
  have h1 : 0 ≤ Height * c := mul_nonneg hH.le hc.1
  have h2 : 0 ≤ Width * (y + Height * c) := mul_nonneg hW.le (by omega)
  have h3 : Height * (c + 1) ≤ Height * NumChannels :=
    mul_le_mul_of_nonneg_left (by omega) hH.le
  have h4 : Width * (y + Height * c + 1) ≤ Width * (Height * NumChannels) :=
    mul_le_mul_of_nonneg_left (by rw [mul_add, mul_one] at h3; omega) hW.le
  have h5 : Width * (y + Height * c + 1) = Width * (y + Height * c) + Width := by ring
  have h6 : Width * (Height * NumChannels) = NumChannels * Width * Height := by ring
  constructor
  · omega
  · omega

/-- A sum over the sample indices of the interior is the sum over its coordinates. -/
theorem sum_interior (g : Int → ℚ) (Width Height NumChannels Pad : Int) (hP : 0 ≤ Pad) :
    ∑ n in interior Width Height NumChannels Pad, g n =
      ∑ c in Finset.Ico 0 NumChannels, ∑ y in Finset.Ico Pad (Height - Pad),
        ∑ x in Finset.Ico Pad (Width - Pad), g (x + Width * (y + Height * c)) := by
  unfold interior
  rw [Finset.sum_image]
  · rw [Finset.sum_product, Finset.sum_product]
  · rintro ⟨⟨c, y⟩, x⟩ h1 ⟨⟨c2, y2⟩, x2⟩ h2 h
    simp only [Finset.mem_product, Finset.mem_Ico] at h1 h2
    obtain ⟨e1, e2, e3⟩ := index_injective Width Height c y x c2 y2 x2
      (by omega) (by omega) (by omega) (by omega) h
    rw [e1, e2, e3]

/-- The sum of a constant over a region `[0, C) × [p, Height - p) × [p, Width - p)`. -/
theorem sum_region_const (d : ℚ) (Width Height NumChannels p : Int)
    (hC : 0 ≤ NumChannels) (hW : 2 * p ≤ Width) (hH : 2 * p ≤ Height) :
    ∑ _c in Finset.Ico 0 NumChannels, ∑ _y in Finset.Ico p (Height - p),
        ∑ _x in Finset.Ico p (Width - p), d =
      ((NumChannels * (Width - 2 * p) * (Height - 2 * p) : Int) : ℚ) * d := by
  simp only [Finset.sum_const, Int.card_Ico, nsmul_eq_mul]
  have e1 : (((NumChannels - 0).toNat : Nat) : ℚ) = (NumChannels : ℚ) := by
    rw [← Int.cast_natCast, Int.toNat_of_nonneg (by omega)]; simp
  have e2 : (((Height - p - p).toNat : Nat) : ℚ) = ((Height - 2 * p : Int) : ℚ) := by
    rw [← Int.cast_natCast, Int.toNat_of_nonneg (by omega)]; congr 1; ring
  have e3 : (((Width - p - p).toNat : Nat) : ℚ) = ((Width - 2 * p : Int) : ℚ) := by
    rw [← Int.cast_natCast, Int.toNat_of_nonneg (by omega)]; congr 1; ring
  rw [e1, e2, e3]
  push_cast
  ring

/-- `Mse` is `AccumMse` over the interior, divided by the count. -/
theorem BasicMetrics_Mse (A B : Int → ℚ) (Width Height NumChannels Pad : Int) :
    (BasicMetrics A B Width Height NumChannels Pad).Mse =
      (∑ c in Finset.Ico 0 NumChannels, ∑ y in Finset.Ico Pad (Height - Pad),
        ∑ x in Finset.Ico Pad (Width - Pad),
          (A (x + Width * (y + Height * c)) - B (x + Width * (y + Height * c))) ^ 2)
        / (BasicMetricsCount Width Height NumChannels Pad : ℚ) := by
  unfold BasicMetrics
  simp only
  rw [BasicMetricsLoop_AccumMse]

/-- `Max` is the least upper bound of `0` and the absolute differences over the interior. -/
theorem BasicMetrics_Max_le_iff (A B : Int → ℚ) (Width Height NumChannels Pad : Int) (m : ℚ) :
    (BasicMetrics A B Width Height NumChannels Pad).Max ≤ m ↔
      0 ≤ m ∧ ∀ c, 0 ≤ c → c < NumChannels → ∀ y, Pad ≤ y → y < Height - Pad →
        ∀ x, Pad ≤ x → x < Width - Pad →
          |A (x + Width * (y + Height * c)) - B (x + Width * (y + Height * c))| ≤ m :=
  BasicMetricsLoop_CurMax_le_iff A B Width Height NumChannels Pad m

/-- When the absolute difference is the same `d` at every coordinate of a non-empty interior,
`Max` is `d` and `Mse` is the exact count times `d^2` over the `int` count. -/
theorem BasicMetrics_of_const (A B : Int → ℚ) (Width Height NumChannels Pad : Int) (d : ℚ)
    (hC : 1 ≤ NumChannels) (hW : 2 * Pad < Width) (hH : 2 * Pad < Height)
    (hd : ∀ c, 0 ≤ c → c < NumChannels → ∀ y, Pad ≤ y → y < Height - Pad →
        ∀ x, Pad ≤ x → x < Width - Pad →
          |A (x + Width * (y + Height * c)) - B (x + Width * (y + Height * c))| = d) :
    (BasicMetrics A B Width Height NumChannels Pad).Max = d ∧
      (BasicMetrics A B Width Height NumChannels Pad).Mse =
        ((NumChannels * (Width - 2 * Pad) * (Height - 2 * Pad) : Int) : ℚ) * d ^ 2
          / (BasicMetricsCount Width Height NumChannels Pad : ℚ) := by
  have hd0 : 0 ≤ d := by
    rw [← hd 0 le_rfl (by omega) Pad le_rfl (by omega) Pad le_rfl (by omega)]
    exact abs_nonneg _
  constructor
  · apply le_antisymm
    · rw [BasicMetrics_Max_le_iff]
      exact ⟨hd0, fun c h1 h2 y h3 h4 x h5 h6 => (hd c h1 h2 y h3 h4 x h5 h6).le⟩
    · have h := (BasicMetrics_Max_le_iff A B Width Height NumChannels Pad _).1 le_rfl
      have h2 := h.2 0 le_rfl (by omega) Pad le_rfl (by omega) Pad le_rfl (by omega)
      rwa [hd 0 le_rfl (by omega) Pad le_rfl (by omega) Pad le_rfl (by omega)] at h2
  · rw [BasicMetrics_Mse]
    have e : ∑ c in Finset.Ico 0 NumChannels, ∑ y in Finset.Ico Pad (Height - Pad),
        ∑ x in Finset.Ico Pad (Width - Pad),
          (A (x + Width * (y + Height * c)) - B (x + Width * (y + Height * c))) ^ 2 =
        ∑ _c in Finset.Ico 0 NumChannels, ∑ _y in Finset.Ico Pad (Height - Pad),
          ∑ _x in Finset.Ico Pad (Width - Pad), d ^ 2 := by
      refine Finset.sum_congr rfl (fun c hc => Finset.sum_congr rfl (fun y hy =>
        Finset.sum_congr rfl (fun x hx => ?_)))
      simp only [Finset.mem_Ico] at hc hy hx
      rw [← hd c hc.1 hc.2 y hy.1 hy.2 x hx.1 hx.2, sq_abs]
    rw [e, sum_region_const _ _ _ _ _ (by omega) hW.le hH.le]

/-- When the two images agree at every coordinate of a non-empty interior, `Max` and `Mse`
are `0`. -/
theorem BasicMetrics_of_agree (A B : Int → ℚ) (Width Height NumChannels Pad : Int)
    (hC : 1 ≤ NumChannels) (hW : 2 * Pad < Width) (hH : 2 * Pad < Height)
    (hAB : ∀ c, 0 ≤ c → c < NumChannels → ∀ y, Pad ≤ y → y < Height - Pad →
        ∀ x, Pad ≤ x → x < Width - Pad →
          A (x + Width * (y + Height * c)) = B (x + Width * (y + Height * c))) :
    (BasicMetrics A B Width Height NumChannels Pad).Max = 0 ∧
      (BasicMetrics A B Width Height NumChannels Pad).Mse = 0 := by
  have h := BasicMetrics_of_const A B Width Height NumChannels Pad 0 hC hW hH (by
    intro c h1 h2 y h3 h4 x h5 h6
    rw [hAB c h1 h2 y h3 h4 x h5 h6, sub_self, abs_zero])
  rw [zero_pow two_ne_zero, mul_zero, zero_div] at h
  exact h

/-- When the absolute difference is the same `d` at every coordinate of a non-empty interior
whose pixel count fits an `int`, `Max` is `d` and `Mse` is `d^2`. -/
theorem BasicMetrics_of_const_of_range (A B : Int → ℚ) (Width Height NumChannels Pad : Int)
    (d : ℚ) (hC : 1 ≤ NumChannels) (hW : 2 * Pad < Width) (hH : 2 * Pad < Height)
    (hfit : NumChannels * (Width - 2 * Pad) * (Height - 2 * Pad) < 2147483648)
    (hd : ∀ c, 0 ≤ c → c < NumChannels → ∀ y, Pad ≤ y → y < Height - Pad →
        ∀ x, Pad ≤ x → x < Width - Pad →
          |A (x + Width * (y + Height * c)) - B (x + Width * (y + Height * c))| = d) :
    (BasicMetrics A B Width Height NumChannels Pad).Max = d ∧
      (BasicMetrics A B Width Height NumChannels Pad).Mse = d ^ 2 := by
  have h := BasicMetrics_of_const A B Width Height NumChannels Pad d hC hW hH hd
  have h1 : 0 < NumChannels * (Width - 2 * Pad) :=
    mul_pos (by omega) (by omega)
  have h2 : 0 < NumChannels * (Width - 2 * Pad) * (Height - 2 * Pad) :=
    mul_pos h1 (by omega)
  have hN : ((NumChannels * (Width - 2 * Pad) * (Height - 2 * Pad) : Int) : ℚ) ≠ 0 := by
    exact_mod_cast h2.ne'
  rw [BasicMetricsCount_of_range _ _ _ _ (by omega) hfit, mul_div_cancel_left₀ _ hN] at h
  exact h

/-- `Max` is attained at a sample of a non-empty interior and bounds every one of them. -/
theorem BasicMetrics_Max_isGreatest (A B : Int → ℚ) (Width Height NumChannels Pad : Int)
    (hC : 1 ≤ NumChannels) (hW : 2 * Pad < Width) (hH : 2 * Pad < Height) :
    IsGreatest ((fun n => |A n - B n|) '' (interior Width Height NumChannels Pad : Set Int))
      (BasicMetrics A B Width Height NumChannels Pad).Max := by
  have hne : (interior Width Height NumChannels Pad).Nonempty :=
    ⟨Pad + Width * (Pad + Height * 0), (mem_interior _ _ _ _ _).2
      ⟨0, Pad, Pad, ⟨le_rfl, by omega⟩, ⟨le_rfl, by omega⟩, ⟨le_rfl, by omega⟩, rfl⟩⟩
  obtain ⟨n0, hn0, hmax⟩ := Finset.exists_max_image _ (fun n => |A n - B n|) hne
  have hle : (BasicMetrics A B Width Height NumChannels Pad).Max ≤ |A n0 - B n0| := by
    rw [BasicMetrics_Max_le_iff]
    refine ⟨abs_nonneg _, fun c h1 h2 y h3 h4 x h5 h6 => ?_⟩
    exact hmax _ ((mem_interior _ _ _ _ _).2 ⟨c, y, x, ⟨h1, h2⟩, ⟨h3, h4⟩, ⟨h5, h6⟩, rfl⟩)
  have hub := ((BasicMetrics_Max_le_iff A B Width Height NumChannels Pad _).1 le_rfl).2
  have hge : ∀ n ∈ interior Width Height NumChannels Pad,
      |A n - B n| ≤ (BasicMetrics A B Width Height NumChannels Pad).Max := by
    intro n hn
    obtain ⟨c, y, x, hc, hy, hx, rfl⟩ := (mem_interior _ _ _ _ _).1 hn
    exact hub c hc.1 hc.2 y hy.1 hy.2 x hx.1 hx.2
  have heq : (BasicMetrics A B Width Height NumChannels Pad).Max = |A n0 - B n0| :=
    le_antisymm hle (hge n0 hn0)
  constructor
  · exact ⟨n0, hn0, heq.symm⟩
  · rintro v ⟨n, hn, rfl⟩
    exact hge n hn

/-! ## The convolution -/

theorem tapSum_add (w : List ℚ) (k : Int) (f g : Int → ℚ) :
    tapSum w k (fun j => f j + g j) = tapSum w k f + tapSum w k g := by
  induction w generalizing k with
  | nil => simp [tapSum]
  | cons t ts ih =>
    simp only [tapSum, ih]
    ring

theorem tapSum_smul (w : List ℚ) (k : Int) (a : ℚ) (f : Int → ℚ) :
    tapSum w k (fun j => a * f j) = a * tapSum w k f := by
  induction w generalizing k with
  | nil => simp [tapSum]
  | cons t ts ih =>
    simp only [tapSum, ih]
    ring

theorem tapSum_const (w : List ℚ) (k : Int) (a : ℚ) :
    tapSum w k (fun _ => a) = w.sum * a := by
  induction w generalizing k with
  | nil => simp [tapSum]
  | cons t ts ih =>
    simp only [tapSum, ih, List.sum_cons]
    ring

theorem tapSum_nonneg (w : List ℚ) (k : Int) (f : Int → ℚ) (hw : ∀ t ∈ w, 0 ≤ t)
    (hf : ∀ j, 0 ≤ f j) : 0 ≤ tapSum w k f := by
  induction w generalizing k with
  | nil => simp [tapSum]
  | cons t ts ih =>
    simp only [tapSum]
    have h1 : 0 ≤ t := hw t (List.mem_cons_self _ _)
    have h2 := ih (k - 1) (fun u hu => hw u (List.mem_cons_of_mem _ hu))
    exact add_nonneg (mul_nonneg h1 (hf k)) h2

/-- An output sample of `Conv1D` depends on the `N` samples of its source only. -/
theorem Conv1D_congr (Filter : List ℚ) (Boundary : boundaryext) (N : Int) (f g : Int → ℚ)
    (i : Int) (hN : 0 < N) (h : ∀ k, 0 ≤ k → k < N → f k = g k) :
    Conv1D Filter Boundary N f i = Conv1D Filter Boundary N g i := by
  unfold Conv1D
  have e : (fun k => f (Boundary.ext N k)) = (fun k => g (Boundary.ext N k)) := by
    funext k
    exact h _ (Boundary.valid N k hN).1 (Boundary.valid N k hN).2
  rw [e]

/-- A pixel of the separable convolution depends on the `NumChannels*Width*Height` samples
of its source only. -/
theorem SeparableConv2DAt_congr (Src Src2 : Int → ℚ) (FilterX FilterY : List ℚ)
    (Boundary : boundaryext) (Width Height NumChannels c y x : Int)
    (hW : 0 < Width) (hH : 0 < Height) (hc : 0 ≤ c ∧ c < NumChannels)
    (h : ∀ n, 0 ≤ n → n < NumChannels * Width * Height → Src n = Src2 n) :
    SeparableConv2DAt Src FilterX FilterY Boundary Width Height c y x =
      SeparableConv2DAt Src2 FilterX FilterY Boundary Width Height c y x := by
  unfold SeparableConv2DAt
  apply Conv1D_congr _ _ _ _ _ _ hH
  intro y1 h1 h2
  apply Conv1D_congr _ _ _ _ _ _ hW
  intro x1 h3 h4
  have hr := index_range Width Height NumChannels c y1 x1 hc ⟨h1, h2⟩ ⟨h3, h4⟩
  exact h _ hr.1 hr.2

/-- The sample that `SeparableConv2D` stores at the index of an in-image coordinate. -/
theorem SeparableConv2D_apply (Dest Src : Int → ℚ) (FilterX FilterY : List ℚ)
    (Boundary : boundaryext) (Width Height NumChannels c y x : Int)
    (hc : 0 ≤ c ∧ c < NumChannels) (hy : 0 ≤ y ∧ y < Height) (hx : 0 ≤ x ∧ x < Width) :
    SeparableConv2D Dest Src FilterX FilterY Boundary Width Height NumChannels
        (x + Width * (y + Height * c)) =
      SeparableConv2DAt Src FilterX FilterY Boundary Width Height c y x := by
  have hr := index_range Width Height NumChannels c y x hc hy hx
  have hW : Width ≠ 0 := by omega
  have hH : Height ≠ 0 := by omega
  have e1 : (x + Width * (y + Height * c)) % Width = x := by
    rw [Int.add_mul_emod_self_left, Int.emod_eq_of_lt hx.1 hx.2]
  have e2 : (x + Width * (y + Height * c)) / Width = y + Height * c := by
    rw [Int.add_mul_ediv_left _ _ hW, Int.ediv_eq_zero_of_lt hx.1 hx.2, zero_add]
  have e3 : (y + Height * c) % Height = y := by
    rw [Int.add_mul_emod_self_left, Int.emod_eq_of_lt hy.1 hy.2]
  have e4 : (y + Height * c) / Height = c := by
    rw [Int.add_mul_ediv_left _ _ hH, Int.ediv_eq_zero_of_lt hy.1 hy.2, zero_add]
  unfold SeparableConv2D
  rw [if_pos hr, e1, e2, e3, e4]

/-- With non-negative taps that sum to `1`, a pixel of the separable convolution is a
weighted mean of its source. -/
theorem SeparableConv2DAt_isMean (w : List ℚ) (Boundary : boundaryext)
    (Width Height c y x : Int) (hw : ∀ t ∈ w, 0 ≤ t) (hsum : w.sum = 1) :
    IsMean (fun Src => SeparableConv2DAt Src w w Boundary Width Height c y x) where
  add := by
    intro f g
    simp only [SeparableConv2DAt, Conv1D, tapSum_add]
  smul := by
    intro a f
    simp only [SeparableConv2DAt, Conv1D, tapSum_smul]
  one := by
    simp only [SeparableConv2DAt, Conv1D, tapSum_const, hsum, mul_one]
  nonneg := by
    intro f hf
    simp only [SeparableConv2DAt, Conv1D]
    exact tapSum_nonneg _ _ _ hw (fun _ => tapSum_nonneg _ _ _ hw (fun _ => hf _))

/-- The second moment under a weighted mean is at least the square of the mean. -/
theorem IsMean.sq_le (L : (Int → ℚ) → ℚ) (hL : IsMean L) (f : Int → ℚ) :
    (L f) ^ 2 ≤ L (fun n => f n * f n) := by
  have h0 : 0 ≤ L (fun n => (f n - L f) * (f n - L f)) :=
    hL.nonneg _ (fun n => mul_self_nonneg _)
  have e : (fun n => (f n - L f) * (f n - L f)) =
      (fun n => f n * f n + ((-2 * L f) * f n + (L f * L f) * 1)) := by
    funext n
    ring
  rw [e, hL.add (fun n => f n * f n) (fun n => (-2 * L f) * f n + (L f * L f) * 1),
    hL.add (fun n => (-2 * L f) * f n) (fun _ => (L f * L f) * 1),
    hL.smul (-2 * L f) f, hL.smul (L f * L f) (fun _ => 1), hL.one] at h0
  nlinarith

/-- The variance of a sum under a weighted mean is non-negative. -/
theorem IsMean.var_add_nonneg (L : (Int → ℚ) → ℚ) (hL : IsMean L) (f g : Int → ℚ) :
    0 ≤ (L (fun n => f n * f n) - (L f) ^ 2) + (L (fun n => g n * g n) - (L g) ^ 2)
      + 2 * (L (fun n => f n * g n) - L f * L g) := by
  have h := hL.sq_le L (fun n => f n + g n)
  have e : (fun n => (f n + g n) * (f n + g n)) =
      (fun n => f n * f n + (2 * (f n * g n) + g n * g n)) := by
    funext n
    ring
  rw [e, hL.add f g, hL.add (fun n => f n * f n) (fun n => 2 * (f n * g n) + g n * g n),
    hL.add (fun n => 2 * (f n * g n)) (fun n => g n * g n),
    hL.smul 2 (fun n => f n * g n)] at h
  nlinarith

/-- The variance of a difference under a weighted mean is non-negative. -/
theorem IsMean.var_sub_nonneg (L : (Int → ℚ) → ℚ) (hL : IsMean L) (f g : Int → ℚ) :
    0 ≤ (L (fun n => f n * f n) - (L f) ^ 2) + (L (fun n => g n * g n) - (L g) ^ 2)
      - 2 * (L (fun n => f n * g n) - L f * L g) := by
  have h := hL.var_add_nonneg L f (fun n => -1 * g n)
  have e1 : (fun n => (-1 * g n) * (-1 * g n)) = (fun n => g n * g n) := by
    funext n
    ring
  have e2 : (fun n => f n * (-1 * g n)) = (fun n => -1 * (f n * g n)) := by
    funext n
    ring
  rw [e1, e2, hL.smul (-1) g, hL.smul (-1) (fun n => f n * g n)] at h
  nlinarith

/-! ## `ComputeMssim` -/

/-- An accumulator to which every iteration adds `f i` ends as the initial value plus the
sum of `f` over the range. -/
theorem forLoop_add (f : Int → ℚ) (lo hi : Int) (body : Int → ℚ → ℚ) (s : ℚ)
    (h : ∀ i t, lo ≤ i → i < hi → body i t = t + f i) :
    forLoop lo hi body s = s + ∑ i in Finset.Ico lo hi, f i :=
  forLoop_proj_add (fun t => t) f lo hi body s h

/-- The three product blocks after the loop `for(n = 0; n < NumEl; n++)`. -/
theorem MssimProducts_apply (A B : Int → ℚ) (NumEl : Int) (p : Products) (n : Int) :
    (MssimProducts A B NumEl p).MuAA n = (if 0 ≤ n ∧ n < NumEl then A n * A n else p.MuAA n) ∧
    (MssimProducts A B NumEl p).MuBB n = (if 0 ≤ n ∧ n < NumEl then B n * B n else p.MuBB n) ∧
    (MssimProducts A B NumEl p).MuAB n = (if 0 ≤ n ∧ n < NumEl then A n * B n else p.MuAB n) := by
  unfold MssimProducts
  rcases le_or_lt 0 NumEl with hle | hlt
  · have key := forLoop_induction
      (fun i (t : Products) => ∀ m,
        t.MuAA m = (if 0 ≤ m ∧ m < i then A m * A m else p.MuAA m) ∧
        t.MuBB m = (if 0 ≤ m ∧ m < i then B m * B m else p.MuBB m) ∧
        t.MuAB m = (if 0 ≤ m ∧ m < i then A m * B m else p.MuAB m))
      0 NumEl
      (fun n p =>
        { MuAA := Function.update p.MuAA n (A n * A n)
          MuBB := Function.update p.MuBB n (B n * B n)
          MuAB := Function.update p.MuAB n (A n * B n) }) p hle
      (by
        intro m
        rw [if_neg (by omega), if_neg (by omega), if_neg (by omega)]
        exact ⟨rfl, rfl, rfl⟩)
      (by
        intro i t h1 h2 ht m
        beta_reduce
        by_cases hm : m = i
        · subst hm
          simp only [Function.update_same]
          rw [if_pos (by omega), if_pos (by omega), if_pos (by omega)]
          exact ⟨rfl, rfl, rfl⟩
        · simp only [Function.update_noteq hm]
          obtain ⟨k1, k2, k3⟩ := ht m
          rw [k1, k2, k3]
          by_cases hc : 0 ≤ m ∧ m < i
          · rw [if_pos hc, if_pos hc, if_pos hc, if_pos (by omega), if_pos (by omega),
              if_pos (by omega)]
            exact ⟨rfl, rfl, rfl⟩
          · rw [if_neg hc, if_neg hc, if_neg hc, if_neg (by omega), if_neg (by omega),
              if_neg (by omega)]
            exact ⟨rfl, rfl, rfl⟩)
    exact key n
  · rw [forLoop_of_le _ _ _ _ hlt.le, if_neg (by omega), if_neg (by omega), if_neg (by omega)]
    exact ⟨rfl, rfl, rfl⟩

/-- The loop body adds the structural similarity of the five samples it reads. -/
theorem MssimStep_eq (MuA MuB MuAA MuBB MuAB : Int → ℚ) (Width Height c y x : Int) (s : ℚ) :
    MssimStep MuA MuB MuAA MuBB MuAB Width Height c y x s =
      s + ssimIndex (MuA (x + Width * (y + Height * c))) (MuB (x + Width * (y + Height * c)))
        (MuAA (x + Width * (y + Height * c))) (MuBB (x + Width * (y + Height * c)))
        (MuAB (x + Width * (y + Height * c))) := by
  simp only [MssimStep, ssimIndex, MSSIM_C1, MSSIM_C2, MSSIM_K1, MSSIM_K2]
  congr 2
  · ring
  · ring

/-- The sum accumulated after the allocation guard, for a pad with `0 ≤ Pad + R`: the sum of
the local structural similarity over the interior eroded by `R = 5`. -/
theorem ComputeMssimSum_eq (w : List ℚ) (Boundary : boundaryext)
    (MuA MuB MuAA MuBB MuAB : Int → ℚ) (A B : Int → ℚ)
    (Width Height NumChannels Pad : Int) (hP : 0 ≤ Pad + 5) :
    ComputeMssimSum w Boundary MuA MuB MuAA MuBB MuAB A B Width Height NumChannels Pad =
      ∑ c in Finset.Ico 0 NumChannels, ∑ y in Finset.Ico (Pad + 5) (Height - (Pad + 5)),
        ∑ x in Finset.Ico (Pad + 5) (Width - (Pad + 5)),
          localSsim w Boundary A B Width Height c y x := by
  unfold ComputeMssimSum
  simp only
  rw [forLoop_add (fun c => ∑ y in Finset.Ico (Pad + 5) (Height - (Pad + 5)),
        ∑ x in Finset.Ico (Pad + 5) (Width - (Pad + 5)),
          localSsim w Boundary A B Width Height c y x), zero_add]
  intro c t hc1 hc2
  apply forLoop_add (fun y => ∑ x in Finset.Ico (Pad + 5) (Width - (Pad + 5)),
          localSsim w Boundary A B Width Height c y x)
  intro y t hy1 hy2
  apply forLoop_add (fun x => localSsim w Boundary A B Width Height c y x)
  intro x t hx1 hx2
  have hc : 0 ≤ c ∧ c < NumChannels := ⟨hc1, hc2⟩
  have hy : 0 ≤ y ∧ y < Height := ⟨by omega, by omega⟩
  have hx : 0 ≤ x ∧ x < Width := ⟨by omega, by omega⟩
  have hW : 0 < Width := by omega
  have hH : 0 < Height := by omega
  have hN : NumChannels * (Width * Height) = NumChannels * Width * Height := by ring
  rw [MssimStep_eq]
  simp only [SeparableConv2D_apply _ _ _ _ _ _ _ _ c y x hc hy hx]
  unfold localSsim
  have eAA : SeparableConv2DAt
      (MssimProducts A B (NumChannels * (Width * Height))
        { MuAA := MuAA, MuBB := MuBB, MuAB := MuAB }).MuAA w w Boundary Width Height c y x =
      SeparableConv2DAt (fun n => A n * A n) w w Boundary Width Height c y x :=
    SeparableConv2DAt_congr _ _ w w Boundary Width Height NumChannels c y x hW hH hc
      (fun n h1 h2 => by
        rw [(MssimProducts_apply A B _ _ n).1, if_pos ⟨h1, by rw [hN]; exact h2⟩])
  have eBB : SeparableConv2DAt
      (MssimProducts A B (NumChannels * (Width * Height))
        { MuAA := MuAA, MuBB := MuBB, MuAB := MuAB }).MuBB w w Boundary Width Height c y x =
      SeparableConv2DAt (fun n => B n * B n) w w Boundary Width Height c y x :=
    SeparableConv2DAt_congr _ _ w w Boundary Width Height NumChannels c y x hW hH hc
      (fun n h1 h2 => by
        rw [(MssimProducts_apply A B _ _ n).2.1, if_pos ⟨h1, by rw [hN]; exact h2⟩])
  have eAB : SeparableConv2DAt
      (MssimProducts A B (NumChannels * (Width * Height))
        { MuAA := MuAA, MuBB := MuBB, MuAB := MuAB }).MuAB w w Boundary Width Height c y x =
      SeparableConv2DAt (fun n => A n * B n) w w Boundary Width Height c y x :=
    SeparableConv2DAt_congr _ _ w w Boundary Width Height NumChannels c y x hW hH hc
      (fun n h1 h2 => by
        rw [(MssimProducts_apply A B _ _ n).2.2, if_pos ⟨h1, by rw [hN]; exact h2⟩])
  rw [eAA, eBB, eAB]

/-- The value computed after the allocation guard, for a pad with `0 ≤ Pad + R`: the sum of
the local structural similarity over the interior eroded by `R = 5`, over the count. -/
theorem ComputeMssimBody_eq (w : List ℚ) (Boundary : boundaryext)
    (MuA MuB MuAA MuBB MuAB : Int → ℚ) (A B : Int → ℚ)
    (Width Height NumChannels Pad : Int) (hP : 0 ≤ Pad + 5) :
    ComputeMssimBody w Boundary MuA MuB MuAA MuBB MuAB A B Width Height NumChannels Pad =
      (∑ c in Finset.Ico 0 NumChannels, ∑ y in Finset.Ico (Pad + 5) (Height - (Pad + 5)),
        ∑ x in Finset.Ico (Pad + 5) (Width - (Pad + 5)),
          localSsim w Boundary A B Width Height c y x)
        / ((NumChannels * (Width - 2 * (Pad + 5)) * (Height - 2 * (Pad + 5)) : Int) : ℚ) := by
  unfold ComputeMssimBody
  simp only
  rw [ComputeMssimSum_eq _ _ _ _ _ _ _ _ _ _ _ _ _ hP]

/-- When the kernel and the six allocations succeed, `ComputeMssim` returns the value computed
after the guard. -/
theorem ComputeMssim_success (w : List ℚ) (Boundary : boundaryext)
    (Buffer MuA MuB MuAA MuBB MuAB : Int → ℚ) (A B : Int → ℚ)
    (Width Height NumChannels Pad : Int) :
    ComputeMssim
        { Window := some w, Boundary := Boundary, Buffer := some Buffer, MuA := some MuA,
          MuB := some MuB, MuAA := some MuAA, MuBB := some MuBB, MuAB := some MuAB }
        A B Width Height NumChannels Pad =
      ComputeMssimBody w Boundary MuA MuB MuAA MuBB MuAB A B Width Height NumChannels Pad :=
  rfl

theorem ssimIndex_symm (a b aa bb ab : ℚ) : ssimIndex a b aa bb ab = ssimIndex b a bb aa ab := by
  simp only [ssimIndex]
  congr 1
  · ring
  · ring

theorem localSsim_symm (w : List ℚ) (Boundary : boundaryext) (A B : Int → ℚ)
    (Width Height c y x : Int) :
    localSsim w Boundary A B Width Height c y x = localSsim w Boundary B A Width Height c y x := by
  unfold localSsim
  have e : (fun n => B n * A n) = (fun n => A n * B n) := by
    funext n
    ring
  rw [ssimIndex_symm, e]

/-- Both factors of the denominator of `ssimIndex` are positive when the second moments are
at least the squared means. -/
theorem ssimIndex_den_pos (a b aa bb : ℚ) (h1 : a ^ 2 ≤ aa) (h2 : b ^ 2 ≤ bb) :
    0 < a ^ 2 + b ^ 2 + (1 / 100) ^ 2 ∧ 0 < (aa - a ^ 2) + (bb - b ^ 2) + (3 / 100) ^ 2 := by
  constructor
  · positivity
  · have h3 : (0 : ℚ) < (3 / 100) ^ 2 := by norm_num
    linarith

theorem ssimIndex_self (a aa : ℚ) (h : a ^ 2 ≤ aa) : ssimIndex a a aa aa aa = 1 := by
  obtain ⟨h1, h2⟩ := ssimIndex_den_pos a a aa aa h h
  simp only [ssimIndex]
  have e : (2 * a * a + (1 / 100) ^ 2) * (2 * (aa - a * a) + (3 / 100) ^ 2) =
      (a ^ 2 + a ^ 2 + (1 / 100) ^ 2) * (aa - a ^ 2 + (aa - a ^ 2) + (3 / 100) ^ 2) := by
    ring
  rw [e]
  exact div_self (mul_pos h1 h2).ne'

/-- The luminance ratio and the contrast/structure ratio are each bounded by `1` in absolute
value, hence so is their product. -/
theorem ssimIndex_abs_le_one (a b aa bb ab : ℚ) (h1 : a ^ 2 ≤ aa) (h2 : b ^ 2 ≤ bb)
    (h3 : 0 ≤ (aa - a ^ 2) + (bb - b ^ 2) + 2 * (ab - a * b))
    (h4 : 0 ≤ (aa - a ^ 2) + (bb - b ^ 2) - 2 * (ab - a * b)) :
    |ssimIndex a b aa bb ab| ≤ 1 := by
  obtain ⟨hd1, hd2⟩ := ssimIndex_den_pos a b aa bb h1 h2
  have hn1 : |2 * a * b + (1 / 100) ^ 2| ≤ a ^ 2 + b ^ 2 + (1 / 100) ^ 2 := by
    rw [abs_le]
    constructor
    · nlinarith [sq_nonneg (a + b)]
    · nlinarith [sq_nonneg (a - b)]
  have hn2 : |2 * (ab - a * b) + (3 / 100) ^ 2| ≤ (aa - a ^ 2) + (bb - b ^ 2) + (3 / 100) ^ 2 := by
    rw [abs_le]
    constructor
    · have h5 : (0 : ℚ) < (3 / 100) ^ 2 := by norm_num
      linarith
    · linarith
  simp only [ssimIndex]
  rw [abs_div, abs_mul, abs_of_pos (mul_pos hd1 hd2), div_le_one (mul_pos hd1 hd2)]
  exact mul_le_mul hn1 hn2 (abs_nonneg _) hd1.le

/-- With non-negative taps that sum to `1`, the local second moment of an image is at least
its squared local mean. -/
theorem localMoment_sq_le (w : List ℚ) (Boundary : boundaryext) (A : Int → ℚ)
    (Width Height c y x : Int) (hw : ∀ t ∈ w, 0 ≤ t) (hsum : w.sum = 1) :
    (SeparableConv2DAt A w w Boundary Width Height c y x) ^ 2 ≤
      SeparableConv2DAt (fun n => A n * A n) w w Boundary Width Height c y x :=
  (SeparableConv2DAt_isMean w Boundary Width Height c y x hw hsum).sq_le _ A

theorem localSsim_self (w : List ℚ) (Boundary : boundaryext) (A : Int → ℚ)
    (Width Height c y x : Int) (hw : ∀ t ∈ w, 0 ≤ t) (hsum : w.sum = 1) :
    localSsim w Boundary A A Width Height c y x = 1 :=
  ssimIndex_self _ _ (localMoment_sq_le w Boundary A Width Height c y x hw hsum)

theorem localSsim_abs_le_one (w : List ℚ) (Boundary : boundaryext) (A B : Int → ℚ)
    (Width Height c y x : Int) (hw : ∀ t ∈ w, 0 ≤ t) (hsum : w.sum = 1) :
    |localSsim w Boundary A B Width Height c y x| ≤ 1 := by
  have hL := SeparableConv2DAt_isMean w Boundary Width Height c y x hw hsum
  exact ssimIndex_abs_le_one _ _ _ _ _ (hL.sq_le _ A) (hL.sq_le _ B)
    (hL.var_add_nonneg _ A B) (hL.var_sub_nonneg _ A B)

/-- The divisor of `ComputeMssim` is positive when the eroded interior is non-empty. -/
theorem ComputeMssim_count_pos (Width Height NumChannels Pad : Int) (hC : 1 ≤ NumChannels)
    (hW : 2 * (Pad + 5) < Width) (hH : 2 * (Pad + 5) < Height) :
    (0 : ℚ) < ((NumChannels * (Width - 2 * (Pad + 5)) * (Height - 2 * (Pad + 5)) : Int) : ℚ) := by
  have h1 : 0 < NumChannels * (Width - 2 * (Pad + 5)) := mul_pos (by omega) (by omega)
  have h2 : 0 < NumChannels * (Width - 2 * (Pad + 5)) * (Height - 2 * (Pad + 5)) :=
    mul_pos h1 (by omega)
  exact_mod_cast h2

/-- A sum over a region is monotone in its terms. -/
theorem sum_region_le (f g : Int → Int → Int → ℚ) (Width Height NumChannels p : Int)
    (h : ∀ c y x : Int, 0 ≤ c → c < NumChannels → p ≤ y → y < Height - p → p ≤ x →
      x < Width - p → f c y x ≤ g c y x) :
    ∑ c in Finset.Ico 0 NumChannels, ∑ y in Finset.Ico p (Height - p),
        ∑ x in Finset.Ico p (Width - p), f c y x ≤
      ∑ c in Finset.Ico 0 NumChannels, ∑ y in Finset.Ico p (Height - p),
        ∑ x in Finset.Ico p (Width - p), g c y x := by
  refine Finset.sum_le_sum (fun c hc => Finset.sum_le_sum (fun y hy =>
    Finset.sum_le_sum (fun x hx => ?_)))
  simp only [Finset.mem_Ico] at hc hy hx
  exact h c y x hc.1 hc.2 hy.1 hy.2 hx.1 hx.2

/-- The number of coordinates of a region `[0, C) × [p, Height - p) × [p, Width - p)`, as an
integer. -/
theorem card_region (Width Height NumChannels p : Int)
    (hC : 0 ≤ NumChannels) (hW : 2 * p ≤ Width) (hH : 2 * p ≤ Height) :
    ((((Finset.Ico 0 NumChannels ×ˢ Finset.Ico p (Height - p)) ×ˢ
        Finset.Ico p (Width - p)).card : Nat) : Int) =
      NumChannels * (Width - 2 * p) * (Height - 2 * p) := by
  rw [Finset.card_product, Finset.card_product, Int.card_Ico, Int.card_Ico, Int.card_Ico]
  push_cast
  rw [Int.toNat_of_nonneg (by omega), Int.toNat_of_nonneg (by omega),
    Int.toNat_of_nonneg (by omega)]
  ring

/-! ## The failure value of `ComputeMssim` -/

/-- A failed kernel construction or allocation makes `ComputeMssim` return `-1`. -/
theorem ComputeMssim_of_none (env : MssimEnv) (A B : Int → ℚ)
    (Width Height NumChannels Pad : Int)
    (h : env.Window = none ∨ env.Buffer = none ∨ env.MuA = none ∨ env.MuB = none ∨
      env.MuAA = none ∨ env.MuBB = none ∨ env.MuAB = none) :
    ComputeMssim env A B Width Height NumChannels Pad = -1 := by
  obtain ⟨Window, Boundary, Buffer, MuA, MuB, MuAA, MuBB, MuAB⟩ := env
  simp only at h
  unfold ComputeMssim
  cases Window with
  | none => rfl
  | some w =>
  cases Buffer with
  | none => rfl
  | some b0 =>
  cases MuA with
  | none => rfl
  | some b1 =>
  cases MuB with
  | none => rfl
  | some b2 =>
  cases MuAA with
  | none => rfl
  | some b3 =>
  cases MuBB with
  | none => rfl
  | some b4 =>
  cases MuAB with
  | none => rfl
  | some b5 => simp at h

/-- An environment without failure is one in which the kernel and the six blocks are there. -/
theorem MssimEnv_cases (env : MssimEnv) :
    (env.Window = none ∨ env.Buffer = none ∨ env.MuA = none ∨ env.MuB = none ∨
      env.MuAA = none ∨ env.MuBB = none ∨ env.MuAB = none) ∨
    ∃ w Buffer MuA MuB MuAA MuBB MuAB, env =
      { Window := some w, Boundary := env.Boundary, Buffer := some Buffer, MuA := some MuA,
        MuB := some MuB, MuAA := some MuAA, MuBB := some MuBB, MuAB := some MuAB } := by
  obtain ⟨Window, Boundary, Buffer, MuA, MuB, MuAA, MuBB, MuAB⟩ := env
  cases Window with
  | none => exact Or.inl (Or.inl rfl)
  | some w =>
  cases Buffer with
  | none => exact Or.inl (Or.inr (Or.inl rfl))
  | some b0 =>
  cases MuA with
  | none => exact Or.inl (Or.inr (Or.inr (Or.inl rfl)))
  | some b1 =>
  cases MuB with
  | none => exact Or.inl (Or.inr (Or.inr (Or.inr (Or.inl rfl))))
  | some b2 =>
  cases MuAA with
  | none => exact Or.inl (Or.inr (Or.inr (Or.inr (Or.inr (Or.inl rfl)))))
  | some b3 =>
  cases MuBB with
  | none => exact Or.inl (Or.inr (Or.inr (Or.inr (Or.inr (Or.inr (Or.inl rfl))))))
  | some b4 =>
  cases MuAB with
  | none => exact Or.inl (Or.inr (Or.inr (Or.inr (Or.inr (Or.inr (Or.inr rfl))))))
  | some b5 => exact Or.inr ⟨w, b0, b1, b2, b3, b4, b5, rfl⟩

/-- The luminance ratio and the contrast/structure ratio both exceed `-1` and neither exceeds
`1`, so their product exceeds `-1`. -/
theorem ssimIndex_gt_neg_one (a b aa bb ab : ℚ) (h1 : a ^ 2 ≤ aa) (h2 : b ^ 2 ≤ bb)
    (h3 : 0 ≤ (aa - a ^ 2) + (bb - b ^ 2) + 2 * (ab - a * b))
    (h4 : 0 ≤ (aa - a ^ 2) + (bb - b ^ 2) - 2 * (ab - a * b)) :
    -1 < ssimIndex a b aa bb ab := by
  obtain ⟨hd1, hd2⟩ := ssimIndex_den_pos a b aa bb h1 h2
  have hC2 : (0 : ℚ) < (3 / 100) ^ 2 := by norm_num
  have hC1 : (0 : ℚ) < (1 / 100) ^ 2 := by norm_num
  have u1 : 0 < (a ^ 2 + b ^ 2 + (1 / 100) ^ 2) + (2 * a * b + (1 / 100) ^ 2) := by
    nlinarith [sq_nonneg (a + b)]
  have u2 : 0 ≤ (a ^ 2 + b ^ 2 + (1 / 100) ^ 2) - (2 * a * b + (1 / 100) ^ 2) := by
    nlinarith [sq_nonneg (a - b)]
  have v1 : 0 < ((aa - a ^ 2) + (bb - b ^ 2) + (3 / 100) ^ 2)
      + (2 * (ab - a * b) + (3 / 100) ^ 2) := by linarith
  have v2 : 0 ≤ ((aa - a ^ 2) + (bb - b ^ 2) + (3 / 100) ^ 2)
      - (2 * (ab - a * b) + (3 / 100) ^ 2) := by linarith
  simp only [ssimIndex]
  rw [lt_div_iff₀ (mul_pos hd1 hd2)]
  nlinarith [mul_pos u1 v1, mul_nonneg u2 v2]

theorem localSsim_gt_neg_one (w : List ℚ) (Boundary : boundaryext) (A B : Int → ℚ)
    (Width Height c y x : Int) (hw : ∀ t ∈ w, 0 ≤ t) (hsum : w.sum = 1) :
    -1 < localSsim w Boundary A B Width Height c y x := by
  have hL := SeparableConv2DAt_isMean w Boundary Width Height c y x hw hsum
  exact ssimIndex_gt_neg_one _ _ _ _ _ (hL.sq_le _ A) (hL.sq_le _ B)
    (hL.var_add_nonneg _ A B) (hL.var_sub_nonneg _ A B)

/-- A sum over a non-empty region is strictly monotone in its terms. -/
theorem sum_region_lt (f g : Int → Int → Int → ℚ) (Width Height NumChannels p : Int)
    (hC : 1 ≤ NumChannels) (hW : 2 * p < Width) (hH : 2 * p < Height)
    (h : ∀ c y x : Int, f c y x < g c y x) :
    ∑ c in Finset.Ico 0 NumChannels, ∑ y in Finset.Ico p (Height - p),
        ∑ x in Finset.Ico p (Width - p), f c y x <
      ∑ c in Finset.Ico 0 NumChannels, ∑ y in Finset.Ico p (Height - p),
        ∑ x in Finset.Ico p (Width - p), g c y x := by
  have n1 : (Finset.Ico 0 NumChannels).Nonempty := Finset.nonempty_Ico.2 (by omega)
  have n2 : (Finset.Ico p (Height - p)).Nonempty := Finset.nonempty_Ico.2 (by omega)
  have n3 : (Finset.Ico p (Width - p)).Nonempty := Finset.nonempty_Ico.2 (by omega)
  exact Finset.sum_lt_sum_of_nonempty n1 (fun c _ =>
    Finset.sum_lt_sum_of_nonempty n2 (fun y _ =>
      Finset.sum_lt_sum_of_nonempty n3 (fun x _ => h c y x)))

/-- With non-negative taps that sum to `1` and a non-empty eroded interior, the value computed
after the allocation guard exceeds `-1`. -/
theorem ComputeMssimBody_gt_neg_one (w : List ℚ) (Boundary : boundaryext)
    (MuA MuB MuAA MuBB MuAB : Int → ℚ) (A B : Int → ℚ)
    (Width Height NumChannels Pad : Int) (hw : ∀ t ∈ w, 0 ≤ t) (hsum : w.sum = 1)
    (hC : 1 ≤ NumChannels) (hP : 0 ≤ Pad)
    (hW : 2 * (Pad + 5) < Width) (hH : 2 * (Pad + 5) < Height) :
    -1 < ComputeMssimBody w Boundary MuA MuB MuAA MuBB MuAB A B
      Width Height NumChannels Pad := by
  rw [ComputeMssimBody_eq _ _ _ _ _ _ _ _ _ _ _ _ _ (by omega)]
  have hN := ComputeMssim_count_pos Width Height NumChannels Pad hC hW hH
  have hlo := sum_region_lt (fun _ _ _ => (-1 : ℚ))
    (fun c y x => localSsim w Boundary A B Width Height c y x) Width Height NumChannels (Pad + 5)
    hC hW hH (fun c y x => localSsim_gt_neg_one w Boundary A B Width Height c y x hw hsum)
  rw [sum_region_const (-1) Width Height NumChannels (Pad + 5) (by omega) hW.le hH.le] at hlo
  rw [lt_div_iff₀ hN]
  linarith

/-! ## The window of the convolution -/

/-- A multiply-accumulate over `taps` that starts at `k` reads the samples
`k, k-1, ..., k - (length - 1)` only. -/
theorem tapSum_congr_window (w : List ℚ) (k : Int) (f g : Int → ℚ)
    (h : ∀ j, k - (w.length : Int) < j → j ≤ k → f j = g j) :
    tapSum w k f = tapSum w k g := by
  induction w generalizing k with
  | nil => rfl
  | cons t ts ih =>
    simp only [tapSum]
    have hlen : (((t :: ts).length : Nat) : Int) = (ts.length : Int) + 1 := by
      simp
    rw [h k (by rw [hlen]; omega) le_rfl,
      ih (k - 1) (fun j h1 h2 => h j (by rw [hlen]; omega) (by omega))]

/-- The radius of an 11-tap window is `5`. -/
theorem radius_eleven (w : List ℚ) (hlen : w.length = 11) : radius w = 5 := by
  unfold radius
  rw [hlen]
  norm_num

/-- At a sample whose 11-tap window lies inside the axis, the 1D convolution reads the samples
`i-5, ..., i+5` whatever the boundary extension. -/
theorem Conv1D_window_congr (w : List ℚ) (Boundary Boundary2 : boundaryext) (N : Int)
    (f g : Int → ℚ) (i : Int) (hlen : w.length = 11) (h0 : 5 ≤ i) (hN : i + 5 < N)
    (h : ∀ j, i - 5 ≤ j → j ≤ i + 5 → f j = g j) :
    Conv1D w Boundary N f i = Conv1D w Boundary2 N g i := by
  unfold Conv1D
  rw [radius_eleven w hlen]
  apply tapSum_congr_window
  intro j h1 h2
  rw [hlen] at h1
  have h3 : (((11 : Nat) : Int)) = 11 := rfl
  rw [Boundary.inside N j (by omega) (by omega), Boundary2.inside N j (by omega) (by omega)]
  exact h j (by omega) h2

/-- At a pixel whose 11×11 window lies inside the image, the separable convolution reads the
samples of that window only, whatever the boundary extension. -/
theorem SeparableConv2DAt_window_congr (Src Src2 : Int → ℚ) (w : List ℚ)
    (Boundary Boundary2 : boundaryext) (Width Height c y x : Int) (hlen : w.length = 11)
    (hx0 : 5 ≤ x) (hx1 : x + 5 < Width) (hy0 : 5 ≤ y) (hy1 : y + 5 < Height)
    (h : ∀ y1, y - 5 ≤ y1 → y1 ≤ y + 5 → ∀ x1, x - 5 ≤ x1 → x1 ≤ x + 5 →
      Src (x1 + Width * (y1 + Height * c)) = Src2 (x1 + Width * (y1 + Height * c))) :
    SeparableConv2DAt Src w w Boundary Width Height c y x =
      SeparableConv2DAt Src2 w w Boundary2 Width Height c y x := by
  unfold SeparableConv2DAt
  apply Conv1D_window_congr w Boundary Boundary2 Height _ _ y hlen hy0 hy1
  intro y1 h1 h2
  apply Conv1D_window_congr w Boundary Boundary2 Width _ _ x hlen hx0 hx1
  intro x1 h3 h4
  exact h y1 h1 h2 x1 h3 h4

/-- At a pixel of the eroded interior the local structural similarity depends on the samples
of the 11×11 window only: two pairs of images that agree there, under any two boundary
extensions, have the same value. -/
theorem localSsim_window_congr (w : List ℚ) (Boundary Boundary2 : boundaryext)
    (A B A2 B2 : Int → ℚ) (Width Height c y x : Int) (hlen : w.length = 11)
    (hx0 : 5 ≤ x) (hx1 : x + 5 < Width) (hy0 : 5 ≤ y) (hy1 : y + 5 < Height)
    (hA : ∀ y1, y - 5 ≤ y1 → y1 ≤ y + 5 → ∀ x1, x - 5 ≤ x1 → x1 ≤ x + 5 →
      A (x1 + Width * (y1 + Height * c)) = A2 (x1 + Width * (y1 + Height * c)))
    (hB : ∀ y1, y - 5 ≤ y1 → y1 ≤ y + 5 → ∀ x1, x - 5 ≤ x1 → x1 ≤ x + 5 →
      B (x1 + Width * (y1 + Height * c)) = B2 (x1 + Width * (y1 + Height * c))) :
    localSsim w Boundary A B Width Height c y x =
      localSsim w Boundary2 A2 B2 Width Height c y x := by
  unfold localSsim
  rw [SeparableConv2DAt_window_congr A A2 w Boundary Boundary2 Width Height c y x hlen
      hx0 hx1 hy0 hy1 hA,
    SeparableConv2DAt_window_congr B B2 w Boundary Boundary2 Width Height c y x hlen
      hx0 hx1 hy0 hy1 hB,
    SeparableConv2DAt_window_congr (fun n => A n * A n) (fun n => A2 n * A2 n) w Boundary
      Boundary2 Width Height c y x hlen hx0 hx1 hy0 hy1
      (fun y1 h1 h2 x1 h3 h4 => by
        show A _ * A _ = A2 _ * A2 _
        rw [hA y1 h1 h2 x1 h3 h4]),
    SeparableConv2DAt_window_congr (fun n => B n * B n) (fun n => B2 n * B2 n) w Boundary
      Boundary2 Width Height c y x hlen hx0 hx1 hy0 hy1
      (fun y1 h1 h2 x1 h3 h4 => by
        show B _ * B _ = B2 _ * B2 _
        rw [hB y1 h1 h2 x1 h3 h4]),
    SeparableConv2DAt_window_congr (fun n => A n * B n) (fun n => A2 n * B2 n) w Boundary
      Boundary2 Width Height c y x hlen hx0 hx1 hy0 hy1
      (fun y1 h1 h2 x1 h3 h4 => by
        show A _ * B _ = A2 _ * B2 _
        rw [hA y1 h1 h2 x1 h3 h4, hB y1 h1 h2 x1 h3 h4])]

/-- The value computed after the allocation guard depends on the samples of the interior
`[Pad, Width-Pad) × [Pad, Height-Pad)` only, whatever the boundary extension and the content
of the allocated blocks. -/
theorem ComputeMssimBody_congr (w : List ℚ) (Boundary Boundary2 : boundaryext)
    (MuA MuB MuAA MuBB MuAB MuA2 MuB2 MuAA2 MuBB2 MuAB2 : Int → ℚ) (A B A2 B2 : Int → ℚ)
    (Width Height NumChannels Pad : Int) (hlen : w.length = 11) (hP : 0 ≤ Pad)
    (hA : ∀ c, 0 ≤ c → c < NumChannels → ∀ y, Pad ≤ y → y < Height - Pad →
      ∀ x, Pad ≤ x → x < Width - Pad →
        A (x + Width * (y + Height * c)) = A2 (x + Width * (y + Height * c)))
    (hB : ∀ c, 0 ≤ c → c < NumChannels → ∀ y, Pad ≤ y → y < Height - Pad →
      ∀ x, Pad ≤ x → x < Width - Pad →
        B (x + Width * (y + Height * c)) = B2 (x + Width * (y + Height * c))) :
    ComputeMssimBody w Boundary MuA MuB MuAA MuBB MuAB A B Width Height NumChannels Pad =
      ComputeMssimBody w Boundary2 MuA2 MuB2 MuAA2 MuBB2 MuAB2 A2 B2
        Width Height NumChannels Pad := by
  rw [ComputeMssimBody_eq _ _ _ _ _ _ _ A B _ _ _ _ (by omega),
    ComputeMssimBody_eq _ _ _ _ _ _ _ A2 B2 _ _ _ _ (by omega)]
  congr 1
  refine Finset.sum_congr rfl (fun c hc => Finset.sum_congr rfl (fun y hy =>
    Finset.sum_congr rfl (fun x hx => ?_)))
  simp only [Finset.mem_Ico] at hc hy hx
  exact localSsim_window_congr w Boundary Boundary2 A B A2 B2 Width Height c y x hlen
    (by omega) (by omega) (by omega) (by omega)
    (fun y1 h1 h2 x1 h3 h4 => hA c hc.1 hc.2 y1 (by omega) (by omega) x1 (by omega) (by omega))
    (fun y1 h1 h2 x1 h3 h4 => hB c hc.1 hc.2 y1 (by omega) (by omega) x1 (by omega) (by omega))

/-- With non-negative taps that sum to `1` and a non-empty eroded interior, the value computed
after the allocation guard for two identical images is `1`. -/
theorem ComputeMssimBody_self (w : List ℚ) (Boundary : boundaryext)
    (MuA MuB MuAA MuBB MuAB : Int → ℚ) (A : Int → ℚ)
    (Width Height NumChannels Pad : Int) (hw : ∀ t ∈ w, 0 ≤ t) (hsum : w.sum = 1)
    (hC : 1 ≤ NumChannels) (hP : 0 ≤ Pad)
    (hW : 2 * (Pad + 5) < Width) (hH : 2 * (Pad + 5) < Height) :
    ComputeMssimBody w Boundary MuA MuB MuAA MuBB MuAB A A Width Height NumChannels Pad = 1 := by
  rw [ComputeMssimBody_eq _ _ _ _ _ _ _ _ _ _ _ _ _ (by omega)]
  have e : ∑ c in Finset.Ico 0 NumChannels, ∑ y in Finset.Ico (Pad + 5) (Height - (Pad + 5)),
      ∑ x in Finset.Ico (Pad + 5) (Width - (Pad + 5)),
        localSsim w Boundary A A Width Height c y x =
      ∑ _c in Finset.Ico 0 NumChannels, ∑ _y in Finset.Ico (Pad + 5) (Height - (Pad + 5)),
        ∑ _x in Finset.Ico (Pad + 5) (Width - (Pad + 5)), (1 : ℚ) :=
    Finset.sum_congr rfl (fun c _ => Finset.sum_congr rfl (fun y _ =>
      Finset.sum_congr rfl (fun x _ => localSsim_self w Boundary A Width Height c y x hw hsum)))
  rw [e, sum_region_const 1 Width Height NumChannels (Pad + 5) (by omega) hW.le hH.le, mul_one]
  exact div_self (ComputeMssim_count_pos Width Height NumChannels Pad hC hW hH).ne'

/-! ## The accumulation of `main` -/

/-- For an image held by `main` and a pad with `2*Pad < min(Width, Height)`, the `int` divisor
of `BasicMetrics` on up to three channels is exact. -/
theorem image_count_of_fits (A : image) (Pad C : Int) (hC1 : 1 ≤ C) (hC3 : C ≤ 3)
    (hP : 0 ≤ Pad) (hW : 2 * Pad < A.Width) (hH : 2 * Pad < A.Height) :
    BasicMetricsCount A.Width A.Height C Pad =
      C * (A.Width - 2 * Pad) * (A.Height - 2 * Pad) := by
  have hfit := A.fits
  have h1 : 0 < (A.Width - 2 * Pad) * (A.Height - 2 * Pad) :=
    mul_pos (by omega) (by omega)
  have h2 : (A.Width - 2 * Pad) * (A.Height - 2 * Pad) ≤ A.Width * A.Height :=
    mul_le_mul (by omega) (by omega) (by omega) (by omega)
  apply BasicMetricsCount_of_range <;> nlinarith

theorem Ico_zero_one : Finset.Ico (0 : Int) 1 = {0} := by
  ext j
  simp only [Finset.mem_Ico, Finset.mem_singleton]
  omega

/-- The combined `Max` of `main` is the least upper bound of `0` and the three per-channel
maxima. -/
theorem mainMetrics_Max_le_iff (A B : image) (Pad : Int) (m : ℚ) :
    (mainMetrics A B Pad).Max ≤ m ↔
      0 ≤ m ∧ ∀ c, 0 ≤ c → c < 3 →
        (BasicMetrics (fun n => A.Data (c * A.Width * A.Height + n))
          (fun n => B.Data (c * B.Width * B.Height + n)) A.Width A.Height 1 Pad).Max ≤ m := by
  unfold mainMetrics
  simp only
  rw [forLoop_proj_le_iff MainAcc.Max (fun c m =>
      (BasicMetrics (fun n => A.Data (c * A.Width * A.Height + n))
        (fun n => B.Data (c * B.Width * B.Height + n)) A.Width A.Height 1 Pad).Max ≤ m)]
  intro c t m _ _
  simp only [mainChannel, Function.update_same]
  split_ifs with hlt
  · constructor
    · intro h
      exact ⟨le_trans hlt.le h, h⟩
    · exact fun h => h.2
  · constructor
    · intro h
      exact ⟨h, le_trans (not_lt.mp hlt) h⟩
    · exact fun h => h.1

/-- The combined `Mse` of `main` is the sum of the three per-channel values over `3`. -/
theorem mainMetrics_Mse (A B : image) (Pad : Int) :
    (mainMetrics A B Pad).Mse =
      (∑ c in Finset.Ico (0 : Int) 3,
        (BasicMetrics (fun n => A.Data (c * A.Width * A.Height + n))
          (fun n => B.Data (c * B.Width * B.Height + n)) A.Width A.Height 1 Pad).Mse) / 3 := by
  unfold mainMetrics
  simp only
  rw [forLoop_proj_add MainAcc.Mse (fun c =>
      (BasicMetrics (fun n => A.Data (c * A.Width * A.Height + n))
        (fun n => B.Data (c * B.Width * B.Height + n)) A.Width A.Height 1 Pad).Mse), zero_add]
  intro c t _ _
  simp only [mainChannel, Function.update_same]

/-- The per-channel `Max` bounds what the three-channel pass bounds on that channel. -/
theorem channel_Max_le_iff (A B : image) (Pad c : Int) (m : ℚ)
    (hdim : A.Width = B.Width ∧ A.Height = B.Height) :
    (BasicMetrics (fun n => A.Data (c * A.Width * A.Height + n))
        (fun n => B.Data (c * B.Width * B.Height + n)) A.Width A.Height 1 Pad).Max ≤ m ↔
      0 ≤ m ∧ ∀ y, Pad ≤ y → y < A.Height - Pad → ∀ x, Pad ≤ x → x < A.Width - Pad →
        |A.Data (x + A.Width * (y + A.Height * c)) -
          B.Data (x + A.Width * (y + A.Height * c))| ≤ m := by
  rw [BasicMetrics_Max_le_iff, ← hdim.1, ← hdim.2]
  have e : ∀ x y : Int, c * A.Width * A.Height + (x + A.Width * (y + A.Height * 0)) =
      x + A.Width * (y + A.Height * c) := by
    intro x y
    ring
  constructor
  · rintro ⟨h0, h⟩
    refine ⟨h0, fun y h1 h2 x h3 h4 => ?_⟩
    have := h 0 le_rfl (by norm_num) y h1 h2 x h3 h4
    simp only [e] at this
    exact this
  · rintro ⟨h0, h⟩
    refine ⟨h0, fun c1 hc1 hc2 y h1 h2 x h3 h4 => ?_⟩
    have hc : c1 = 0 := by omega
    subst hc
    simp only [e]
    exact h y h1 h2 x h3 h4

/-- When the two images agree on the interior of every channel, the combined `Max` of `main`
is `0`. -/
theorem mainMetrics_Max_eq_zero (A B : image) (Pad : Int)
    (hdim : A.Width = B.Width ∧ A.Height = B.Height)
    (h : ∀ c, 0 ≤ c → c < 3 → ∀ y, Pad ≤ y → y < A.Height - Pad →
      ∀ x, Pad ≤ x → x < A.Width - Pad →
        A.Data (x + A.Width * (y + A.Height * c)) = B.Data (x + A.Width * (y + A.Height * c))) :
    (mainMetrics A B Pad).Max = 0 := by
  apply le_antisymm
  · rw [mainMetrics_Max_le_iff]
    refine ⟨le_rfl, fun c h1 h2 => ?_⟩
    rw [channel_Max_le_iff A B Pad c 0 hdim]
    refine ⟨le_rfl, fun y h3 h4 x h5 h6 => ?_⟩
    rw [h c h1 h2 y h3 h4 x h5 h6, sub_self, abs_zero]
  · exact ((mainMetrics_Max_le_iff A B Pad _).1 le_rfl).1

/-- When the combined `Max` of `main` is `0`, the two images agree on the interior of every
channel. -/
theorem agree_of_mainMetrics_Max (A B : image) (Pad : Int)
    (hdim : A.Width = B.Width ∧ A.Height = B.Height) (hMax : (mainMetrics A B Pad).Max = 0) :
    ∀ c, 0 ≤ c → c < 3 → ∀ y, Pad ≤ y → y < A.Height - Pad →
      ∀ x, Pad ≤ x → x < A.Width - Pad →
        A.Data (x + A.Width * (y + A.Height * c)) =
          B.Data (x + A.Width * (y + A.Height * c)) := by
  intro c h1 h2 y h3 h4 x h5 h6
  have hle := ((mainMetrics_Max_le_iff A B Pad 0).1 hMax.le).2 c h1 h2
  have h0 := ((channel_Max_le_iff A B Pad c 0 hdim).1 hle).2 y h3 h4 x h5 h6
  have h7 := abs_eq_zero.1 (le_antisymm h0 (abs_nonneg _))
  linarith

/-! ## `ParseParams` -/

/-- The `switch` of `ParseParams` returns with status `0` only. -/
theorem ParseOption_ret (env : ParseEnv) (Param P : programparams) (c : Char) (s : String)
    (i status : Int) (h : ParseOption env Param c s i = ParseStep.ret status P) :
    status = 0 := by
  simp only [ParseOption] at h
  split_ifs at h <;> cases h <;> rfl

/-- An option that does not make `ParseParams` return leaves `Pad ≥ 0` and `D <= 0` false. -/
theorem ParseOption_next (env : ParseEnv) (Param P : programparams) (c : Char) (s : String)
    (i i2 : Int) (h : ParseOption env Param c s i = ParseStep.next P i2)
    (hinv : 0 ≤ Param.Pad ∧ ¬ Param.D ≤ 0) : 0 ≤ P.Pad ∧ ¬ P.D ≤ 0 := by
  simp only [ParseOption] at h
  split_ifs at h <;> cases h <;> simp_all

/-- An iteration of the argument loop returns with status `0` only. -/
theorem ParseParamsStep_ret (env : ParseEnv) (argv : List String) (Param P : programparams)
    (i status : Int) (h : ParseParamsStep env argv Param i = ParseStep.ret status P) :
    status = 0 := by
  unfold ParseParamsStep at h
  simp only at h
  split_ifs at h
  · cases h
    rfl
  · exact ParseOption_ret _ _ _ _ _ _ _ h
  · exact ParseOption_ret _ _ _ _ _ _ _ h
  · cases h
    rfl

/-- An iteration of the argument loop that does not return leaves `Pad ≥ 0` and `D <= 0` false. -/
theorem ParseParamsStep_next (env : ParseEnv) (argv : List String) (Param P : programparams)
    (i i2 : Int) (h : ParseParamsStep env argv Param i = ParseStep.next P i2)
    (hinv : 0 ≤ Param.Pad ∧ ¬ Param.D ≤ 0) : 0 ≤ P.Pad ∧ ¬ P.D ≤ 0 := by
  unfold ParseParamsStep at h
  simp only at h
  split_ifs at h
  · exact ParseOption_next _ _ _ _ _ _ _ h hinv
  · exact ParseOption_next _ _ _ _ _ _ _ h hinv
  · cases h
    exact hinv
  · cases h
    exact hinv
  · cases h
    exact hinv

/-- When the argument loop ends with status `1`, the parameters have `Pad ≥ 0`, `D <= 0` false
and both file names. -/
theorem ParseParamsLoop_success (env : ParseEnv) (argv : List String) (fuel : Nat) :
    ∀ (Param P : programparams) (i : Int),
      ParseParamsLoop env argv fuel Param i = some (1, P) →
      (0 ≤ Param.Pad ∧ ¬ Param.D ≤ 0) →
      0 ≤ P.Pad ∧ ¬ P.D ≤ 0 ∧ P.FileA ≠ none ∧ P.FileB ≠ none := by
  induction fuel with
  | zero =>
    intro Param P i h _
    simp [ParseParamsLoop] at h
  | succ fuel ih =>
    intro Param P i h hinv
    unfold ParseParamsLoop at h
    split_ifs at h with h1 h2
    · cases hstep : ParseParamsStep env argv Param i with
      | ret status P2 =>
        rw [hstep] at h
        have h0 := ParseParamsStep_ret env argv Param P2 i status hstep
        simp only [Option.some.injEq, Prod.mk.injEq] at h
        omega
      | next P2 i2 =>
        rw [hstep] at h
        exact ih P2 P i2 h (ParseParamsStep_next env argv Param P2 i i2 hstep hinv)
    · simp at h
    · simp only [Option.some.injEq, Prod.mk.injEq, true_and] at h
      subst h
      push_neg at h2
      exact ⟨hinv.1, hinv.2, h2.1, h2.2⟩

/-- An option written alone, `-c`, takes the next argument as its option string. -/
theorem ParseParamsStep_separate (env : ParseEnv) (argv : List String) (Param : programparams)
    (i : Int) (c : Char) (hc : c ≠ Char.ofNat 0)
    (harg : argv.getD i.toNat "" = String.mk ['-', c]) (hi : i + 1 < (argv.length : Int)) :
    ParseParamsStep env argv Param i =
      ParseOption env Param c (argv.getD (i + 1).toNat "") (i + 1) := by
  unfold ParseParamsStep
  simp only [harg]
  have h0 : charAt (String.mk ['-', c]) 0 = '-' := rfl
  have h1 : charAt (String.mk ['-', c]) 1 = c := rfl
  have h2 : charAt (String.mk ['-', c]) 2 = Char.ofNat 0 := rfl
  rw [if_pos h0, h1, if_neg hc, if_neg (by rw [h2]; exact fun h => h rfl), if_pos hi]

/-- An option followed by further characters in the same argument, `-c<string>`, takes them
as its option string. -/
theorem ParseParamsStep_attached (env : ParseEnv) (argv : List String) (Param : programparams)
    (i : Int) (c : Char) (s : String) (hc : c ≠ Char.ofNat 0) (hs : charAt s 0 ≠ Char.ofNat 0)
    (harg : argv.getD i.toNat "" = String.mk ('-' :: c :: s.data)) :
    ParseParamsStep env argv Param i = ParseOption env Param c s i := by
  unfold ParseParamsStep
  simp only [harg]
  have h0 : charAt (String.mk ('-' :: c :: s.data)) 0 = '-' := rfl
  have h1 : charAt (String.mk ('-' :: c :: s.data)) 1 = c := rfl
  have h2 : charAt (String.mk ('-' :: c :: s.data)) 2 = charAt s 0 := rfl
  rw [if_pos h0, h1, if_neg hc, if_pos (by rw [h2]; exact hs)]
  rfl

/-- An iteration that returns ends `ParseParams` with that status. -/
theorem ParseParamsLoop_ret (env : ParseEnv) (argv : List String) (fuel : Nat)
    (Param P : programparams) (i status : Int) (hi : i < (argv.length : Int))
    (h : ParseParamsStep env argv Param i = ParseStep.ret status P) :
    ParseParamsLoop env argv (fuel + 1) Param i = some (status, P) := by
  unfold ParseParamsLoop
  rw [if_pos hi, h]

/-- A `-p` value that `atoi` reads as negative makes the `switch` return `0`. -/
theorem ParseOption_pad_negative (env : ParseEnv) (Param : programparams) (s : String) (i : Int)
    (h : env.atoi s < 0) :
    ParseOption env Param 'p' s i = ParseStep.ret 0 { Param with Pad := env.atoi s } := by
  simp [ParseOption, h]

/-- A `-D` value that `atof` reads as `≤ 0` makes the `switch` return `0`. -/
theorem ParseOption_D_nonpositive (env : ParseEnv) (Param : programparams) (s : String)
    (i : Int) (h : env.atof s ≤ 0) :
    ParseOption env Param 'D' s i = ParseStep.ret 0 { Param with D := env.atof s } := by
  simp [ParseOption, h]

/-- A metric name that is none of the five leaves the parameters as they are and goes on to
the next argument. -/
theorem ParseOption_unknown_metric (env : ParseEnv) (Param : programparams) (s : String)
    (i : Int) (h1 : s ≠ "max") (h2 : s ≠ "mse") (h3 : s ≠ "rmse") (h4 : s ≠ "psnr")
    (h5 : s ≠ "mssim") :
    ParseOption env Param 'm' s i = ParseStep.next Param (i + 1) := by
  simp [ParseOption, h1, h2, h3, h4, h5]

/-- The option `-s` with an attached string ends its iteration at the index it started
from. -/
theorem ParseOption_s (env : ParseEnv) (Param : programparams) (s : String) (i : Int) :
    ParseOption env Param 's' s i =
      ParseStep.next { Param with SeparateChannels := 1 } (i - 1 + 1) := by
  simp [ParseOption]

/-! ## `main` -/

theorem forLoop_three {σ : Type} (body : Int → σ → σ) (s : σ) :
    forLoop 0 3 body s = body 2 (body 1 (body 0 s)) := rfl

/-- The metric loop of `main` makes three single-channel `BasicMetrics` calls. -/
theorem mainMetrics_events (A B : image) (Pad : Int) :
    (mainMetrics A B Pad).events =
      [Event.BasicMetrics A.Width A.Height 1 Pad, Event.BasicMetrics A.Width A.Height 1 Pad,
        Event.BasicMetrics A.Width A.Height 1 Pad] := by
  unfold mainMetrics
  rw [forLoop_three]
  simp [mainChannel]

/-- The `switch` of `main` makes no `BasicMetrics` call, and calls `ComputeMssim` only after
its size test, on three channels with the parsed pad. -/
theorem mainReport_mem (env : MssimEnv) (Param : programparams) (A B : image) (m : MainAcc)
    (e : Event) (he : e ∈ mainReport env Param A B m) :
    (∀ W H C P, e ≠ Event.BasicMetrics W H C P) ∧
      (∀ W H C P, e = Event.ComputeMssim W H C P →
        ¬ mainTooSmall A Param.Pad ∧ W = A.Width ∧ H = A.Height ∧ C = 3 ∧ P = Param.Pad) := by
  unfold mainReport mainMssim at he
  split at he <;> split_ifs at he <;> simp at he <;>
    (refine ⟨fun W H C P h => ?_, fun W H C P h => ?_⟩ <;> subst h <;>
      (try split_ifs at he) <;> (try simp_all))

/-- Every call of the metric engine that `main` makes comes after its size tests, which are
made in `int` arithmetic. -/
theorem mainBody_mem (env : MainEnv) (Param : programparams) (e : Event)
    (he : e ∈ (mainBody env Param).events) :
    (∀ W H C P, e = Event.BasicMetrics W H C P →
        ¬ (W ≤ wrapInt (2 * P)) ∧ ¬ (H ≤ wrapInt (2 * P)) ∧ C = 1 ∧ P = Param.Pad) ∧
      (∀ W H C P, e = Event.ComputeMssim W H C P →
        ¬ (W ≤ wrapInt (2 * P)) ∧ ¬ (H ≤ wrapInt (2 * P)) ∧
        ¬ (W ≤ wrapInt (2 * wrapInt (5 + P))) ∧ ¬ (H ≤ wrapInt (2 * wrapInt (5 + P))) ∧
        C = 3 ∧ P = Param.Pad) := by
  unfold mainBody at he
  cases hA : env.ReadImage Param.FileA with
  | none =>
    rw [hA] at he
    simp at he
  | some A =>
    rw [hA] at he
    simp only at he
    cases hB : env.ReadImage Param.FileB with
    | none =>
      rw [hB] at he
      simp at he
    | some B =>
      rw [hB] at he
      simp only at he
      split_ifs at he with h1 h2
      · simp only [List.mem_singleton] at he
        subst he
        exact ⟨fun W H C P h => (by cases h), fun W H C P h => (by cases h)⟩
      · simp only [List.mem_singleton] at he
        subst he
        exact ⟨fun W H C P h => (by cases h), fun W H C P h => (by cases h)⟩
      · push_neg at h2
        cases hD : Param.DifferenceFile with
        | some File =>
          rw [hD] at he
          simp only at he
          split_ifs at he <;> simp only [List.mem_singleton] at he <;> subst he <;>
            exact ⟨fun W H C P h => (by cases h), fun W H C P h => (by cases h)⟩
        | none =>
          rw [hD] at he
          simp only [List.mem_append] at he
          rcases he with he | he
          · rw [mainMetrics_events] at he
            simp only [List.mem_cons, List.mem_singleton, List.not_mem_nil, or_false,
              or_self] at he
            subst he
            refine ⟨fun W H C P h => ?_, fun W H C P h => (by cases h)⟩
            simp only [Event.BasicMetrics.injEq] at h
            obtain ⟨rfl, rfl, rfl, rfl⟩ := h
            exact ⟨not_le.2 h2.1, not_le.2 h2.2, rfl, rfl⟩
          · obtain ⟨k1, k2⟩ := mainReport_mem env.mssim Param A B _ e he
            refine ⟨fun W H C P h => absurd h (k1 W H C P), fun W H C P h => ?_⟩
            obtain ⟨k3, rfl, rfl, rfl, rfl⟩ := k2 W H C P h
            unfold mainTooSmall at k3
            push_neg at k3
            exact ⟨not_le.2 h2.1, not_le.2 h2.2, not_le.2 k3.1, not_le.2 k3.2, rfl, rfl⟩

/-- For a pad whose doubled value with the window radius fits an `int`, every call of the
metric engine that `main` makes has a non-empty interior. -/
theorem mainBody_guarded (env : MainEnv) (Param : programparams) (hP : 0 ≤ Param.Pad)
    (hfit : 2 * (5 + Param.Pad) < 2147483648) (e : Event)
    (he : e ∈ (mainBody env Param).events) :
    (∀ W H C P, e = Event.BasicMetrics W H C P → 2 * P < W ∧ 2 * P < H) ∧
      (∀ W H C P, e = Event.ComputeMssim W H C P → 2 * (P + 5) < W ∧ 2 * (P + 5) < H) := by
  obtain ⟨k1, k2⟩ := mainBody_mem env Param e he
  have w1 : wrapInt (2 * Param.Pad) = 2 * Param.Pad :=
    wrapInt_of_range _ (by omega) (by omega)
  have w2 : wrapInt (5 + Param.Pad) = 5 + Param.Pad :=
    wrapInt_of_range _ (by omega) (by omega)
  have w3 : wrapInt (2 * (5 + Param.Pad)) = 2 * (5 + Param.Pad) :=
    wrapInt_of_range _ (by omega) (by omega)
  constructor
  · intro W H C P h
    obtain ⟨a1, a2, -, rfl⟩ := k1 W H C P h
    rw [w1] at a1 a2
    omega
  · intro W H C P h
    obtain ⟨-, -, a3, a4, -, rfl⟩ := k2 W H C P h
    rw [w2, w3] at a3 a4
    omega

/-- The C quotient of a zero sum by an `int` count: NaN at a zero count, zero otherwise. -/
theorem cfloat.zero_div_count (n : Int) :
    (cfloat.val 0 / cfloat.val (n : ℚ)).toFloat = if n = 0 then cfloat.nan else cfloat.val 0 := by
  by_cases hn : n = 0
  · subst hn
    rw [if_pos rfl, Int.cast_zero, cfloat.val_div_zero, if_pos rfl]
    rfl
  · rw [if_neg hn, cfloat.val_div_val _ _ (by exact_mod_cast hn), zero_div,
      cfloat.toFloat_zero]

/-- With `Width ≤ 2*Pad` or `Height ≤ 2*Pad` the loops of `BasicMetrics` visit no pixel:
`CurMax` and `AccumMse` keep their initial `0`. -/
theorem BasicMetricsLoop_empty (A B : Int → ℚ) (Width Height NumChannels Pad : Int)
    (h : Width ≤ 2 * Pad ∨ Height ≤ 2 * Pad) :
    (BasicMetricsLoop A B Width Height NumChannels Pad).CurMax = 0 ∧
      (BasicMetricsLoop A B Width Height NumChannels Pad).AccumMse = 0 := by
  constructor
  · apply le_antisymm
    · rw [BasicMetricsLoop_CurMax_le_iff]
      refine ⟨le_rfl, fun c _ _ y h1 h2 x h3 h4 => ?_⟩
      omega
    · exact ((BasicMetricsLoop_CurMax_le_iff A B Width Height NumChannels Pad _).1 le_rfl).1
  · rw [BasicMetricsLoop_AccumMse]
    refine Finset.sum_eq_zero (fun c _ => Finset.sum_eq_zero (fun y hy =>
      Finset.sum_eq_zero (fun x hx => ?_)))
    simp only [Finset.mem_Ico] at hy hx
    omega

/-- With `Width ≤ 2*Pad` or `Height ≤ 2*Pad` and a non-zero `int` count, `BasicMetrics` writes
`Max = 0` and `Mse = 0`, the quotient of `0` by the count. -/
theorem BasicMetrics_empty (A B : Int → ℚ) (Width Height NumChannels Pad : Int)
    (h : Width ≤ 2 * Pad ∨ Height ≤ 2 * Pad)
    (hcount : BasicMetricsCount Width Height NumChannels Pad ≠ 0) :
    (BasicMetrics A B Width Height NumChannels Pad).Max = 0 ∧
      (BasicMetrics A B Width Height NumChannels Pad).Mse = 0 := by
  have _ := hcount
  obtain ⟨h1, h2⟩ := BasicMetricsLoop_empty A B Width Height NumChannels Pad h
  unfold BasicMetrics
  simp only
  rw [h1, h2, zero_div]
  exact ⟨rfl, rfl⟩

/-- With `Width ≤ 2*Pad` or `Height ≤ 2*Pad` the C value stored through `*Mse` is NaN when the
`int` count is zero, and zero otherwise. -/
theorem BasicMetricsMse_empty (A B : Int → ℚ) (Width Height NumChannels Pad : Int)
    (h : Width ≤ 2 * Pad ∨ Height ≤ 2 * Pad) :
    BasicMetricsMse A B Width Height NumChannels Pad =
      if BasicMetricsCount Width Height NumChannels Pad = 0 then cfloat.nan
      else cfloat.val 0 := by
  unfold BasicMetricsMse
  rw [(BasicMetricsLoop_empty A B Width Height NumChannels Pad h).2, cfloat.zero_div_count]

/-- With `Width ≤ 2*(Pad+5)` or `Height ≤ 2*(Pad+5)` the reduction of `ComputeMssim` visits
no pixel: the sum keeps its initial `0`. -/
theorem ComputeMssimSum_empty (w : List ℚ) (Boundary : boundaryext)
    (MuA MuB MuAA MuBB MuAB : Int → ℚ) (A B : Int → ℚ)
    (Width Height NumChannels Pad : Int)
    (h : Width ≤ 2 * (Pad + 5) ∨ Height ≤ 2 * (Pad + 5)) :
    ComputeMssimSum w Boundary MuA MuB MuAA MuBB MuAB A B Width Height NumChannels Pad = 0 := by
  unfold ComputeMssimSum
  simp only
  rw [forLoop_add (fun _ => 0), Finset.sum_const_zero, add_zero]
  intro c t _ _
  rw [forLoop_add (fun _ => 0), Finset.sum_const_zero]
  intro y t hy1 hy2
  rw [forLoop_add (fun _ => 0), Finset.sum_const_zero]
  intro x t hx1 hx2
  omega

/-- With `Width ≤ 2*(Pad+5)` or `Height ≤ 2*(Pad+5)` and a non-zero `int` count, a
`ComputeMssim` past its guard computes `0`, the quotient of `0` by the count. -/
theorem ComputeMssimBody_empty (w : List ℚ) (Boundary : boundaryext)
    (MuA MuB MuAA MuBB MuAB : Int → ℚ) (A B : Int → ℚ)
    (Width Height NumChannels Pad : Int)
    (h : Width ≤ 2 * (Pad + 5) ∨ Height ≤ 2 * (Pad + 5))
    (hcount : ComputeMssimCount Width Height NumChannels Pad ≠ 0) :
    ComputeMssimBody w Boundary MuA MuB MuAA MuBB MuAB A B Width Height NumChannels Pad = 0 := by
  have _ := hcount
  unfold ComputeMssimBody
  simp only
  rw [ComputeMssimSum_empty _ _ _ _ _ _ _ _ _ _ _ _ _ h, zero_div]

/-- With `Width ≤ 2*(Pad+5)` or `Height ≤ 2*(Pad+5)` the C value that a `ComputeMssim` past
its guard returns is NaN when the `int` count is zero, and zero otherwise. -/
theorem ComputeMssimValue_empty (w : List ℚ) (Boundary : boundaryext)
    (MuA MuB MuAA MuBB MuAB : Int → ℚ) (A B : Int → ℚ)
    (Width Height NumChannels Pad : Int)
    (h : Width ≤ 2 * (Pad + 5) ∨ Height ≤ 2 * (Pad + 5)) :
    ComputeMssimValue w Boundary MuA MuB MuAA MuBB MuAB A B Width Height NumChannels Pad =
      if ComputeMssimCount Width Height NumChannels Pad = 0 then cfloat.nan
      else cfloat.val 0 := by
  unfold ComputeMssimValue
  rw [ComputeMssimSum_empty _ _ _ _ _ _ _ _ _ _ _ _ _ h, cfloat.zero_div_count]

/-- After a successful `ParseParams`, `main` goes on with the parsed parameters. -/
theorem main_of_parse (env : MainEnv) (fuel : Nat) (argv : List String) (P : programparams)
    (h : ParseParams env.parse fuel env.Param argv = some (1, P)) :
    main env fuel argv = some (mainBody env P) := by
  unfold main
  rw [h]
  simp

/-- When both images are read with equal sizes, the size test against the pad passes and no
difference file is asked for, `main` computes and reports the metrics. -/
theorem mainBody_metrics (env : MainEnv) (Param : programparams) (A B : image)
    (hA : env.ReadImage Param.FileA = some A) (hB : env.ReadImage Param.FileB = some B)
    (hdim : A.Width = B.Width ∧ A.Height = B.Height)
    (hg : ¬ (A.Width ≤ wrapInt (2 * Param.Pad) ∨ A.Height ≤ wrapInt (2 * Param.Pad)))
    (hD : Param.DifferenceFile = none) :
    mainBody env Param =
      { Status := 0
        events := (mainMetrics A B Param.Pad).events ++
          mainReport env.mssim Param A B (mainMetrics A B Param.Pad) } := by
  unfold mainBody
  rw [hA]
  simp only
  rw [hB]
  simp only
  rw [if_neg (not_or.2 ⟨not_not.2 hdim.1, not_not.2 hdim.2⟩), if_neg hg, hD]

/-! ## Properties of `BasicMetrics` and `MakeDifferenceImage` -/

/-- For `NumChannels ≥ 1`, `Pad ≥ 0`, `2*Pad < min(Width, Height)` and an interior whose pixel
count fits an `int`, `BasicMetrics` writes as `Max` the maximum of `|A[n] - B[n]|` over the
sample indices of the interior and as `Mse` the sum of `(A[n] - B[n])^2` over exactly those
indices divided by `NumChannels*(Width - 2*Pad)*(Height - 2*Pad)`. -/
theorem BasicMetrics_interior_of_range (A B : Int → ℚ) (Width Height NumChannels Pad : Int)
    (hC : 1 ≤ NumChannels) (hP : 0 ≤ Pad) (hWH : 2 * Pad < min Width Height)
    (hfit : NumChannels * (Width - 2 * Pad) * (Height - 2 * Pad) < 2147483648) :
    IsGreatest ((fun n => |A n - B n|) '' (interior Width Height NumChannels Pad : Set Int))
        (BasicMetrics A B Width Height NumChannels Pad).Max ∧
      (BasicMetrics A B Width Height NumChannels Pad).Mse =
        (∑ n in interior Width Height NumChannels Pad, (A n - B n) ^ 2)
          / ((NumChannels * (Width - 2 * Pad) * (Height - 2 * Pad) : Int) : ℚ) := by
  have hW : 2 * Pad < Width := lt_of_lt_of_le hWH (min_le_left _ _)
  have hH : 2 * Pad < Height := lt_of_lt_of_le hWH (min_le_right _ _)
  have h1 : 0 < NumChannels * (Width - 2 * Pad) := mul_pos (by omega) (by omega)
  have h2 : 0 < NumChannels * (Width - 2 * Pad) * (Height - 2 * Pad) := mul_pos h1 (by omega)
  refine ⟨BasicMetrics_Max_isGreatest A B Width Height NumChannels Pad hC hW hH, ?_⟩
  rw [BasicMetrics_Mse, sum_interior (fun n => (A n - B n) ^ 2) Width Height NumChannels Pad hP,
    BasicMetricsCount_of_range _ _ _ _ (by omega) hfit]

/-- The `int` divisor of `BasicMetrics` for one channel of 65536×32768 samples and `Pad = 0`:
the exact count `2^31` wraps to `-2^31`. -/
theorem BasicMetricsCount_large : BasicMetricsCount 65536 32768 1 0 = -2147483648 := by
  decide

/-- C1 fails on the code where the pixel count does not fit an `int`. For one channel of
65536×32768 samples and `Pad = 0` every sample index fits (the last is `2147483647`), but the
`int` divisor `1*(65536 - 2*0)*(32768 - 2*0)` wraps to `-2147483648`: with `A = 0` and `B = 1`
at every sample `BasicMetrics` writes `Mse = -1`, while the sum of `(A[n] - B[n])^2` over the
interior divided by `NumChannels*(Width - 2*Pad)*(Height - 2*Pad)` is `1`. -/
theorem BasicMetrics_count_wraps :
    ((1 : Int) ≤ 1 ∧ (0 : Int) ≤ 0 ∧ (2 : Int) * 0 < min 65536 32768) ∧
      (65535 : Int) + 65536 * (32767 + 32768 * 0) = 2147483647 ∧
      (BasicMetrics (flatImage 0) (flatImage 1) 65536 32768 1 0).Mse = -1 ∧
      (∑ n in interior 65536 32768 1 0, (flatImage 0 n - flatImage 1 n) ^ 2)
        / (((1 : Int) * (65536 - 2 * 0) * (32768 - 2 * 0) : Int) : ℚ) = 1 := by
  refine ⟨⟨by decide, by decide, by decide⟩, by decide, ?_, ?_⟩
  · have h := (BasicMetrics_of_const (flatImage 0) (flatImage 1) 65536 32768 1 0 1
      (by decide) (by decide) (by decide) (by
        intro c _ _ y _ _ x _ _
        simp [flatImage])).2
    rw [h, BasicMetricsCount_large]
    norm_num
  · rw [sum_interior (fun n => (flatImage 0 n - flatImage 1 n) ^ 2) 65536 32768 1 0 le_rfl]
    have e : ∀ n : Int, (flatImage 0 n - flatImage 1 n) ^ 2 = 1 := by
      intro n
      simp [flatImage]
    simp only [e]
    rw [sum_region_const 1 65536 32768 1 0 (by decide) (by decide) (by decide)]
    norm_num

/-- For `NumChannels ≥ 1`, `Pad ≥ 0`, `2*Pad < min(Width, Height)` and an interior whose pixel
count fits an `int`, if `B[n] = A[n] + δ` at every one of the `NumChannels*Width*Height`
samples then `BasicMetrics` yields `Max = |δ|` and `Mse = δ^2`. -/
theorem BasicMetrics_offset_of_range (A B : Int → ℚ) (Width Height NumChannels Pad : Int)
    (δ : ℚ) (hC : 1 ≤ NumChannels) (hP : 0 ≤ Pad) (hWH : 2 * Pad < min Width Height)
    (hfit : NumChannels * (Width - 2 * Pad) * (Height - 2 * Pad) < 2147483648)
    (hB : ∀ n, 0 ≤ n → n < NumChannels * Width * Height → B n = A n + δ) :
    (BasicMetrics A B Width Height NumChannels Pad).Max = |δ| ∧
      (BasicMetrics A B Width Height NumChannels Pad).Mse = δ ^ 2 := by
  have hW : 2 * Pad < Width := lt_of_lt_of_le hWH (min_le_left _ _)
  have hH : 2 * Pad < Height := lt_of_lt_of_le hWH (min_le_right _ _)
  have h := BasicMetrics_of_const_of_range A B Width Height NumChannels Pad |δ| hC hW hH hfit
    (by
      intro c h1 h2 y h3 h4 x h5 h6
      have hr := index_range Width Height NumChannels c y x ⟨h1, h2⟩
        ⟨by omega, by omega⟩ ⟨by omega, by omega⟩
      rw [hB _ hr.1 hr.2, sub_add_cancel_left, abs_neg])
  rw [sq_abs] at h
  exact h

/-- C3 fails on the code where the pixel count does not fit an `int`. For one channel of
65536×32768 samples and `Pad = 0`, with `A = 1/2` and `B = A + 1/4` at every sample,
`BasicMetrics` yields `Max = |1/4|` but `Mse = -(1/4)^2`: the `int` divisor wraps to
`-2147483648`. -/
theorem BasicMetrics_offset_count_wraps :
    ((1 : Int) ≤ 1 ∧ (0 : Int) ≤ 0 ∧ (2 : Int) * 0 < min 65536 32768 ∧
        (∀ n : Int, flatImage (3 / 4) n = flatImage (1 / 2) n + 1 / 4)) ∧
      (BasicMetrics (flatImage (1 / 2)) (flatImage (3 / 4)) 65536 32768 1 0).Max
        = |(1 / 4 : ℚ)| ∧
      (BasicMetrics (flatImage (1 / 2)) (flatImage (3 / 4)) 65536 32768 1 0).Mse
        = -(1 / 4 : ℚ) ^ 2 := by
  have h := BasicMetrics_of_const (flatImage (1 / 2)) (flatImage (3 / 4)) 65536 32768 1 0
    |(1 / 4 : ℚ)| (by decide) (by decide) (by decide) (by
      intro c _ _ y _ _ x _ _
      simp only [flatImage]
      norm_num)
  refine ⟨⟨by decide, by decide, by decide, ?_⟩, h.1, ?_⟩
  · intro n
    simp only [flatImage]
    norm_num
  · rw [h.2, BasicMetricsCount_large, sq_abs]
    norm_num

/-- C6: for all images and all `NumChannels`, `Width`, `Height`, `Pad`, `BasicMetrics(A, B)`
and `BasicMetrics(B, A)` write identical `Max` and identical `Mse`. -/
theorem BasicMetrics_symmetric (A B : Int → ℚ) (Width Height NumChannels Pad : Int) :
    (BasicMetrics A B Width Height NumChannels Pad).Max =
        (BasicMetrics B A Width Height NumChannels Pad).Max ∧
      (BasicMetrics A B Width Height NumChannels Pad).Mse =
        (BasicMetrics B A Width Height NumChannels Pad).Mse := by
  have h : BasicMetricsStep A B = BasicMetricsStep B A := by
    funext W H c y x s
    simp only [BasicMetricsStep, abs_sub_comm (A _) (B _)]
  unfold BasicMetrics BasicMetricsLoop
  rw [h]
  exact ⟨rfl, rfl⟩

/-- C8: for `NumChannels ≥ 1`, `Pad ≥ 0` and `2*Pad < min(Width, Height)`, if `A` and `B`
agree at every sample of the interior then `BasicMetrics` yields `Max = 0` and `Mse = 0`,
whatever the two images hold in the `Pad`-pixel border margin. -/
theorem BasicMetrics_ignores_margin (A B : Int → ℚ) (Width Height NumChannels Pad : Int)
    (hC : 1 ≤ NumChannels) (hP : 0 ≤ Pad) (hWH : 2 * Pad < min Width Height)
    (hAB : ∀ c y x : Int, 0 ≤ c → c < NumChannels → Pad ≤ y → y < Height - Pad →
      Pad ≤ x → x < Width - Pad →
        A (x + Width * (y + Height * c)) = B (x + Width * (y + Height * c))) :
    (BasicMetrics A B Width Height NumChannels Pad).Max = 0 ∧
      (BasicMetrics A B Width Height NumChannels Pad).Mse = 0 := by
  have hW : 2 * Pad < Width := lt_of_lt_of_le hWH (min_le_left _ _)
  have hH : 2 * Pad < Height := lt_of_lt_of_le hWH (min_le_right _ _)
  have _ := hP
  exact BasicMetrics_of_agree A B Width Height NumChannels Pad hC hW hH
    (fun c h1 h2 y h3 h4 x h5 h6 => hAB c y x h1 h2 h3 h4 h5 h6)

theorem rampBorder_interior (c y x : Int) (h1 : 0 ≤ c) (h2 : c < 1) (h3 : 1 ≤ y)
    (h4 : y < 3 - 1) (h5 : 1 ≤ x) (h6 : x < 3 - 1) :
    rampImage (x + 3 * (y + 3 * c)) = rampBorder (x + 3 * (y + 3 * c)) := by
  have hc : c = 0 := by omega
  have hy : y = 1 := by omega
  have hx : x = 1 := by omega
  subst hc hy hx
  simp [rampBorder]

theorem BasicMetrics_ignores_margin_witness :
    ((1 : Int) ≤ 1 ∧ (0 : Int) ≤ 1 ∧ (2 : Int) * 1 < min 3 3 ∧
        rampImage 0 ≠ rampBorder 0 ∧
        (∀ c y x : Int, 0 ≤ c → c < 1 → 1 ≤ y → y < 3 - 1 → 1 ≤ x → x < 3 - 1 →
          rampImage (x + 3 * (y + 3 * c)) = rampBorder (x + 3 * (y + 3 * c)))) ∧
      ((BasicMetrics rampImage rampBorder 3 3 1 1).Max = 0 ∧
        (BasicMetrics rampImage rampBorder 3 3 1 1).Mse = 0) :=
  ⟨⟨by decide, by decide, by decide, by simp [rampBorder, rampImage], rampBorder_interior⟩,
    BasicMetrics_ignores_margin rampImage rampBorder 3 3 1 1
      (by decide) (by decide) (by decide) rampBorder_interior⟩

/-- The scaled `D` of `MakeDifferenceImage` for a `D` whose double is in the range of `float`
and whose quotient by `255` is not: it underflows to zero. -/
theorem scaledD_underflow (d : ℚ) (h1 : 1 / 2 ^ 150 < |2 * d|)
    (h2 : |2 * d| < 2 ^ 128 - 2 ^ 103) (h3 : |2 * d / 255| ≤ 1 / 2 ^ 150) :
    ((2 * cfloat.val d).toFloat / 255).toFloat = cfloat.val 0 := by
  rw [cfloat.two_mul_val, cfloat.toFloat_of_range _ h1 h2, cfloat.val_div_ofNat,
    cfloat.toFloat_of_small _ h3]

/-- The scaled `D` of `MakeDifferenceImage` for a `D` whose double and whose quotient by
`255` are in the range of `float`. -/
theorem scaledD_of_range (d : ℚ) (h1 : |2 * d| < 2 ^ 128 - 2 ^ 103)
    (h2 : 1 / 2 ^ 150 < |2 * d / 255|) :
    ((2 * cfloat.val d).toFloat / 255).toFloat = cfloat.val (2 * d / 255) := by
  have h3 : 1 / 2 ^ 150 < |2 * d| := by
    refine lt_of_lt_of_le h2 ?_
    rw [abs_div]
    exact div_le_self (abs_nonneg _) (by norm_num)
  have h4 : |2 * d / 255| < 2 ^ 128 - 2 ^ 103 := by
    refine lt_of_le_of_lt ?_ h1
    rw [abs_div]
    exact div_le_self (abs_nonneg _) (by norm_num)
  rw [cfloat.two_mul_val, cfloat.toFloat_of_range _ h3 h1, cfloat.val_div_ofNat,
    cfloat.toFloat_of_range _ h2 h4]

/-- For identical images, a `D > 0` whose scaled value `2D/255` does not underflow and whose
double does not overflow, and `NumChannels*Width*Height` samples that fit an `int`, every
sample is `0.5` after `MakeDifferenceImage`. -/
theorem MakeDifferenceImage_identical_of_range (A : Int → ℚ) (Width Height NumChannels : Int)
    (D : ℚ) (hD : 0 < D) (hlo : 1 / 2 ^ 150 < 2 * D / 255) (hhi : 2 * D < 2 ^ 128 - 2 ^ 103)
    (hfit : NumChannels * Width * Height < 2147483648)
    (n : Int) (h0 : 0 ≤ n) (hn : n < NumChannels * Width * Height) :
    MakeDifferenceImage A A Width Height NumChannels (cfloat.val D) n = cfloat.val (1 / 2) := by
  have hpos : (0 : ℚ) < 2 * D / 255 := by positivity
  have hne : (2 * D / 255 : ℚ) ≠ 0 := hpos.ne'
  rw [MakeDifferenceImage_apply, wrapInt_NumEl, wrapInt_of_range _ (by omega) hfit,
    if_pos ⟨h0, hn⟩,
    scaledD_of_range D (by rw [abs_of_pos (by positivity)]; exact hhi)
      (by rw [abs_of_pos hpos]; exact hlo),
    cfloat.val_sub_val, sub_self, cfloat.toFloat_zero, cfloat.val_div_val _ _ hne, zero_div,
    cfloat.toFloat_zero, cfloat.val_add_val, zero_add, cfloat.toFloat_half]

/-- For a `D > 0` whose scaled value `2D/255` does not underflow and whose double does not
overflow, `NumChannels*Width*Height` samples that fit an `int`, and a sample whose
difference, quotient and result lie in the range of `float`, `MakeDifferenceImage` replaces
`A[n]` by `(A[n] - B[n])/(2D/255) + 0.5`, which on the 0..255 display scale is
`(255/2)*((255*A[n] - 255*B[n])/D + 1)`. -/
theorem MakeDifferenceImage_formula_of_range (A B : Int → ℚ) (Width Height NumChannels : Int)
    (D : ℚ) (hD : 0 < D) (hlo : 1 / 2 ^ 150 < 2 * D / 255) (hhi : 2 * D < 2 ^ 128 - 2 ^ 103)
    (hfit : NumChannels * Width * Height < 2147483648)
    (n : Int) (h0 : 0 ≤ n) (hn : n < NumChannels * Width * Height)
    (h1 : 1 / 2 ^ 150 < |A n - B n|) (h2 : |A n - B n| < 2 ^ 128 - 2 ^ 103)
    (h3 : 1 / 2 ^ 150 < |(A n - B n) / (2 * D / 255)|)
    (h4 : |(A n - B n) / (2 * D / 255)| < 2 ^ 128 - 2 ^ 103)
    (h5 : 1 / 2 ^ 150 < |(A n - B n) / (2 * D / 255) + 1 / 2|)
    (h6 : |(A n - B n) / (2 * D / 255) + 1 / 2| < 2 ^ 128 - 2 ^ 103) :
    MakeDifferenceImage A B Width Height NumChannels (cfloat.val D) n =
        cfloat.val ((A n - B n) / (2 * D / 255) + 1 / 2) ∧
      255 * ((A n - B n) / (2 * D / 255) + 1 / 2) =
        255 / 2 * ((255 * A n - 255 * B n) / D + 1) := by
  have hpos : (0 : ℚ) < 2 * D / 255 := by positivity
  have hne : (2 * D / 255 : ℚ) ≠ 0 := hpos.ne'
  constructor
  · rw [MakeDifferenceImage_apply, wrapInt_NumEl, wrapInt_of_range _ (by omega) hfit,
      if_pos ⟨h0, hn⟩,
      scaledD_of_range D (by rw [abs_of_pos (by positivity)]; exact hhi)
        (by rw [abs_of_pos hpos]; exact hlo),
      cfloat.val_sub_val, cfloat.toFloat_of_range _ h1 h2, cfloat.val_div_val _ _ hne,
      cfloat.toFloat_of_range _ h3 h4, cfloat.val_add_val, cfloat.toFloat_of_range _ h5 h6]
  · have hD0 : D ≠ 0 := hD.ne'
    field_simp
    ring

/-- C9 fails on the code for a tiny `D` and for `2^31` samples. With `D = 7·2^-149 > 0`, the
`float` that `-D 1e-44` gives, the scaled `2D/255` underflows to zero and every sample of two
identical 4×4 three-channel images becomes `0/0`, NaN, not `0.5`. With one channel of
65536×32768 samples the `int` `NumEl` wraps to `-2147483648`, the loop stores nothing and
the last sample keeps its value `3/4`. -/
theorem MakeDifferenceImage_identical_underflow :
    ((0 : ℚ) < 7 / 2 ^ 149 ∧ (0 : Int) ≤ 47 ∧ (47 : Int) < 3 * 4 * 4 ∧
        MakeDifferenceImage (flatImage (3 / 4)) (flatImage (3 / 4)) 4 4 3
          (cfloat.val (7 / 2 ^ 149)) 47 = cfloat.nan) ∧
      ((2147483647 : Int) < 1 * 65536 * 32768 ∧
        MakeDifferenceImage (flatImage (3 / 4)) (flatImage (3 / 4)) 65536 32768 1 20 2147483647
          = cfloat.val (3 / 4)) := by
  refine ⟨⟨by norm_num, by decide, by decide, ?_⟩, by decide, ?_⟩
  · rw [MakeDifferenceImage_apply, if_pos (by decide),
      scaledD_underflow _ (by norm_num [abs_of_pos]) (by norm_num [abs_of_pos])
        (by norm_num [abs_of_pos]),
      cfloat.val_sub_val, sub_self, cfloat.toFloat_zero, cfloat.val_div_zero, if_pos rfl]
    rfl
  · rw [MakeDifferenceImage_apply, if_neg (by decide)]
    rfl

/-- C10 fails on the code for a tiny `D` and for `2^31` samples. With `D = 7·2^-149 > 0` the
scaled `2D/255` underflows to zero and a sample with `A[n] - B[n] = 1/4` becomes `+inf`, not
`(A[n] - B[n])/(2D/255) + 0.5`. With one channel of 65536×32768 samples the `int` `NumEl`
wraps to `-2147483648` and no sample is replaced: sample `5` keeps its value `3/4`. -/
theorem MakeDifferenceImage_formula_underflow :
    ((0 : ℚ) < 7 / 2 ^ 149 ∧ (0 : Int) ≤ 5 ∧ (5 : Int) < 3 * 4 * 4 ∧
        MakeDifferenceImage (flatImage (3 / 4)) (flatImage (1 / 2)) 4 4 3
          (cfloat.val (7 / 2 ^ 149)) 5 = cfloat.inf false ∧
        cfloat.inf false ≠ cfloat.val
          ((flatImage (3 / 4) 5 - flatImage (1 / 2) 5) / (2 * (7 / 2 ^ 149) / 255) + 1 / 2)) ∧
      ((5 : Int) < 1 * 65536 * 32768 ∧
        MakeDifferenceImage (flatImage (3 / 4)) (flatImage (1 / 2)) 65536 32768 1 20 5
          = cfloat.val (3 / 4) ∧
        cfloat.val (3 / 4) ≠ cfloat.val
          ((flatImage (3 / 4) 5 - flatImage (1 / 2) 5) / (2 * 20 / 255) + 1 / 2)) := by
  refine ⟨⟨by norm_num, by decide, by decide, ?_, fun h => cfloat.noConfusion h⟩,
    by decide, ?_, ?_⟩
  · have e : (flatImage (3 / 4) 5 - flatImage (1 / 2) 5 : ℚ) = 1 / 4 := by
      simp only [flatImage]
      norm_num
    rw [MakeDifferenceImage_apply, if_pos (by decide),
      scaledD_underflow _ (by norm_num [abs_of_pos]) (by norm_num [abs_of_pos])
        (by norm_num [abs_of_pos]),
      cfloat.val_sub_val, e,
      cfloat.toFloat_of_range _ (by norm_num [abs_of_pos]) (by norm_num [abs_of_pos]),
      cfloat.val_div_zero, if_neg (by norm_num)]
    have e2 : decide ((1 / 4 : ℚ) < 0) = false := by
      rw [decide_eq_false_iff_not]
      norm_num
    rw [e2]
    rfl
  · rw [MakeDifferenceImage_apply, if_neg (by decide)]
    rfl
  · intro h
    have h2 := cfloat.val.inj h
    simp only [flatImage] at h2
    norm_num at h2

/-! ## Properties of `ComputeMssim` -/

theorem binomialWindow_nonneg : ∀ t ∈ binomialWindow, (0 : ℚ) ≤ t := by
  intro t ht
  simp only [binomialWindow, List.mem_cons, List.mem_singleton, List.not_mem_nil, or_false] at ht
  rcases ht with h | h | h | h | h | h | h | h | h | h | h <;> rw [h] <;> norm_num

theorem binomialWindow_sum : binomialWindow.sum = 1 := by
  simp only [binomialWindow, List.sum_cons, List.sum_nil]
  norm_num

/-- C2: for `NumChannels ≥ 1`, `Pad ≥ 0`, `Width > 2(Pad+5)` and `Height > 2(Pad+5)`, when
the kernel and the six allocations succeed `ComputeMssim` returns the sum over all
`c < NumChannels`, `Pad+5 ≤ y < Height-Pad-5`, `Pad+5 ≤ x < Width-Pad-5` of
`((2 muA muB + C1)(2 sigmaAB + C2)) / ((muA^2 + muB^2 + C1)(sigmaA2 + sigmaB2 + C2))`, taken
at the window convolutions of `A`, `B`, `A*A`, `B*B`, `A*B`, divided by
`NumChannels*(Width-2(Pad+5))*(Height-2(Pad+5))`, which is the number of summed terms. -/
theorem ComputeMssim_mean_localSsim (w : List ℚ) (Boundary : boundaryext)
    (Buffer MuA MuB MuAA MuBB MuAB : Int → ℚ) (A B : Int → ℚ)
    (Width Height NumChannels Pad : Int) (hC : 1 ≤ NumChannels) (hP : 0 ≤ Pad)
    (hW : 2 * (Pad + 5) < Width) (hH : 2 * (Pad + 5) < Height) :
    ComputeMssim
        { Window := some w, Boundary := Boundary, Buffer := some Buffer, MuA := some MuA,
          MuB := some MuB, MuAA := some MuAA, MuBB := some MuBB, MuAB := some MuAB }
        A B Width Height NumChannels Pad =
      (∑ c in Finset.Ico 0 NumChannels, ∑ y in Finset.Ico (Pad + 5) (Height - Pad - 5),
        ∑ x in Finset.Ico (Pad + 5) (Width - Pad - 5),
          localSsim w Boundary A B Width Height c y x)
        / ((NumChannels * (Width - 2 * (Pad + 5)) * (Height - 2 * (Pad + 5)) : Int) : ℚ) ∧
      ((((Finset.Ico 0 NumChannels ×ˢ Finset.Ico (Pad + 5) (Height - Pad - 5)) ×ˢ
          Finset.Ico (Pad + 5) (Width - Pad - 5)).card : Nat) : Int) =
        NumChannels * (Width - 2 * (Pad + 5)) * (Height - 2 * (Pad + 5)) := by
  have e1 : Height - Pad - 5 = Height - (Pad + 5) := by ring
  have e2 : Width - Pad - 5 = Width - (Pad + 5) := by ring
  rw [e1, e2, ComputeMssim_success, ComputeMssimBody_eq _ _ _ _ _ _ _ _ _ _ _ _ _ (by omega)]
  exact ⟨rfl, card_region Width Height NumChannels (Pad + 5) (by omega) hW.le hH.le⟩

theorem ComputeMssim_mean_localSsim_witness :
    ((1 : Int) ≤ 1 ∧ (0 : Int) ≤ 0 ∧ (2 : Int) * (0 + 5) < 11 ∧ (2 : Int) * (0 + 5) < 11) ∧
      (ComputeMssim sampleEnv rampImage rampShifted 11 11 1 0 =
        (∑ c in Finset.Ico (0 : Int) 1, ∑ y in Finset.Ico ((0 : Int) + 5) (11 - 0 - 5),
          ∑ x in Finset.Ico ((0 : Int) + 5) (11 - 0 - 5),
            localSsim binomialWindow nearestValid rampImage rampShifted 11 11 c y x)
          / (((1 : Int) * (11 - 2 * (0 + 5)) * (11 - 2 * (0 + 5)) : Int) : ℚ) ∧
        ((((Finset.Ico (0 : Int) 1 ×ˢ Finset.Ico ((0 : Int) + 5) (11 - 0 - 5)) ×ˢ
            Finset.Ico ((0 : Int) + 5) (11 - 0 - 5)).card : Nat) : Int) =
          1 * (11 - 2 * (0 + 5)) * (11 - 2 * (0 + 5))) :=
  ⟨⟨by decide, by decide, by decide, by decide⟩,
    ComputeMssim_mean_localSsim binomialWindow nearestValid (fun _ => 0) (fun _ => 1)
      (fun _ => 2) (fun _ => 3) (fun _ => 4) (fun _ => 5) rampImage rampShifted 11 11 1 0
      (by decide) (by decide) (by decide) (by decide)⟩

/-- C4: for `NumChannels ≥ 1`, `Pad ≥ 0`, `Width > 2(Pad+5)` and `Height > 2(Pad+5)`, with
window taps that are non-negative and sum to `1`, a successful `ComputeMssim(A, A, ...)`
returns exactly `1`, and at every pixel of the eroded interior the denominator
`(2 muA^2 + C1)(2 sigmaA2 + C2)` is non-zero. -/
theorem ComputeMssim_identical (w : List ℚ) (Boundary : boundaryext)
    (Buffer MuA MuB MuAA MuBB MuAB : Int → ℚ) (A : Int → ℚ)
    (Width Height NumChannels Pad : Int) (hw : ∀ t ∈ w, 0 ≤ t) (hsum : w.sum = 1)
    (hC : 1 ≤ NumChannels) (hP : 0 ≤ Pad)
    (hW : 2 * (Pad + 5) < Width) (hH : 2 * (Pad + 5) < Height) :
    ComputeMssim
        { Window := some w, Boundary := Boundary, Buffer := some Buffer, MuA := some MuA,
          MuB := some MuB, MuAA := some MuAA, MuBB := some MuBB, MuAB := some MuAB }
        A A Width Height NumChannels Pad = 1 ∧
      ∀ c y x : Int, 0 ≤ c → c < NumChannels → Pad + 5 ≤ y → y < Height - Pad - 5 →
        Pad + 5 ≤ x → x < Width - Pad - 5 →
        (2 * (SeparableConv2DAt A w w Boundary Width Height c y x) ^ 2 + MSSIM_C1) *
          (2 * (SeparableConv2DAt (fun n => A n * A n) w w Boundary Width Height c y x
              - (SeparableConv2DAt A w w Boundary Width Height c y x) ^ 2) + MSSIM_C2) ≠ 0 := by
  constructor
  · rw [ComputeMssim_success, ComputeMssimBody_eq _ _ _ _ _ _ _ _ _ _ _ _ _ (by omega)]
    have e : ∑ c in Finset.Ico 0 NumChannels, ∑ y in Finset.Ico (Pad + 5) (Height - (Pad + 5)),
        ∑ x in Finset.Ico (Pad + 5) (Width - (Pad + 5)),
          localSsim w Boundary A A Width Height c y x =
        ∑ _c in Finset.Ico 0 NumChannels, ∑ _y in Finset.Ico (Pad + 5) (Height - (Pad + 5)),
          ∑ _x in Finset.Ico (Pad + 5) (Width - (Pad + 5)), (1 : ℚ) :=
      Finset.sum_congr rfl (fun c _ => Finset.sum_congr rfl (fun y _ =>
        Finset.sum_congr rfl (fun x _ => localSsim_self w Boundary A Width Height c y x hw hsum)))
    rw [e, sum_region_const 1 Width Height NumChannels (Pad + 5) (by omega) hW.le hH.le, mul_one]
    exact div_self (ComputeMssim_count_pos Width Height NumChannels Pad hC hW hH).ne'
  · intro c y x _ _ _ _ _ _
    have h := localMoment_sq_le w Boundary A Width Height c y x hw hsum
    have h1 : (0 : ℚ) < MSSIM_C1 := by norm_num [MSSIM_C1, MSSIM_K1]
    have h2 : (0 : ℚ) < MSSIM_C2 := by norm_num [MSSIM_C2, MSSIM_K2]
    have h3 : 0 ≤ (SeparableConv2DAt A w w Boundary Width Height c y x) ^ 2 := sq_nonneg _
    exact (mul_pos (by linarith) (by linarith)).ne'

theorem ComputeMssim_identical_witness :
    ((∀ t ∈ binomialWindow, (0 : ℚ) ≤ t) ∧ binomialWindow.sum = 1 ∧ (1 : Int) ≤ 1 ∧
        (0 : Int) ≤ 0 ∧ (2 : Int) * (0 + 5) < 11 ∧ (2 : Int) * (0 + 5) < 11) ∧
      (ComputeMssim sampleEnv rampImage rampImage 11 11 1 0 = 1 ∧
        ∀ c y x : Int, 0 ≤ c → c < 1 → 0 + 5 ≤ y → y < 11 - 0 - 5 →
          0 + 5 ≤ x → x < 11 - 0 - 5 →
          (2 * (SeparableConv2DAt rampImage binomialWindow binomialWindow nearestValid
              11 11 c y x) ^ 2 + MSSIM_C1) *
            (2 * (SeparableConv2DAt (fun n => rampImage n * rampImage n) binomialWindow
                binomialWindow nearestValid 11 11 c y x
                - (SeparableConv2DAt rampImage binomialWindow binomialWindow nearestValid
                    11 11 c y x) ^ 2) + MSSIM_C2) ≠ 0) :=
  ⟨⟨binomialWindow_nonneg, binomialWindow_sum, by decide, by decide, by decide, by decide⟩,
    ComputeMssim_identical binomialWindow nearestValid (fun _ => 0) (fun _ => 1)
      (fun _ => 2) (fun _ => 3) (fun _ => 4) (fun _ => 5) rampImage 11 11 1 0
      binomialWindow_nonneg binomialWindow_sum (by decide) (by decide) (by decide) (by decide)⟩

/-- C5: for `NumChannels ≥ 1`, `Pad ≥ 0`, `Width > 2(Pad+5)` and `Height > 2(Pad+5)`, with
window taps that are non-negative and sum to `1`, a successful `ComputeMssim(A, B, ...)`
returns a value in `[-1, 1]`. -/
theorem ComputeMssim_range (w : List ℚ) (Boundary : boundaryext)
    (Buffer MuA MuB MuAA MuBB MuAB : Int → ℚ) (A B : Int → ℚ)
    (Width Height NumChannels Pad : Int) (hw : ∀ t ∈ w, 0 ≤ t) (hsum : w.sum = 1)
    (hC : 1 ≤ NumChannels) (hP : 0 ≤ Pad)
    (hW : 2 * (Pad + 5) < Width) (hH : 2 * (Pad + 5) < Height) :
    -1 ≤ ComputeMssim
        { Window := some w, Boundary := Boundary, Buffer := some Buffer, MuA := some MuA,
          MuB := some MuB, MuAA := some MuAA, MuBB := some MuBB, MuAB := some MuAB }
        A B Width Height NumChannels Pad ∧
      ComputeMssim
        { Window := some w, Boundary := Boundary, Buffer := some Buffer, MuA := some MuA,
          MuB := some MuB, MuAA := some MuAA, MuBB := some MuBB, MuAB := some MuAB }
        A B Width Height NumChannels Pad ≤ 1 := by
  rw [ComputeMssim_success, ComputeMssimBody_eq _ _ _ _ _ _ _ _ _ _ _ _ _ (by omega)]
  have hN := ComputeMssim_count_pos Width Height NumChannels Pad hC hW hH
  have hb := fun c y x => abs_le.1 (localSsim_abs_le_one w Boundary A B Width Height c y x hw hsum)
  have hlo := sum_region_le (fun _ _ _ => (-1 : ℚ))
    (fun c y x => localSsim w Boundary A B Width Height c y x) Width Height NumChannels (Pad + 5)
    (fun c y x _ _ _ _ _ _ => (hb c y x).1)
  have hhi := sum_region_le (fun c y x => localSsim w Boundary A B Width Height c y x)
    (fun _ _ _ => (1 : ℚ)) Width Height NumChannels (Pad + 5)
    (fun c y x _ _ _ _ _ _ => (hb c y x).2)
  rw [sum_region_const (-1) Width Height NumChannels (Pad + 5) (by omega) hW.le hH.le] at hlo
  rw [sum_region_const 1 Width Height NumChannels (Pad + 5) (by omega) hW.le hH.le] at hhi
  constructor
  · rw [le_div_iff₀ hN]
    linarith
  · rw [div_le_one hN]
    linarith

theorem ComputeMssim_range_witness :
    ((∀ t ∈ binomialWindow, (0 : ℚ) ≤ t) ∧ binomialWindow.sum = 1 ∧ (1 : Int) ≤ 1 ∧
        (0 : Int) ≤ 0 ∧ (2 : Int) * (0 + 5) < 11 ∧ (2 : Int) * (0 + 5) < 11) ∧
      (-1 ≤ ComputeMssim sampleEnv rampImage rampShifted 11 11 1 0 ∧
        ComputeMssim sampleEnv rampImage rampShifted 11 11 1 0 ≤ 1) :=
  ⟨⟨binomialWindow_nonneg, binomialWindow_sum, by decide, by decide, by decide, by decide⟩,
    ComputeMssim_range binomialWindow nearestValid (fun _ => 0) (fun _ => 1)
      (fun _ => 2) (fun _ => 3) (fun _ => 4) (fun _ => 5) rampImage rampShifted 11 11 1 0
      binomialWindow_nonneg binomialWindow_sum (by decide) (by decide) (by decide) (by decide)⟩

/-- C7: for all images and all `NumChannels`, `Width`, `Height` and every pad `Pad ≥ 0`,
whatever the kernel and the allocations return, `ComputeMssim(A, B, ...)` equals
`ComputeMssim(B, A, ...)`: the five convolved moments are exchanged consistently and the
per-pixel formula is invariant under the exchange. -/
theorem ComputeMssim_symmetric (env : MssimEnv) (A B : Int → ℚ)
    (Width Height NumChannels Pad : Int) (hP : 0 ≤ Pad) :
    ComputeMssim env A B Width Height NumChannels Pad =
      ComputeMssim env B A Width Height NumChannels Pad := by
  obtain ⟨Window, Boundary, Buffer, MuA, MuB, MuAA, MuBB, MuAB⟩ := env
  cases Window with
  | none => rfl
  | some w =>
  cases Buffer with
  | none => rfl
  | some b0 =>
  cases MuA with
  | none => rfl
  | some b1 =>
  cases MuB with
  | none => rfl
  | some b2 =>
  cases MuAA with
  | none => rfl
  | some b3 =>
  cases MuBB with
  | none => rfl
  | some b4 =>
  cases MuAB with
  | none => rfl
  | some b5 =>
    rw [ComputeMssim_success, ComputeMssim_success,
      ComputeMssimBody_eq _ _ _ _ _ _ _ A B _ _ _ _ (by omega),
      ComputeMssimBody_eq _ _ _ _ _ _ _ B A _ _ _ _ (by omega)]
    congr 1
    exact Finset.sum_congr rfl (fun c _ => Finset.sum_congr rfl (fun y _ =>
      Finset.sum_congr rfl (fun x _ => localSsim_symm w Boundary A B Width Height c y x)))

theorem ComputeMssim_symmetric_witness :
    (0 : Int) ≤ 0 ∧
      ComputeMssim sampleEnv rampImage rampShifted 11 11 1 0 =
        ComputeMssim sampleEnv rampShifted rampImage 11 11 1 0 :=
  ⟨by decide, ComputeMssim_symmetric sampleEnv rampImage rampShifted 11 11 1 0 (by decide)⟩

/-! ## Properties of the failure value -/

/-- C12: if the Gaussian kernel is the null filter or any one of the six allocations
(`Buffer`, `MuA`, `MuB`, `MuAA`, `MuBB`, `MuAB`) fails, `ComputeMssim` returns `-1` for every
input `A`, `B`, `Width`, `Height`, `NumChannels`, `Pad`. -/
theorem ComputeMssim_failure_sentinel (env : MssimEnv) (A B : Int → ℚ)
    (Width Height NumChannels Pad : Int)
    (h : env.Window = none ∨ env.Buffer = none ∨ env.MuA = none ∨ env.MuB = none ∨
      env.MuAA = none ∨ env.MuBB = none ∨ env.MuAB = none) :
    ComputeMssim env A B Width Height NumChannels Pad = -1 :=
  ComputeMssim_of_none env A B Width Height NumChannels Pad h

theorem ComputeMssim_failure_sentinel_witness :
    ({ sampleEnv with MuBB := none } : MssimEnv).MuBB = none ∧
      ComputeMssim { sampleEnv with MuBB := none } rampImage rampShifted 11 11 1 0 = -1 :=
  ⟨rfl, ComputeMssim_failure_sentinel { sampleEnv with MuBB := none } rampImage rampShifted
    11 11 1 0 (Or.inr (Or.inr (Or.inr (Or.inr (Or.inr (Or.inl rfl))))))⟩

/-- C19: for `NumChannels ≥ 1`, `Pad ≥ 0`, `Width > 2(Pad+5)` and `Height > 2(Pad+5)`, with
window taps that are non-negative and sum to `1`, the value `ComputeMssim` computes when the
kernel and the allocations succeed is strictly greater than `-1`; hence `ComputeMssim`
returns `-1` exactly when the kernel or an allocation fails, and the `Mssim` that `main`
tests against `-1` is `-1` only after such a failure. -/
theorem ComputeMssim_sentinel_unambiguous (env : MssimEnv) (A B : image)
    (NumChannels Pad : Int)
    (hwin : ∀ w, env.Window = some w → (∀ t ∈ w, 0 ≤ t) ∧ w.sum = 1)
    (hC : 1 ≤ NumChannels) (hP : 0 ≤ Pad)
    (hW : 2 * (Pad + 5) < A.Width) (hH : 2 * (Pad + 5) < A.Height) :
    ((env.Window = none ∨ env.Buffer = none ∨ env.MuA = none ∨ env.MuB = none ∨
          env.MuAA = none ∨ env.MuBB = none ∨ env.MuAB = none) ∨
        -1 < ComputeMssim env A.Data B.Data A.Width A.Height NumChannels Pad) ∧
      (ComputeMssim env A.Data B.Data A.Width A.Height NumChannels Pad = -1 ↔
        (env.Window = none ∨ env.Buffer = none ∨ env.MuA = none ∨ env.MuB = none ∨
          env.MuAA = none ∨ env.MuBB = none ∨ env.MuAB = none)) ∧
      (∀ Max : ℚ, (mainMssim env A B Pad Max).1 = -1 →
        (env.Window = none ∨ env.Buffer = none ∨ env.MuA = none ∨ env.MuB = none ∨
          env.MuAA = none ∨ env.MuBB = none ∨ env.MuAB = none)) := by
  have key : ∀ C : Int, 1 ≤ C →
      ((env.Window = none ∨ env.Buffer = none ∨ env.MuA = none ∨ env.MuB = none ∨
          env.MuAA = none ∨ env.MuBB = none ∨ env.MuAB = none) ∨
        -1 < ComputeMssim env A.Data B.Data A.Width A.Height C Pad) := by
    intro C hC1
    rcases MssimEnv_cases env with hfail | ⟨w, b0, b1, b2, b3, b4, b5, henv⟩
    · exact Or.inl hfail
    · right
      have hw := hwin w (by rw [henv])
      rw [henv, ComputeMssim_success]
      exact ComputeMssimBody_gt_neg_one w env.Boundary b1 b2 b3 b4 b5 A.Data B.Data
        A.Width A.Height C Pad hw.1 hw.2 hC1 hP hW hH
  refine ⟨key NumChannels hC, ⟨fun h => ?_, fun h => ?_⟩, fun Max h => ?_⟩
  · rcases key NumChannels hC with hfail | hgt
    · exact hfail
    · rw [h] at hgt
      exact absurd hgt (lt_irrefl _)
  · exact ComputeMssim_of_none env A.Data B.Data A.Width A.Height NumChannels Pad h
  · unfold mainMssim at h
    split_ifs at h with h0
    · norm_num at h
    · rcases key 3 (by norm_num) with hfail | hgt
      · exact hfail
      · simp only at h
        rw [h] at hgt
        exact absurd hgt (lt_irrefl _)

theorem ComputeMssim_sentinel_unambiguous_witness :
    ((∀ w, sampleEnv.Window = some w → (∀ t ∈ w, (0 : ℚ) ≤ t) ∧ w.sum = 1) ∧
        (1 : Int) ≤ 3 ∧ (0 : Int) ≤ 0 ∧ (2 : Int) * (0 + 5) < 11 ∧ (2 : Int) * (0 + 5) < 12) ∧
      (((sampleEnv.Window = none ∨ sampleEnv.Buffer = none ∨ sampleEnv.MuA = none ∨
            sampleEnv.MuB = none ∨ sampleEnv.MuAA = none ∨ sampleEnv.MuBB = none ∨
            sampleEnv.MuAB = none) ∨
          -1 < ComputeMssim sampleEnv rampImage rampShifted 11 12 3 0) ∧
        (ComputeMssim sampleEnv rampImage rampShifted 11 12 3 0 = -1 ↔
          (sampleEnv.Window = none ∨ sampleEnv.Buffer = none ∨ sampleEnv.MuA = none ∨
            sampleEnv.MuB = none ∨ sampleEnv.MuAA = none ∨ sampleEnv.MuBB = none ∨
            sampleEnv.MuAB = none)) ∧
        (∀ Max : ℚ,
          (mainMssim sampleEnv { Data := rampImage, Width := 11, Height := 12 }
            { Data := rampShifted, Width := 11, Height := 12 } 0 Max).1 = -1 →
          (sampleEnv.Window = none ∨ sampleEnv.Buffer = none ∨ sampleEnv.MuA = none ∨
            sampleEnv.MuB = none ∨ sampleEnv.MuAA = none ∨ sampleEnv.MuBB = none ∨
            sampleEnv.MuAB = none))) :=
  ⟨⟨fun w h => by
      have e : w = binomialWindow := (Option.some.inj h).symm
      rw [e]
      exact ⟨binomialWindow_nonneg, binomialWindow_sum⟩,
      by decide, by decide, by decide, by decide⟩,
    ComputeMssim_sentinel_unambiguous sampleEnv { Data := rampImage, Width := 11, Height := 12 }
      { Data := rampShifted, Width := 11, Height := 12 } 3 0
      (fun w h => by
        have e : w = binomialWindow := (Option.some.inj h).symm
        rw [e]
        exact ⟨binomialWindow_nonneg, binomialWindow_sum⟩)
      (by decide) (by decide) (by decide) (by decide)⟩

/-! ## Properties of the driver's metrics -/

/-- C14: for 3-channel images of equal size, `Pad ≥ 0`, `Width > 2(Pad+5)` and
`Height > 2(Pad+5)`, if the combined `Max` that `main` computes from `BasicMetrics` is `0`,
then the value `1` that `main` assigns to `Mssim` without calling `ComputeMssim` equals what
a successful `ComputeMssim(A, B, Width, Height, 3, Pad)` returns (11 window taps, non-negative,
of sum `1`), whatever the two images hold in the `Pad`-pixel margin. -/
theorem main_short_circuit_exact (w : List ℚ) (Boundary : boundaryext)
    (Buffer MuA MuB MuAA MuBB MuAB : Int → ℚ) (A B : image) (Pad : Int)
    (hw : ∀ t ∈ w, 0 ≤ t) (hsum : w.sum = 1) (hlen : w.length = 11) (hP : 0 ≤ Pad)
    (hdim : A.Width = B.Width ∧ A.Height = B.Height)
    (hW : 2 * (Pad + 5) < A.Width) (hH : 2 * (Pad + 5) < A.Height)
    (hMax : (mainMetrics A B Pad).Max = 0) :
    mainMssim
        { Window := some w, Boundary := Boundary, Buffer := some Buffer, MuA := some MuA,
          MuB := some MuB, MuAA := some MuAA, MuBB := some MuBB, MuAB := some MuAB }
        A B Pad (mainMetrics A B Pad).Max = (1, []) ∧
      ComputeMssim
        { Window := some w, Boundary := Boundary, Buffer := some Buffer, MuA := some MuA,
          MuB := some MuB, MuAA := some MuAA, MuBB := some MuBB, MuAB := some MuAB }
        A.Data B.Data A.Width A.Height 3 Pad = 1 := by
  constructor
  · unfold mainMssim
    rw [if_pos hMax]
  · have hag := agree_of_mainMetrics_Max A B Pad hdim hMax
    rw [ComputeMssim_success,
      ComputeMssimBody_congr w Boundary Boundary MuA MuB MuAA MuBB MuAB MuA MuB MuAA MuBB MuAB
        A.Data B.Data A.Data A.Data A.Width A.Height 3 Pad hlen hP
        (fun _ _ _ _ _ _ _ _ _ => rfl)
        (fun c h1 h2 y h3 h4 x h5 h6 => (hag c h1 h2 y h3 h4 x h5 h6).symm)]
    exact ComputeMssimBody_self w Boundary MuA MuB MuAA MuBB MuAB A.Data A.Width A.Height 3 Pad
      hw hsum (by norm_num) hP hW hH

theorem rampCorner_interior (c : Int) (_h1 : 0 ≤ c) (_h2 : c < 3) (y : Int) (_h3 : 1 ≤ y)
    (_h4 : y < 13 - 1) (x : Int) (h5 : 1 ≤ x) (_h6 : x < 13 - 1) :
    rampImage (x + 13 * (y + 13 * c)) = rampCorner (x + 13 * (y + 13 * c)) := by
  unfold rampCorner
  rw [if_neg (by omega)]

theorem main_short_circuit_exact_witness :
    ((∀ t ∈ binomialWindow, (0 : ℚ) ≤ t) ∧ binomialWindow.sum = 1 ∧
        binomialWindow.length = 11 ∧ (0 : Int) ≤ 1 ∧
        ((13 : Int) = 13 ∧ (13 : Int) = 13) ∧ (2 : Int) * (1 + 5) < 13 ∧
        (2 : Int) * (1 + 5) < 13 ∧ rampImage 0 ≠ rampCorner 0 ∧
        (mainMetrics { Data := rampImage, Width := 13, Height := 13 }
          { Data := rampCorner, Width := 13, Height := 13 } 1).Max = 0) ∧
      (mainMssim sampleEnv { Data := rampImage, Width := 13, Height := 13 }
          { Data := rampCorner, Width := 13, Height := 13 } 1
          (mainMetrics { Data := rampImage, Width := 13, Height := 13 }
            { Data := rampCorner, Width := 13, Height := 13 } 1).Max = (1, []) ∧
        ComputeMssim sampleEnv rampImage rampCorner 13 13 3 1 = 1) :=
  ⟨⟨binomialWindow_nonneg, binomialWindow_sum, rfl, by decide, ⟨rfl, rfl⟩, by decide,
      by decide, by simp [rampCorner, rampImage],
      mainMetrics_Max_eq_zero _ _ 1 ⟨rfl, rfl⟩ rampCorner_interior⟩,
    main_short_circuit_exact binomialWindow nearestValid (fun _ => 0) (fun _ => 1)
      (fun _ => 2) (fun _ => 3) (fun _ => 4) (fun _ => 5)
      { Data := rampImage, Width := 13, Height := 13 }
      { Data := rampCorner, Width := 13, Height := 13 } 1
      binomialWindow_nonneg binomialWindow_sum rfl (by decide) ⟨rfl, rfl⟩ (by decide)
      (by decide) (mainMetrics_Max_eq_zero _ _ 1 ⟨rfl, rfl⟩ rampCorner_interior)⟩

/-- C15: for every `Pad ≥ 0`, every pixel `(x, y)` of the reduction loop of `ComputeMssim`
(`Pad+5 ≤ x < Width-Pad-5`, `Pad+5 ≤ y < Height-Pad-5`) and every tap offset `k` in `-5..5`,
`x+k` lies in `[0, Width)` and `y+k` in `[0, Height)`; hence, with the 11-tap window, the
returned value is the same for every boundary extension. -/
theorem ComputeMssim_boundary_irrelevant (env : MssimEnv) (Boundary2 : boundaryext)
    (A B : Int → ℚ) (Width Height NumChannels Pad : Int)
    (hlen : ∀ w, env.Window = some w → w.length = 11) (hP : 0 ≤ Pad) :
    (∀ x y k : Int, Pad + 5 ≤ x → x < Width - Pad - 5 → Pad + 5 ≤ y → y < Height - Pad - 5 →
        -5 ≤ k → k ≤ 5 → (0 ≤ x + k ∧ x + k < Width) ∧ (0 ≤ y + k ∧ y + k < Height)) ∧
      ComputeMssim env A B Width Height NumChannels Pad =
        ComputeMssim { env with Boundary := Boundary2 } A B Width Height NumChannels Pad := by
  constructor
  · intro x y k h1 h2 h3 h4 h5 h6
    exact ⟨⟨by omega, by omega⟩, ⟨by omega, by omega⟩⟩
  · obtain ⟨Window, Boundary, Buffer, MuA, MuB, MuAA, MuBB, MuAB⟩ := env
    cases Window with
    | none => rfl
    | some w =>
    cases Buffer with
    | none => rfl
    | some b0 =>
    cases MuA with
    | none => rfl
    | some b1 =>
    cases MuB with
    | none => rfl
    | some b2 =>
    cases MuAA with
    | none => rfl
    | some b3 =>
    cases MuBB with
    | none => rfl
    | some b4 =>
    cases MuAB with
    | none => rfl
    | some b5 =>
      show ComputeMssimBody w Boundary b1 b2 b3 b4 b5 A B Width Height NumChannels Pad =
        ComputeMssimBody w Boundary2 b1 b2 b3 b4 b5 A B Width Height NumChannels Pad
      exact ComputeMssimBody_congr w Boundary Boundary2 b1 b2 b3 b4 b5 b1 b2 b3 b4 b5
        A B A B Width Height NumChannels Pad (hlen w rfl) hP
        (fun _ _ _ _ _ _ _ _ _ => rfl) (fun _ _ _ _ _ _ _ _ _ => rfl)

theorem ComputeMssim_boundary_irrelevant_witness :
    ((∀ w, sampleEnv.Window = some w → w.length = 11) ∧ (0 : Int) ≤ 0) ∧
      ((∀ x y k : Int, 0 + 5 ≤ x → x < 11 - 0 - 5 → 0 + 5 ≤ y → y < 11 - 0 - 5 →
          -5 ≤ k → k ≤ 5 → (0 ≤ x + k ∧ x + k < 11) ∧ (0 ≤ y + k ∧ y + k < 11)) ∧
        ComputeMssim sampleEnv rampImage rampShifted 11 11 1 0 =
          ComputeMssim { sampleEnv with Boundary := zeroIndex } rampImage rampShifted
            11 11 1 0) :=
  ⟨⟨fun w h => by
      have e : w = binomialWindow := (Option.some.inj h).symm
      rw [e]
      rfl, by decide⟩,
    ComputeMssim_boundary_irrelevant sampleEnv zeroIndex rampImage rampShifted 11 11 1 0
      (fun w h => by
        have e : w = binomialWindow := (Option.some.inj h).symm
        rw [e]
        rfl) (by decide)⟩

/-- C18: for planar 3-channel images of equal size, `Pad ≥ 0` and `2*Pad < min(Width, Height)`,
the `Max` that `main` obtains as the largest of the three per-channel `BasicMetrics(..., 1,
Pad)` maxima, starting from `0`, and the `Mse` it obtains as the sum of the three per-channel
values divided by `3`, equal the `Max` and `Mse` of the single call
`BasicMetrics(A, B, Width, Height, 3, Pad)`. -/
theorem main_combined_eq_three_channel (A B : image) (Pad : Int)
    (hdim : A.Width = B.Width ∧ A.Height = B.Height) (hP : 0 ≤ Pad)
    (hWH : 2 * Pad < min A.Width A.Height) :
    (mainMetrics A B Pad).Max = (BasicMetrics A.Data B.Data A.Width A.Height 3 Pad).Max ∧
      (mainMetrics A B Pad).Mse = (BasicMetrics A.Data B.Data A.Width A.Height 3 Pad).Mse := by
  have hW : 2 * Pad < A.Width := lt_of_lt_of_le hWH (min_le_left _ _)
  have hH : 2 * Pad < A.Height := lt_of_lt_of_le hWH (min_le_right _ _)
  have c1 := image_count_of_fits A Pad 1 le_rfl (by decide) hP hW hH
  have c3 := image_count_of_fits A Pad 3 (by decide) le_rfl hP hW hH
  constructor
  · apply le_antisymm
    · have h3 := (BasicMetrics_Max_le_iff A.Data B.Data A.Width A.Height 3 Pad _).1 le_rfl
      rw [mainMetrics_Max_le_iff]
      refine ⟨h3.1, fun c h1 h2 => ?_⟩
      rw [channel_Max_le_iff A B Pad c _ hdim]
      exact ⟨h3.1, fun y h4 h5 x h6 h7 => h3.2 c h1 h2 y h4 h5 x h6 h7⟩
    · have h1 := (mainMetrics_Max_le_iff A B Pad _).1 le_rfl
      rw [BasicMetrics_Max_le_iff]
      refine ⟨h1.1, fun c hc1 hc2 y h4 h5 x h6 h7 => ?_⟩
      exact ((channel_Max_le_iff A B Pad c _ hdim).1 (h1.2 c hc1 hc2)).2 y h4 h5 x h6 h7
  · rw [mainMetrics_Mse, BasicMetrics_Mse]
    have e : ∀ c : Int,
        (BasicMetrics (fun n => A.Data (c * A.Width * A.Height + n))
          (fun n => B.Data (c * B.Width * B.Height + n)) A.Width A.Height 1 Pad).Mse =
        (∑ y in Finset.Ico Pad (A.Height - Pad), ∑ x in Finset.Ico Pad (A.Width - Pad),
          (A.Data (x + A.Width * (y + A.Height * c)) -
            B.Data (x + A.Width * (y + A.Height * c))) ^ 2)
          / (((A.Width - 2 * Pad : Int) : ℚ) * ((A.Height - 2 * Pad : Int) : ℚ)) := by
      intro c
      rw [BasicMetrics_Mse, Ico_zero_one, Finset.sum_singleton, ← hdim.1, ← hdim.2]
      congr 1
      · refine Finset.sum_congr rfl (fun y _ => Finset.sum_congr rfl (fun x _ => ?_))
        have e1 : c * A.Width * A.Height + (x + A.Width * (y + A.Height * 0)) =
            x + A.Width * (y + A.Height * c) := by ring
        rw [e1]
      · rw [c1]
        push_cast
        ring
    simp only [e]
    rw [← Finset.sum_div, div_div, c3]
    congr 1
    push_cast
    ring

theorem main_combined_eq_three_channel_witness :
    (((4 : Int) = 4 ∧ (5 : Int) = 5) ∧ (0 : Int) ≤ 1 ∧ (2 : Int) * 1 < min 4 5) ∧
      ((mainMetrics { Data := rampImage, Width := 4, Height := 5 }
          { Data := rampShifted, Width := 4, Height := 5 } 1).Max =
          (BasicMetrics rampImage rampShifted 4 5 3 1).Max ∧
        (mainMetrics { Data := rampImage, Width := 4, Height := 5 }
          { Data := rampShifted, Width := 4, Height := 5 } 1).Mse =
          (BasicMetrics rampImage rampShifted 4 5 3 1).Mse) :=
  ⟨⟨⟨rfl, rfl⟩, by decide, by decide⟩,
    main_combined_eq_three_channel { Data := rampImage, Width := 4, Height := 5 }
      { Data := rampShifted, Width := 4, Height := 5 } 1 ⟨rfl, rfl⟩ (by decide) (by decide)⟩

/-! ## Properties of `ParseParams` -/

/-- Whenever `ParseParams` returns `1`, the parameters have `Pad ≥ 0`, a `D` for which the
test `D <= 0` is false, and both `FileA` and `FileB` set. -/
theorem ParseParams_success (env : ParseEnv) (fuel : Nat) (Param0 : programparams)
    (argv : List String) (P : programparams)
    (h : ParseParams env fuel Param0 argv = some (1, P)) :
    0 ≤ P.Pad ∧ ¬ P.D ≤ 0 ∧ P.FileA ≠ none ∧ P.FileB ≠ none := by
  unfold ParseParams at h
  simp only at h
  split_ifs at h with h1
  · simp at h
  · exact ParseParamsLoop_success env argv fuel _ P 1 h ⟨le_rfl, by decide⟩

/-- C16 fails on the code for a `-D` value that is not a number. On
`imdiff -D nan a.bmp b.bmp` `atof` gives NaN, the test `Param->D <= 0` is false and
`ParseParams` returns `1` with `D` NaN, for which `D > 0` is false. And a `-p` value that
`atoi` reads as negative does not make `ParseParams` return `0` after an argument `-sx`: on
`imdiff -sx -p -3 a.bmp b.bmp` the argument loop never ends, whatever the fuel. -/
theorem ParseParams_accepts_nan :
    (ParseParams sampleParseEnv 20 sampleParam ["imdiff", "-D", "nan", "a.bmp", "b.bmp"] =
        some (1,
          { FileA := some "a.bmp", FileB := some "b.bmp", JpegQuality := 95,
            Metric := metric.DEFAULT_METRICS, SeparateChannels := 0, Pad := 0,
            DifferenceFile := none, D := cfloat.nan }) ∧
        ¬ ((0 : cfloat) < cfloat.nan)) ∧
      (sampleParseEnv.atoi "-3" < 0 ∧
        ∀ fuel : Nat, ParseParams sampleParseEnv fuel sampleParam
          ["imdiff", "-sx", "-p", "-3", "a.bmp", "b.bmp"] = none) := by
  refine ⟨⟨by decide, by decide⟩, by decide, fun fuel => ?_⟩
  have hstep : ∀ Param : programparams,
      ParseParamsStep sampleParseEnv ["imdiff", "-sx", "-p", "-3", "a.bmp", "b.bmp"] Param 1 =
        ParseStep.next { Param with SeparateChannels := 1 } 1 := by
    intro Param
    rw [ParseParamsStep_attached sampleParseEnv
        ["imdiff", "-sx", "-p", "-3", "a.bmp", "b.bmp"] Param 1 's' "x" (by decide) (by decide)
        rfl, ParseOption_s]
    rfl
  have hloop : ∀ (fuel : Nat) (P : programparams),
      ParseParamsLoop sampleParseEnv ["imdiff", "-sx", "-p", "-3", "a.bmp", "b.bmp"] fuel P 1
        = none := by
    intro fuel
    induction fuel with
    | zero =>
      intro P
      rfl
    | succ fuel ih =>
      intro P
      unfold ParseParamsLoop
      rw [if_pos (by decide), hstep P]
      exact ih _
  unfold ParseParams
  simp only
  rw [if_neg (by decide)]
  exact hloop fuel _

/-- C17: the metric selector is not validated. On `imdiff -m foo a.bmp b.bmp` the `-m` case
of the `switch` leaves the parameters as they are and goes on to the next argument, and
`ParseParams` returns `1` with the default metric. -/
theorem ParseParams_unknown_metric_accepted :
    ParseOption sampleParseEnv sampleParam 'm' "foo" 2 = ParseStep.next sampleParam (2 + 1) ∧
      ParseParams sampleParseEnv 20 sampleParam ["imdiff", "-m", "foo", "a.bmp", "b.bmp"] =
        some (1,
          { FileA := some "a.bmp", FileB := some "b.bmp", JpegQuality := 95,
            Metric := metric.DEFAULT_METRICS, SeparateChannels := 0, Pad := 0,
            DifferenceFile := none, D := 20 }) :=
  ⟨ParseOption_unknown_metric sampleParseEnv sampleParam "foo" 2 (by decide) (by decide)
    (by decide) (by decide) (by decide), by decide⟩

/-- C20: `ParseParams` does not terminate on every argument list. The iteration at an
argument `-s` followed by further characters, such as `-sx`, neither returns nor increases
the index `i`, and on `imdiff -sx` the argument loop never ends, whatever the fuel. -/
theorem ParseParams_separate_flag_loops :
    (∀ (env : ParseEnv) (Param : programparams),
        ParseParamsStep env ["imdiff", "-sx"] Param 1 =
          ParseStep.next { Param with SeparateChannels := 1 } 1) ∧
      (∀ (env : ParseEnv) (fuel : Nat) (Param : programparams),
        ParseParams env fuel Param ["imdiff", "-sx"] = none) := by
  have hstep : ∀ (env : ParseEnv) (Param : programparams),
      ParseParamsStep env ["imdiff", "-sx"] Param 1 =
        ParseStep.next { Param with SeparateChannels := 1 } 1 := by
    intro env Param
    rw [ParseParamsStep_attached env ["imdiff", "-sx"] Param 1 's' "x" (by decide) (by decide)
      rfl, ParseOption_s]
    rfl
  refine ⟨hstep, fun env fuel Param => ?_⟩
  have hloop : ∀ (fuel : Nat) (P : programparams),
      ParseParamsLoop env ["imdiff", "-sx"] fuel P 1 = none := by
    intro fuel
    induction fuel with
    | zero =>
      intro P
      rfl
    | succ fuel ih =>
      intro P
      unfold ParseParamsLoop
      rw [if_pos (by decide), hstep env P]
      exact ih _
  unfold ParseParams
  simp only
  rw [if_neg (by decide)]
  exact hloop fuel _

/-! ## Properties of the driver's size tests -/

/-- For a parsed pad with `0 ≤ Pad` whose double fits an `int`, `main` calls `BasicMetrics`
only when `Width > 2*Pad` and `Height > 2*Pad`. -/
theorem mainBody_guarded_basic (env : MainEnv) (Param : programparams) (hP : 0 ≤ Param.Pad)
    (hfit : 2 * Param.Pad < 2147483648) (e : Event) (he : e ∈ (mainBody env Param).events)
    (W H C P : Int) (h : e = Event.BasicMetrics W H C P) : 2 * P < W ∧ 2 * P < H := by
  obtain ⟨k1, -⟩ := mainBody_mem env Param e he
  have w1 : wrapInt (2 * Param.Pad) = 2 * Param.Pad :=
    wrapInt_of_range _ (by omega) (by omega)
  obtain ⟨a1, a2, -, rfl⟩ := k1 W H C P h
  rw [w1] at a1 a2
  omega

/-- C11, as stated, fails: `BasicMetrics` called with `Width = 1 ≤ 2*Pad` returns `Max = 0`
and `Mse = 0`, the very values it returns for two identical images of a valid geometry, and
a successful `ComputeMssim` called with `Width = 9 ≤ 2*(Pad+5)` returns `0`, the quotient of
an empty sum by the count `1*(9-10)*(11-10) = -1`, not the failure value `-1`. -/
theorem metrics_empty_interior_unflagged :
    ((1 : Int) ≤ 2 * 1 ∧
        ((BasicMetrics rampImage rampShifted 1 4 1 1).Max = 0 ∧
          (BasicMetrics rampImage rampShifted 1 4 1 1).Mse = 0) ∧
        ((BasicMetrics rampImage rampImage 4 4 1 0).Max = 0 ∧
          (BasicMetrics rampImage rampImage 4 4 1 0).Mse = 0)) ∧
      ((9 : Int) ≤ 2 * (0 + 5) ∧ (1 : Int) * (9 - 2 * (0 + 5)) * (11 - 2 * (0 + 5)) = -1 ∧
        ComputeMssim sampleEnv rampImage rampShifted 9 11 1 0 = 0 ∧
        ComputeMssim sampleEnv rampImage rampShifted 9 11 1 0 ≠ -1) := by
  have h1 := BasicMetrics_empty rampImage rampShifted 1 4 1 1 (Or.inl (by decide)) (by decide)
  have h2 := BasicMetrics_of_agree rampImage rampImage 4 4 1 0 (by decide) (by decide)
    (by decide) (fun c _ _ y _ _ x _ _ => rfl)
  have h3 : ComputeMssim sampleEnv rampImage rampShifted 9 11 1 0 = 0 :=
    ComputeMssimBody_empty binomialWindow nearestValid (fun _ => 1) (fun _ => 2)
      (fun _ => 3) (fun _ => 4) (fun _ => 5) rampImage rampShifted 9 11 1 0
      (Or.inl (by decide)) (by decide)
  refine ⟨⟨by decide, h1, h2⟩, by decide, by decide, h3, ?_⟩
  rw [h3]
  norm_num

/-- C11, amended: `BasicMetrics` and `ComputeMssim` make no geometry check of their own. Called
with `Width ≤ 2*Pad` or `Height ≤ 2*Pad` (for a `ComputeMssim` past its allocation guard:
`2*(Pad+5)`) their loops visit no pixel: the sum stays `0`, `Max` is `0`, and the value
returned is the C quotient of `0` by the `int` pixel count, which is `0` for a non-zero count
and NaN for a zero count; nothing is flagged. The empty interior is rejected by the caller:
for a parsed pad with `0 ≤ Pad`, `main` calls `BasicMetrics` only when `Width > 2*Pad` and
`Height > 2*Pad`, provided `2*Pad` is representable as `int`, and `ComputeMssim` only when
`Width > 2*(5+Pad)` and `Height > 2*(5+Pad)`, provided `2*(5+Pad)` is. -/
theorem empty_interior_rejected_by_main :
    (∀ (A B : Int → ℚ) (Width Height NumChannels Pad : Int),
        Width ≤ 2 * Pad ∨ Height ≤ 2 * Pad →
        (BasicMetricsLoop A B Width Height NumChannels Pad).AccumMse = 0 ∧
          (BasicMetrics A B Width Height NumChannels Pad).Max = 0 ∧
          (BasicMetricsMse A B Width Height NumChannels Pad =
            if BasicMetricsCount Width Height NumChannels Pad = 0 then cfloat.nan
            else cfloat.val 0) ∧
          (BasicMetricsCount Width Height NumChannels Pad ≠ 0 →
            (BasicMetrics A B Width Height NumChannels Pad).Mse = 0)) ∧
      (∀ (w : List ℚ) (Boundary : boundaryext) (Buffer MuA MuB MuAA MuBB MuAB : Int → ℚ)
        (A B : Int → ℚ) (Width Height NumChannels Pad : Int),
        Width ≤ 2 * (Pad + 5) ∨ Height ≤ 2 * (Pad + 5) →
        ComputeMssimSum w Boundary MuA MuB MuAA MuBB MuAB A B Width Height NumChannels Pad
            = 0 ∧
          (ComputeMssimValue w Boundary MuA MuB MuAA MuBB MuAB A B Width Height NumChannels Pad
            = if ComputeMssimCount Width Height NumChannels Pad = 0 then cfloat.nan
              else cfloat.val 0) ∧
          (ComputeMssimCount Width Height NumChannels Pad ≠ 0 →
            ComputeMssim
                { Window := some w, Boundary := Boundary, Buffer := some Buffer,
                  MuA := some MuA, MuB := some MuB, MuAA := some MuAA, MuBB := some MuBB,
                  MuAB := some MuAB }
                A B Width Height NumChannels Pad = 0)) ∧
      (∀ (env : MainEnv) (Param : programparams), 0 ≤ Param.Pad →
        2 * Param.Pad < 2147483648 → ∀ e ∈ (mainBody env Param).events,
          ∀ W H C P, e = Event.BasicMetrics W H C P → 2 * P < W ∧ 2 * P < H) ∧
      (∀ (env : MainEnv) (Param : programparams), 0 ≤ Param.Pad →
        2 * (5 + Param.Pad) < 2147483648 → ∀ e ∈ (mainBody env Param).events,
          ∀ W H C P, e = Event.ComputeMssim W H C P →
            2 * (P + 5) < W ∧ 2 * (P + 5) < H) := by
  refine ⟨fun A B W H C P h => ?_, ?_, ?_, ?_⟩
  · exact ⟨(BasicMetricsLoop_empty A B W H C P h).2, (BasicMetricsLoop_empty A B W H C P h).1,
      BasicMetricsMse_empty A B W H C P h, fun hc => (BasicMetrics_empty A B W H C P h hc).2⟩
  · intro w Boundary Buffer MuA MuB MuAA MuBB MuAB A B W H C P h
    refine ⟨ComputeMssimSum_empty w Boundary MuA MuB MuAA MuBB MuAB A B W H C P h,
      ComputeMssimValue_empty w Boundary MuA MuB MuAA MuBB MuAB A B W H C P h, fun hc => ?_⟩
    rw [ComputeMssim_success]
    exact ComputeMssimBody_empty w Boundary MuA MuB MuAA MuBB MuAB A B W H C P h hc
  · intro env Param hP hfit e he W H C P h
    exact mainBody_guarded_basic env Param hP hfit e he W H C P h
  · intro env Param hP hfit e he W H C P h
    exact (mainBody_guarded env Param hP hfit e he).2 W H C P h

theorem sampleBody_call :
    Event.BasicMetrics 4 5 1 1 ∈ (mainBody sampleMainEnv { sampleParsed with Pad := 1 }).events := by
  rw [mainBody_metrics sampleMainEnv { sampleParsed with Pad := 1 }
    { Data := rampImage, Width := 4, Height := 5 }
    { Data := rampShifted, Width := 4, Height := 5 } rfl rfl ⟨rfl, rfl⟩ (by decide) rfl]
  apply List.mem_append_left
  rw [mainMetrics_events]
  exact List.mem_cons_self _ _

/-- The combined `Max` of the ramp and the shifted ramp is not `0`. -/
theorem sampleWide_Max_ne_zero :
    (mainMetrics { Data := rampImage, Width := 11, Height := 12 }
      { Data := rampShifted, Width := 11, Height := 12 } 0).Max ≠ 0 := by
  intro h0
  have h1 := ((mainMetrics_Max_le_iff { Data := rampImage, Width := 11, Height := 12 }
    { Data := rampShifted, Width := 11, Height := 12 } 0 0).1 h0.le).2 0 le_rfl (by decide)
  have h2 := ((BasicMetrics_Max_le_iff _ _ _ _ _ _ _).1 h1).2 0 le_rfl (by decide)
    0 le_rfl (by decide) 0 le_rfl (by decide)
  simp only [rampShifted, rampImage] at h2
  norm_num at h2

theorem sampleWide_call :
    Event.ComputeMssim 11 12 3 0 ∈ (mainBody sampleMainEnvWide sampleParsedMssim).events := by
  rw [mainBody_metrics sampleMainEnvWide sampleParsedMssim
    { Data := rampImage, Width := 11, Height := 12 }
    { Data := rampShifted, Width := 11, Height := 12 } rfl rfl ⟨rfl, rfl⟩ (by decide) rfl]
  apply List.mem_append_right
  have hsmall : ¬ mainTooSmall { Data := rampImage, Width := 11, Height := 12 } 0 := by
    decide
  simp only [mainReport, sampleParsedMssim, mainMssim]
  rw [if_neg hsmall, if_neg sampleWide_Max_ne_zero]
  exact List.mem_append_left _ (List.mem_cons_self _ _)

theorem empty_interior_rejected_by_main_witness :
    ((((2 : Int) ≤ 2 * 1 ∨ (4 : Int) ≤ 2 * 1) ∧ BasicMetricsCount 2 4 1 1 = 0) ∧
        (BasicMetricsLoop rampImage rampShifted 2 4 1 1).AccumMse = 0 ∧
        (BasicMetrics rampImage rampShifted 2 4 1 1).Max = 0 ∧
        BasicMetricsMse rampImage rampShifted 2 4 1 1 = cfloat.nan) ∧
      ((((1 : Int) ≤ 2 * 1 ∨ (4 : Int) ≤ 2 * 1) ∧ BasicMetricsCount 1 4 1 1 ≠ 0) ∧
        BasicMetricsMse rampImage rampShifted 1 4 1 1 = cfloat.val 0 ∧
        (BasicMetrics rampImage rampShifted 1 4 1 1).Mse = 0) ∧
      ((((10 : Int) ≤ 2 * (0 + 5) ∨ (11 : Int) ≤ 2 * (0 + 5)) ∧
          ComputeMssimCount 10 11 1 0 = 0) ∧
        ComputeMssimValue binomialWindow nearestValid (fun _ => 1) (fun _ => 2) (fun _ => 3)
          (fun _ => 4) (fun _ => 5) rampImage rampShifted 10 11 1 0 = cfloat.nan) ∧
      ((((9 : Int) ≤ 2 * (0 + 5) ∨ (11 : Int) ≤ 2 * (0 + 5)) ∧
          ComputeMssimCount 9 11 1 0 ≠ 0) ∧
        ComputeMssim sampleEnv rampImage rampShifted 9 11 1 0 = 0) ∧
      (((0 : Int) ≤ 1 ∧ (2 : Int) * 1 < 2147483648 ∧
          Event.BasicMetrics 4 5 1 1 ∈
            (mainBody sampleMainEnv { sampleParsed with Pad := 1 }).events) ∧
        ((2 : Int) * 1 < 4 ∧ (2 : Int) * 1 < 5)) ∧
      (((0 : Int) ≤ 0 ∧ (2 : Int) * (5 + 0) < 2147483648 ∧
          Event.ComputeMssim 11 12 3 0 ∈
            (mainBody sampleMainEnvWide sampleParsedMssim).events) ∧
        ((2 : Int) * (0 + 5) < 11 ∧ (2 : Int) * (0 + 5) < 12)) :=
  ⟨⟨⟨Or.inl (by decide), by decide⟩,
      (empty_interior_rejected_by_main.1 rampImage rampShifted 2 4 1 1
        (Or.inl (by decide))).1,
      (empty_interior_rejected_by_main.1 rampImage rampShifted 2 4 1 1
        (Or.inl (by decide))).2.1,
      ((empty_interior_rejected_by_main.1 rampImage rampShifted 2 4 1 1
        (Or.inl (by decide))).2.2.1).trans (if_pos (by decide))⟩,
    ⟨⟨Or.inl (by decide), by decide⟩,
      ((empty_interior_rejected_by_main.1 rampImage rampShifted 1 4 1 1
        (Or.inl (by decide))).2.2.1).trans (if_neg (by decide)),
      (empty_interior_rejected_by_main.1 rampImage rampShifted 1 4 1 1
        (Or.inl (by decide))).2.2.2 (by decide)⟩,
    ⟨⟨Or.inl (by decide), by decide⟩,
      ((empty_interior_rejected_by_main.2.1 binomialWindow nearestValid (fun _ => 0)
        (fun _ => 1) (fun _ => 2) (fun _ => 3) (fun _ => 4) (fun _ => 5) rampImage
        rampShifted 10 11 1 0 (Or.inl (by decide))).2.1).trans (if_pos (by decide))⟩,
    ⟨⟨Or.inl (by decide), by decide⟩,
      (empty_interior_rejected_by_main.2.1 binomialWindow nearestValid (fun _ => 0)
        (fun _ => 1) (fun _ => 2) (fun _ => 3) (fun _ => 4) (fun _ => 5) rampImage
        rampShifted 9 11 1 0 (Or.inl (by decide))).2.2 (by decide)⟩,
    ⟨⟨by decide, by decide, sampleBody_call⟩,
      empty_interior_rejected_by_main.2.2.1 sampleMainEnv { sampleParsed with Pad := 1 }
        (by decide) (by decide) _ sampleBody_call 4 5 1 1 rfl⟩,
    ⟨⟨by decide, by decide, sampleWide_call⟩,
      empty_interior_rejected_by_main.2.2.2 sampleMainEnvWide sampleParsedMssim
        (by decide) (by decide) _ sampleWide_call 11 12 3 0 rfl⟩⟩

/-- C13 fails for a large pad. `ParseParams` accepts `-p 1073741824`; in `main` the `int`
product `2*Param.Pad` does not fit 32 bits, the size test `A.Width <= 2*Param.Pad` compares
against the wrapped value and passes, and `BasicMetrics` is called on 4×5 images with
`Pad = 1073741824` although `Width ≤ 2*Pad`; the `int` value of its divisor
`1*(4 - 2*Pad)*(5 - 2*Pad)` is negative. `main` ends with status `0`. -/
theorem main_pad_overflow_unguarded :
    ∃ r, main sampleMainEnv 20 ["imdiff", "-p", "1073741824", "a.bmp", "b.bmp"] = some r ∧
      r.Status = 0 ∧ Event.BasicMetrics 4 5 1 1073741824 ∈ r.events ∧
      (4 : Int) ≤ 2 * 1073741824 ∧
      wrapInt (wrapInt (1 * wrapInt (4 - wrapInt (2 * 1073741824))) *
        wrapInt (5 - wrapInt (2 * 1073741824))) < 0 := by
  have hparse : ParseParams sampleMainEnv.parse 20 sampleMainEnv.Param
      ["imdiff", "-p", "1073741824", "a.bmp", "b.bmp"] = some (1, sampleParsedHuge) := by
    decide
  have hbody := mainBody_metrics sampleMainEnv sampleParsedHuge
    { Data := rampImage, Width := 4, Height := 5 }
    { Data := rampShifted, Width := 4, Height := 5 } rfl rfl ⟨rfl, rfl⟩ (by decide) rfl
  refine ⟨mainBody sampleMainEnv sampleParsedHuge,
    main_of_parse sampleMainEnv 20 _ sampleParsedHuge hparse, ?_, ?_, by decide, by decide⟩
  · rw [hbody]
  · rw [hbody]
    apply List.mem_append_left
    rw [mainMetrics_events]
    exact List.mem_cons_self _ _

end Imdiff
